import Mathlib

/-!
MiniBrowser injected bundle: symbol rebinding and inline hooks.

A shallow embedding of `Tools/MiniBrowser/MiniBrowserInjectedBundle/InjectedBundle.c`
(and of the replacement function of `WebContentHook/MiniBrowserWebContentHook.c`),
built for an LP64 target: pointers and `size_t` are 64 bits wide, `sizeof(void *)` is 8.

Conventions of the embedding.

* A pointer value is a natural number below `2 ^ 64`; `0` is `NULL`.
* A `char *` is the list of the characters stored from the pointed address on;
  the C string it denotes ends at the first NUL (or at the end of the list).
* The pointer-sized cells of the loaded images (the indirect symbol pointers) live in
  `State.mem`, keyed by address.  The cells a `void **replaced` points to (the output
  locations of the rebindings, variables of the hooking client) live in the separate
  store `State.replaced`, keyed by a location number; `none` is the null `replaced`.
* Code bytes (hook targets and trampolines) live in `State.code`, keyed by address.
* What the operating system answers (`vm_protect`, `malloc`, `mmap`, `getenv`, `dlopen`,
  `dlsym`, calls through function pointers) is given by a `World`; the answers of
  `vm_protect`, `malloc`, `mmap` and of the called functions may depend on the events that
  happened so far.
* `State.trace` records, oldest first, the calls made to the logging interface, to the
  kernel, to the allocator and to the dynamic linker, the calls through function pointers
  and the stores into pointer slots.
* The signed subtraction of `write_absolute_jump` wraps around in two's complement.
-/

namespace InjectedBundle

/-! ## C strings -/

/-- Pointer values; `0` is `NULL`. -/
abbrev Ptr := Nat

/-- The string terminator. -/
def NUL : Char := Char.ofNat 0

/-- The C string found at a `char *`: the characters before the first terminator. -/
def cstr : List Char → List Char
  | [] => []
  | c :: cs => if c = NUL then [] else c :: cstr cs

/-- The libc `strcmp`: zero exactly when both C strings are equal, otherwise the difference
of the first two characters that differ (the end of a list reads as the terminator). -/
def strcmp : List Char → List Char → Int
  | [], [] => 0
  | [], b :: _ => - (b.toNat : Int)
  | a :: _, [] => (a.toNat : Int)
  | a :: as, b :: bs =>
    if a = b then (if a = NUL then 0 else strcmp as bs)
    else (a.toNat : Int) - (b.toNat : Int)

/-! ## Data model -/

/-- The C `struct rebinding`. -/
structure rebinding where
  /-- `const char *name` -/
  name : List Char
  /-- `void *replacement` -/
  replacement : Ptr
  /-- `void **replaced`: `none` is `NULL`, `some l` points to output location `l` -/
  replaced : Option Nat
  deriving DecidableEq

/-- The C `struct rebindings_entry`, without its `next` pointer: the registry is the list of
its entries, head first.  The array `rebindings` of `rebindings_nel` elements is a list. -/
structure rebindings_entry where
  rebindings : List rebinding

/-- The fields of `section_t` (`struct section_64`) the engine reads. -/
structure section_t where
  addr : Nat
  size : Nat
  reserved1 : Nat

/-- The field of `nlist_t` (`struct nlist_64`) the engine reads: `n_un.n_strx`. -/
structure nlist_t where
  n_strx : Nat

/-- An argument of a formatted log line. -/
inductive Arg where
  | s (value : List Char)
  | p (value : Ptr)
  | d (value : Int)
  deriving DecidableEq

/-- What the trace records. -/
inductive Event where
  /-- a line handed to the logging interface (`log_line_always`, `log_line_if_enabled`) -/
  | log (message : String)
  /-- a formatted line handed to the logging interface (`log_format_if_enabled`) -/
  | log_format (format : String) (args : List Arg)
  /-- a call `vm_protect(mach_task_self(), address, size, false, protection)` -/
  | vm_protect (address size protection : Nat)
  /-- a store `indirect_symbol_bindings[i] = value` into the pointer slot at `address` -/
  | store (address : Nat) (value : Ptr)
  /-- a call `malloc(size)` -/
  | malloc (size : Nat)
  /-- a call `mmap(NULL, length, PROT_READ | PROT_WRITE | PROT_EXEC, MAP_PRIVATE | MAP_ANON,
  -1, 0)` -/
  | mmap (length : Nat)
  /-- a call `sys_icache_invalidate(address, size)` -/
  | icache_invalidate (address size : Nat)
  /-- a call `_dyld_register_func_for_add_image(rebind_symbols_for_image)` -/
  | register_add_image
  /-- a call `(*function)(domain, feature)` through a function pointer -/
  | call (function : Ptr) (domain feature : Option (List Char))
  deriving DecidableEq

/-- A load command of a Mach-O header, with the fields the engine reads. -/
inductive load_command where
  /-- `LC_SEGMENT_64`: `segname`, `vmaddr`, `fileoff`, and the sections with their
  `sectname` -/
  | segment (segname : List Char) (vmaddr fileoff : Nat)
      (sections : List (List Char × section_t))
  /-- `LC_SYMTAB`: `symoff`, `stroff` -/
  | symtab (symoff stroff : Nat)
  /-- `LC_DYSYMTAB`: `indirectsymoff` -/
  | dysymtab (indirectsymoff : Nat)
  /-- any other command -/
  | other

/-- A Mach-O header: its `magic` and its `ncmds` load commands. -/
structure mach_header where
  magic : Nat
  commands : List load_command

/-- A loaded image as the dynamic linker describes it: header and slide. -/
structure Image where
  header : mach_header
  slide : Int

/-- What the environment answers. -/
structure World where
  /-- whether the build defines `__arm64__` -/
  arm64 : Bool
  /-- `getpagesize()` -/
  getpagesize : Nat
  /-- the `kern_return_t` of `vm_protect`, given the events so far, the address, the size
  and the protection asked for -/
  vm_protect : List Event → Nat → Nat → Nat → Nat
  /-- whether `malloc(size)` returns a block, given the events so far -/
  malloc : List Event → Nat → Bool
  /-- what `mmap` returns for an anonymous mapping of the given length, given the events
  so far: the address of a fresh block, or `MAP_FAILED` -/
  mmap : List Event → Nat → Nat
  /-- `getenv(name)`: `none` when the variable is unset -/
  getenv : String → Option (List Char)
  /-- the handle `dlopen(path, RTLD_NOW | RTLD_GLOBAL)` returns, `0` when it fails; the
  one library the bundle opens is a part of the system library every process has loaded,
  so that the call adds no image -/
  dlopen : String → Ptr
  /-- the message `dlerror()` returns after a failed `dlopen` -/
  dlerror : List Char
  /-- `dlsym(handle, name)` -/
  dlsym : Ptr → String → Ptr
  /-- what the function at a pointer returns for `(domain, feature)`, given the events so
  far -/
  call : List Event → Ptr → Option (List Char) → Option (List Char) → Bool
  /-- the address of the function `replacement_os_feature_enabled_impl` of the bundle -/
  replacement_address : Ptr
  /-- the `nlist_t` array stored at an address -/
  symtab_at : Nat → Nat → nlist_t
  /-- the characters stored from an address on -/
  strtab_at : Nat → List Char
  /-- the `uint32_t` array stored at an address -/
  indirect_symtab_at : Nat → Nat → Nat

/-- The process state the engine reads and writes. -/
structure State where
  /-- pointer-sized cells of the loaded images, by address -/
  mem : Nat → Ptr
  /-- the cells the `replaced` pointers of the rebindings point to, by location -/
  replaced : Nat → Ptr
  /-- code bytes, by address -/
  code : Nat → Nat
  /-- `static struct rebindings_entry *rebindings_head`: the registry, head first -/
  rebindings_head : List rebindings_entry
  /-- `static bool did_log_rebind_feature_impl` -/
  did_log_rebind_feature_impl : Bool
  /-- `static bool did_log_rebind_feature_simple_impl` -/
  did_log_rebind_feature_simple_impl : Bool
  /-- `static bool did_log_feature` -/
  did_log_feature : Bool
  /-- `static bool did_log_first_call` -/
  did_log_first_call : Bool
  /-- `static bool did_install_hooks` -/
  did_install_hooks : Bool
  /-- how many times `rebind_symbols_for_image` has been registered with the dynamic
  linker as an image-added callback -/
  add_image_callbacks : Nat
  /-- the images the dynamic linker has loaded, by index -/
  images : List Image
  /-- the events so far, oldest first -/
  trace : List Event

/-! ## Constants of the system headers -/

/-- `INDIRECT_SYMBOL_LOCAL` of `<mach-o/loader.h>`. -/
def INDIRECT_SYMBOL_LOCAL : Nat := 0x80000000

/-- `INDIRECT_SYMBOL_ABS` of `<mach-o/loader.h>`. -/
def INDIRECT_SYMBOL_ABS : Nat := 0x40000000

/-- `KERN_SUCCESS` of `<mach/kern_return.h>`. -/
def KERN_SUCCESS : Nat := 0

/-- `VM_PROT_READ` of `<mach/vm_prot.h>`. -/
def VM_PROT_READ : Nat := 1

/-- `VM_PROT_WRITE` of `<mach/vm_prot.h>`. -/
def VM_PROT_WRITE : Nat := 2

/-- `VM_PROT_EXECUTE` of `<mach/vm_prot.h>`. -/
def VM_PROT_EXECUTE : Nat := 4

/-! ## Logging -/

/-- `should_log`. -/
def should_log : Bool := true

/-- Appends an event to the trace. -/
def State.emit (s : State) (e : Event) : State :=
  { s with trace := s.trace ++ [e] }

/-- `log_line_always`: hands the line to the logging interface. -/
def log_line_always (message : String) (s : State) : State :=
  s.emit (.log message)

/-- `log_line_if_enabled`. -/
def log_line_if_enabled (message : String) (s : State) : State :=
  if !should_log then s else s.emit (.log message)

/-- `log_format_if_enabled`. -/
def log_format_if_enabled (format : String) (args : List Arg) (s : State) : State :=
  if !should_log then s else s.emit (.log_format format args)

/-! ## Memory protection -/

/-- The 64-bit complement `~x`. -/
def not64 (x : Nat) : Nat := 2 ^ 64 - 1 - x % 2 ^ 64

/-- `page_start` of `set_memory_protection`. -/
def page_start (w : World) (address : Nat) : Nat :=
  address &&& not64 ((w.getpagesize + 2 ^ 64 - 1) % 2 ^ 64)

/-- `page_end` of `set_memory_protection`. -/
def page_end (w : World) (address size : Nat) : Nat :=
  ((address + size + w.getpagesize + 2 ^ 64 - 1) % 2 ^ 64)
    &&& not64 ((w.getpagesize + 2 ^ 64 - 1) % 2 ^ 64)

/-- `length` of `set_memory_protection`: `page_end - page_start` in 64 bits. -/
def page_length (w : World) (address size : Nat) : Nat :=
  (page_end w address size + 2 ^ 64 - page_start w address) % 2 ^ 64

/-- `set_memory_protection`: asks the kernel for `protection` on the pages that hold
`[address, address + size)`; logs and returns `false` when the kernel refuses. -/
def set_memory_protection (w : World) (address size protection : Nat) (s : State) :
    Bool × State :=
  let kr := w.vm_protect s.trace (page_start w address) (page_length w address size) protection
  let s1 := s.emit (.vm_protect (page_start w address) (page_length w address size) protection)
  if kr ≠ KERN_SUCCESS then
    (false, log_format_if_enabled "vm_protect failed: %d" [.d kr] s1)
  else
    (true, s1)

/-! ## The rebinding engine -/

/-- The inner `for` loop of the search of `perform_rebinding_with_section`: the first
rebinding of the batch, in index order, whose name compares equal to `name`. -/
def find_in_entry (name : List Char) : List rebinding → Option rebinding
  | [] => none
  | r :: rs => if strcmp name r.name = 0 then some r else find_in_entry name rs

/-- The `while (cur)` loop of the search: the batches are visited from the head of the
registry on, and the search stops at the first match (`goto symbol_bound`). -/
def find_rebinding (name : List Char) : List rebindings_entry → Option rebinding
  | [] => none
  | cur :: next =>
    match find_in_entry name cur.rebindings with
    | some r => some r
    | none => find_rebinding name next

/-- How one iteration of the slot loop ends. -/
inductive Flow where
  /-- the iteration is over, the loop goes on; carries `did_make_writable` -/
  | next (s : State) (did_make_writable : Bool)
  /-- the `return` inside the loop -/
  | ret (s : State)

/-- `indirect_symbol_bindings`, the address of the first pointer slot:
`(uintptr_t)slide + section->addr`. -/
def bindings_base (sect : section_t) (slide : Int) : Nat :=
  ((slide + (sect.addr : Int)) % 2 ^ 64).toNat

/-- The address of `indirect_symbol_bindings[i]`. -/
def slot_address (sect : section_t) (slide : Int) (i : Nat) : Nat :=
  bindings_base sect slide + 8 * i

/-- `count`: `(uint32_t)(section->size / sizeof(void *))`. -/
def slot_count (sect : section_t) : Nat :=
  (sect.size / 8) % 2 ^ 32

/-- The symbol a slot imports, when the loop body gets as far as the search:
`none` when the iteration ends at one of the three `continue`s, otherwise the characters
at `&symbol_name[1]`. -/
def slot_symbol (sect : section_t) (symtab : Nat → nlist_t) (strtab : List Char)
    (indirect_symtab : Nat → Nat) (i : Nat) : Option (List Char) :=
  let symtab_index := indirect_symtab (sect.reserved1 + i)
  if symtab_index = INDIRECT_SYMBOL_ABS ∨ symtab_index = INDIRECT_SYMBOL_LOCAL
      ∨ symtab_index = (INDIRECT_SYMBOL_LOCAL ||| INDIRECT_SYMBOL_ABS) then none
  else
    let strtab_offset := (symtab symtab_index).n_strx
    if strtab_offset = 0 then none
    else
      let symbol_name := strtab.drop strtab_offset
      if symbol_name.head? ≠ some '_' then none
      else some (symbol_name.drop 1)

/-- The statements run for a matching rebinding `r` at slot `i` once the section is
writable: the capture of the original, the two one-time log lines, and the store into
the slot. -/
def apply_rebinding (sect : section_t) (slide : Int) (symtab : Nat → nlist_t)
    (strtab : List Char) (indirect_symtab : Nat → Nat) (i : Nat) (r : rebinding)
    (s : State) : State :=
  let address := slot_address sect slide i
  let symbol_name := strtab.drop (symtab (indirect_symtab (sect.reserved1 + i))).n_strx
  let s1 : State :=
    match r.replaced with
    | some l =>
      if s.replaced l = 0 then
        { s with replaced := Function.update s.replaced l (s.mem address) }
      else s
    | none => s
  let s2 : State :=
    if s1.did_log_rebind_feature_impl = false
        ∧ strcmp r.name "_os_feature_enabled_impl".toList = 0 then
      log_format_if_enabled "rebound %s: %p -> %p"
        [.s (cstr symbol_name), .p (s1.mem address), .p r.replacement]
        { s1 with did_log_rebind_feature_impl := true }
    else s1
  let s3 : State :=
    if s2.did_log_rebind_feature_simple_impl = false
        ∧ strcmp r.name "_os_feature_enabled_simple_impl".toList = 0 then
      log_format_if_enabled "rebound %s: %p -> %p"
        [.s (cstr symbol_name), .p (s2.mem address), .p r.replacement]
        { s2 with did_log_rebind_feature_simple_impl := true }
    else s2
  { s3 with mem := Function.update s3.mem address r.replacement }.emit
    (.store address r.replacement)

/-- The statements run for a matching rebinding `r` at slot `i`, from the protection
request to the store into the slot and the `goto symbol_bound`. -/
def bind_slot (w : World) (sect : section_t) (slide : Int) (symtab : Nat → nlist_t)
    (strtab : List Char) (indirect_symtab : Nat → Nat) (make_writable : Bool)
    (i : Nat) (r : rebinding) (s : State) (did_make_writable : Bool) : Flow :=
  if make_writable = true ∧ did_make_writable = false then
    match set_memory_protection w (bindings_base sect slide) sect.size
        (VM_PROT_READ ||| VM_PROT_WRITE) s with
    | (false, s1) => .ret (log_line_if_enabled "failed to make symbol pointers writable" s1)
    | (true, s1) =>
      .next (apply_rebinding sect slide symtab strtab indirect_symtab i r s1) true
  else
    .next (apply_rebinding sect slide symtab strtab indirect_symtab i r s) did_make_writable

/-- The body of the slot loop of `perform_rebinding_with_section`, for slot `i`. -/
def rebind_slot (w : World) (rebindings : List rebindings_entry) (sect : section_t)
    (slide : Int) (symtab : Nat → nlist_t) (strtab : List Char)
    (indirect_symtab : Nat → Nat) (make_writable : Bool)
    (i : Nat) (s : State) (did_make_writable : Bool) : Flow :=
  match slot_symbol sect symtab strtab indirect_symtab i with
  | none => .next s did_make_writable
  | some name =>
    match find_rebinding name rebindings with
    | none => .next s did_make_writable
    | some r =>
      bind_slot w sect slide symtab strtab indirect_symtab make_writable i r s
        did_make_writable

/-- The loop `for (uint32_t i = ...; i < count; i++)`, with `n` iterations left to run
from slot `i` on. -/
def slots_loop (w : World) (rebindings : List rebindings_entry) (sect : section_t)
    (slide : Int) (symtab : Nat → nlist_t) (strtab : List Char)
    (indirect_symtab : Nat → Nat) (make_writable : Bool) :
    Nat → Nat → State → Bool → Flow
  | 0, _, s, did => .next s did
  | n + 1, i, s, did =>
    match rebind_slot w rebindings sect slide symtab strtab indirect_symtab make_writable
        i s did with
    | .next s1 did1 =>
      slots_loop w rebindings sect slide symtab strtab indirect_symtab make_writable
        n (i + 1) s1 did1
    | .ret s1 => .ret s1

/-- `perform_rebinding_with_section`. -/
def perform_rebinding_with_section (w : World) (rebindings : List rebindings_entry)
    (sect : section_t) (slide : Int) (symtab : Nat → nlist_t) (strtab : List Char)
    (indirect_symtab : Nat → Nat) (make_writable : Bool) (s : State) : State :=
  match slots_loop w rebindings sect slide symtab strtab indirect_symtab make_writable
      (slot_count sect) 0 s false with
  | .ret s1 => s1
  | .next s1 did_make_writable =>
    if make_writable = true ∧ did_make_writable = true then
      (set_memory_protection w (bindings_base sect slide) sect.size VM_PROT_READ s1).2
    else s1

/-! ## The inline hook -/

/-- The cast `(int64_t)x` of a 64-bit unsigned value. -/
def to_int64 (x : Nat) : Int :=
  if x % 2 ^ 64 < 2 ^ 63 then ((x % 2 ^ 64 : Nat) : Int) else ((x % 2 ^ 64 : Nat) : Int) - 2 ^ 64

/-- The value an `int64_t` holds after an arithmetic operation whose exact result is `x`
(two's complement wrap-around). -/
def wrap_int64 (x : Int) : Int :=
  (x + 2 ^ 63) % 2 ^ 64 - 2 ^ 63

/-- The 64-bit pattern of an `int64_t`, as the operand of `&`. -/
def to_uint64 (x : Int) : Nat :=
  (x % 2 ^ 64).toNat

/-- The cast `(uint32_t)x`, and the result of 32-bit unsigned arithmetic. -/
def to_uint32 (x : Nat) : Nat :=
  x % 2 ^ 32

/-- The local `imm` of `write_absolute_jump`: the page displacement
`((int64_t)target_page - (int64_t)pc_page) >> 12`. -/
def adrp_imm (from_addr to_addr : Nat) : Int :=
  let target := to_addr % 2 ^ 64
  let pc := from_addr % 2 ^ 64
  let pc_page := pc &&& not64 0xFFF
  let target_page := target &&& not64 0xFFF
  let page_delta := wrap_int64 (to_int64 target_page - to_int64 pc_page)
  page_delta >>> (12 : Nat)

/-- The local `adrp` of `write_absolute_jump`. -/
def adrp_word (imm : Int) : Nat :=
  let immlo := to_uint32 (to_uint64 imm &&& 0x3)
  let immhi := to_uint32 (to_uint64 (imm >>> (2 : Nat)) &&& 0x7FFFF)
  ((0x90000000 ||| to_uint32 (immlo <<< 29)) ||| to_uint32 (immhi <<< 5)) ||| 16

/-- The local `add` of `write_absolute_jump`. -/
def add_word (to_addr : Nat) : Nat :=
  ((0x91000000 ||| to_uint32 (to_uint32 ((to_addr % 2 ^ 64) &&& 0xFFF) <<< 10))
    ||| (16 <<< 5)) ||| 16

/-- The local `br` of `write_absolute_jump`. -/
def br_word : Nat :=
  0xD61F0000 ||| (16 <<< 5)

/-- The word stored into `insn[3]`. -/
def nop_word : Nat := 0xD503201F

/-- A little-endian store of a 32-bit word into the code bytes. -/
def store32 (code : Nat → Nat) (address value : Nat) : Nat → Nat :=
  Function.update
    (Function.update
      (Function.update (Function.update code address (value % 256))
        (address + 1) (value / 2 ^ 8 % 256))
      (address + 2) (value / 2 ^ 16 % 256))
    (address + 3) (value / 2 ^ 24 % 256)

/-- A little-endian load of a 32-bit word from the code bytes. -/
def load32 (code : Nat → Nat) (address : Nat) : Nat :=
  code address + 2 ^ 8 * code (address + 1) + 2 ^ 16 * code (address + 2)
    + 2 ^ 24 * code (address + 3)

/-- `write_absolute_jump`: on arm64, when the page displacement fits the immediate of
`ADRP`, stores the four instruction words at `from` and returns `true`; otherwise logs,
stores nothing and returns `false`. -/
def write_absolute_jump (w : World) (from_addr to_addr : Nat) (s : State) : Bool × State :=
  if w.arm64 then
    let imm := adrp_imm from_addr to_addr
    if imm < -(2 ^ 20) ∨ imm ≥ 2 ^ 20 then
      (false, log_line_if_enabled "adrp immediate out of range" s)
    else
      let code1 := store32 s.code from_addr (adrp_word imm)
      let code2 := store32 code1 (from_addr + 4) (add_word to_addr)
      let code3 := store32 code2 (from_addr + 8) br_word
      let code4 := store32 code3 (from_addr + 12) nop_word
      (true, { s with code := code4 })
  else
    (false, log_line_if_enabled "inline hook unsupported on this architecture" s)

/-- `MAP_FAILED` of `<sys/mman.h>`: `(void *)-1`. -/
def MAP_FAILED : Nat := 2 ^ 64 - 1

/-- `memcpy(dst, src, n)` within the code bytes, for blocks that do not overlap. -/
def memcpy (code : Nat → Nat) (dst src n : Nat) : Nat → Nat :=
  fun a => if dst ≤ a ∧ a < dst + n then code (src + (a - dst)) else code a

/-- `flush_instruction_cache`. -/
def flush_instruction_cache (address size : Nat) (s : State) : State :=
  s.emit (.icache_invalidate address size)

/-- `install_inline_hook`: returns the address of the trampoline, or `0` (`NULL`). -/
def install_inline_hook (w : World) (target replacement : Nat) (s : State) : Nat × State :=
  if target = 0 ∨ replacement = 0 then (0, s)
  else
    let patch_size := 16
    let trampoline := w.mmap s.trace (patch_size + 16)
    let s1 := s.emit (.mmap (patch_size + 16))
    if trampoline = MAP_FAILED then
      (0, log_line_if_enabled "mmap failed for trampoline" s1)
    else
      let s2 : State := { s1 with code := memcpy s1.code trampoline target patch_size }
      match write_absolute_jump w (trampoline + patch_size) (target + patch_size) s2 with
      | (false, s3) => (0, log_line_if_enabled "failed to write trampoline jump" s3)
      | (true, s3) =>
        match set_memory_protection w target patch_size
            ((VM_PROT_READ ||| VM_PROT_WRITE) ||| VM_PROT_EXECUTE) s3 with
        | (false, s4) => (0, s4)
        | (true, s4) =>
          match write_absolute_jump w target replacement s4 with
          | (false, s5) => (0, log_line_if_enabled "failed to write target jump" s5)
          | (true, s5) =>
            let s6 := flush_instruction_cache target patch_size s5
            let s7 := (set_memory_protection w target patch_size
              (VM_PROT_READ ||| VM_PROT_EXECUTE) s6).2
            let s8 := flush_instruction_cache trampoline (patch_size + 16) s7
            (trampoline, s8)

/-! ## Registering rebindings -/

/-- `prepend_rebindings(&rebindings_head, rebindings, nel)`: allocates an entry and its
array, copies the `nel` rebindings and links the entry at the head of the registry;
returns `-1`, with the registry as it was, when one of the two allocations fails. -/
def prepend_rebindings (w : World) (rebindings : List rebinding) (s : State) : Int × State :=
  let entry_ok := w.malloc s.trace 24
  let s1 := s.emit (.malloc 24)
  if entry_ok = false then (-1, s1)
  else
    let array_ok := w.malloc s1.trace ((24 * rebindings.length) % 2 ^ 64)
    let s2 := s1.emit (.malloc ((24 * rebindings.length) % 2 ^ 64))
    if array_ok = false then (-1, s2)
    else (0, { s2 with rebindings_head := ⟨rebindings⟩ :: s2.rebindings_head })

/-- `MH_MAGIC_64` of `<mach-o/loader.h>`. -/
def MH_MAGIC_64 : Nat := 0xfeedfacf

/-- `MH_CIGAM_64` of `<mach-o/loader.h>`. -/
def MH_CIGAM_64 : Nat := 0xcffaedfe

/-- `getsectbynamefromheader_64` of the system library: the first section, in the order of
the load commands, whose segment and section names are the ones asked for. -/
def getsectbynamefromheader_64 (commands : List load_command) (segname sectname : String) :
    Option section_t :=
  match commands with
  | [] => none
  | .segment name _ _ sections :: rest =>
    if strcmp name segname.toList = 0 then
      match sections.find? (fun p => decide (strcmp p.1 sectname.toList = 0)) with
      | some p => some p.2
      | none => getsectbynamefromheader_64 rest segname sectname
    else getsectbynamefromheader_64 rest segname sectname
  | _ :: rest => getsectbynamefromheader_64 rest segname sectname

/-- `find_section`, for `__LP64__`. -/
def find_section (header : mach_header) (segment sect : String) : Option section_t :=
  if header.magic ≠ MH_MAGIC_64 ∧ header.magic ≠ MH_CIGAM_64 then none
  else getsectbynamefromheader_64 header.commands segment sect

/-- What the walk over the load commands of `rebind_symbols_for_image` has found. -/
structure found_commands where
  /-- `linkedit_segment`: its `vmaddr` and `fileoff` -/
  linkedit_segment : Option (Nat × Nat)
  /-- `symtab_cmd`: its `symoff` and `stroff` -/
  symtab_cmd : Option (Nat × Nat)
  /-- `dysymtab_cmd`: its `indirectsymoff` -/
  dysymtab_cmd : Option Nat

/-- The loop over the `ncmds` load commands of `rebind_symbols_for_image`. -/
def walk_commands : List load_command → found_commands → found_commands
  | [], found => found
  | .segment segname vmaddr fileoff _ :: rest, found =>
    if strcmp segname "__LINKEDIT".toList = 0 then
      walk_commands rest { found with linkedit_segment := some (vmaddr, fileoff) }
    else walk_commands rest found
  | .symtab symoff stroff :: rest, found =>
    walk_commands rest { found with symtab_cmd := some (symoff, stroff) }
  | .dysymtab indirectsymoff :: rest, found =>
    walk_commands rest { found with dysymtab_cmd := some indirectsymoff }
  | .other :: rest, found => walk_commands rest found

/-- The seven sections `rebind_symbols_for_image` looks for, in its order, each with the
`make_writable` argument it passes. -/
def candidate_sections : List (String × String × Bool) :=
  [("__DATA", "__la_symbol_ptr", false), ("__DATA", "__nl_symbol_ptr", false),
    ("__DATA", "__got", false), ("__DATA_CONST", "__la_symbol_ptr", true),
    ("__DATA_CONST", "__nl_symbol_ptr", true), ("__DATA_CONST", "__got", true),
    ("__AUTH_CONST", "__got", true)]

/-- The sequence of `find_section` / `perform_rebinding_with_section` pairs of
`rebind_symbols_for_image`, over the given candidates. -/
def rebind_sections (w : World) (header : mach_header) (slide : Int)
    (symtab : Nat → nlist_t) (strtab : List Char) (indirect_symtab : Nat → Nat) :
    List (String × String × Bool) → State → State
  | [], s => s
  | (segment, sect, make_writable) :: rest, s =>
    match find_section header segment sect with
    | some found =>
      rebind_sections w header slide symtab strtab indirect_symtab rest
        (perform_rebinding_with_section w s.rebindings_head found slide symtab strtab
          indirect_symtab make_writable s)
    | none => rebind_sections w header slide symtab strtab indirect_symtab rest s

/-- `rebind_symbols_for_image`. -/
def rebind_symbols_for_image (w : World) (header : mach_header) (slide : Int) (s : State) :
    State :=
  match walk_commands header.commands ⟨none, none, none⟩ with
  | ⟨some (vmaddr, fileoff), some (symoff, stroff), some indirectsymoff⟩ =>
    let linkedit_base := ((slide + (vmaddr : Int) - (fileoff : Int)) % 2 ^ 64).toNat
    let symtab := w.symtab_at ((linkedit_base + symoff) % 2 ^ 64)
    let strtab := w.strtab_at ((linkedit_base + stroff) % 2 ^ 64)
    let indirect_symtab := w.indirect_symtab_at ((linkedit_base + indirectsymoff) % 2 ^ 64)
    rebind_sections w header slide symtab strtab indirect_symtab candidate_sections s
  | _ => s

/-- The loop of `rebind_symbols` over the loaded images, and the calls the dynamic linker
makes to the image-added callback for them. -/
def rebind_images (w : World) : List Image → State → State
  | [], s => s
  | image :: rest, s =>
    rebind_images w rest (rebind_symbols_for_image w image.header image.slide s)

/-- `_dyld_register_func_for_add_image(rebind_symbols_for_image)`: the dynamic linker
records the callback and, as `<mach-o/dyld.h>` documents, calls it during the
registration for every image already loaded. -/
def dyld_register_func_for_add_image (w : World) (s : State) : State :=
  rebind_images w s.images
    ({ s with add_image_callbacks := s.add_image_callbacks + 1 }.emit .register_add_image)

/-- `rebind_symbols`. -/
def rebind_symbols (w : World) (rebindings : List rebinding) (s : State) : Int × State :=
  match prepend_rebindings w rebindings s with
  | (retval, s1) =>
    if retval < 0 then (retval, s1)
    else
      let s2 :=
        if s1.rebindings_head.tail.isEmpty then dyld_register_func_for_add_image w s1
        else s1
      (0, rebind_images w s2.images s2)

/-- The dynamic linker loads an image: it adds it to its list and calls the image-added
callback as many times as it has been registered. -/
def image_added (w : World) (image : Image) (s : State) : State :=
  Nat.iterate (rebind_symbols_for_image w image.header image.slide) s.add_image_callbacks
    { s with images := s.images ++ [image] }

/-! ## The feature-hook policy -/

/-- The output location `&original_os_feature_enabled_impl`. -/
def original_os_feature_enabled_impl : Nat := 0

/-- The output location `&original_os_feature_enabled_simple_impl`. -/
def original_os_feature_enabled_simple_impl : Nat := 1

/-- The argument `domain ? domain : "(null)"` of a log line. -/
def or_null (string : Option (List Char)) : Arg :=
  match string with
  | some chars => .s (cstr chars)
  | none => .s "(null)".toList

/-- A call `(*function)(domain, feature)` through a function pointer. -/
def call_through (w : World) (function : Ptr) (domain feature : Option (List Char))
    (s : State) : Bool × State :=
  (w.call s.trace function domain feature, s.emit (.call function domain feature))

/-- The condition `domain && feature && strcmp(domain, "UIKit") == 0 &&
strcmp(feature, "redesigned_text_cursor") == 0`. -/
def is_forced_pair (domain feature : Option (List Char)) : Bool :=
  match domain, feature with
  | some d, some f =>
    decide (strcmp d "UIKit".toList = 0 ∧ strcmp f "redesigned_text_cursor".toList = 0)
  | _, _ => false

/-- `replacement_os_feature_enabled_impl` of the injected bundle. -/
def replacement_os_feature_enabled_impl (w : World) (domain feature : Option (List Char))
    (s : State) : Bool × State :=
  let s1 : State :=
    if s.did_log_first_call = false then
      log_format_if_enabled "replacement _os_feature_enabled_impl called domain=%s feature=%s"
        [or_null domain, or_null feature] { s with did_log_first_call := true }
    else s
  if is_forced_pair domain feature then
    if s1.did_log_feature = false then
      (false, log_line_if_enabled
        "hooked os_feature_enabled for UIKit/redesigned_text_cursor -> false"
        { s1 with did_log_feature := true })
    else (false, s1)
  else if s1.replaced original_os_feature_enabled_impl ≠ 0 then
    call_through w (s1.replaced original_os_feature_enabled_impl) domain feature s1
  else if s1.replaced original_os_feature_enabled_simple_impl ≠ 0 then
    call_through w (s1.replaced original_os_feature_enabled_simple_impl) domain feature s1
  else (true, s1)

/-- `should_enable_feature_hook`. -/
def should_enable_feature_hook (w : World) : Bool :=
  match w.getenv "MINIBROWSER_ENABLE_FEATURE_HOOK" with
  | none => true
  | some [] => true
  | some (c :: _) => if c = NUL then true else decide (c = '1')

/-- `should_override_system_blue`. -/
def should_override_system_blue (w : World) : Bool :=
  match w.getenv "MINIBROWSER_SYSTEM_BLUE_OVERRIDE" with
  | none => true
  | some [] => true
  | some (c :: _) => if c = NUL then true else !decide (c = '0' ∨ c = 'N' ∨ c = 'n')

/-- The loops of `install_hooks` over the candidate names: logs each `dlsym` result and
keeps the first that is not null. -/
def resolve_candidates (w : World) (handle : Ptr) : List String → Ptr → State → Ptr × State
  | [], target, s => (target, s)
  | name :: rest, target, s =>
    let candidate := w.dlsym handle name
    let s1 := log_format_if_enabled "dlsym %s=%p" [.s name.toList, .p candidate] s
    resolve_candidates w handle rest (if target = 0 ∧ candidate ≠ 0 then candidate else target)
      s1

/-- `RTLD_DEFAULT` of `<dlfcn.h>`: `(void *)-2`. -/
def RTLD_DEFAULT : Ptr := 2 ^ 64 - 2

/-- `install_hooks`. -/
def install_hooks (w : World) (s : State) : State :=
  if s.did_install_hooks then s
  else
    let s1 := log_line_always "install_hooks begin" { s with did_install_hooks := true }
    if should_enable_feature_hook w = false then
      log_line_if_enabled "feature flag hook disabled; skipping os_feature_enabled_impl hook"
        s1
    else
      let featureflags_path := "/usr/lib/system/libsystem_featureflags.dylib"
      let featureflags_handle := w.dlopen featureflags_path
      let s2 :=
        if featureflags_handle ≠ 0 then
          log_format_if_enabled "dlopen %s handle=%p"
            [.s featureflags_path.toList, .p featureflags_handle] s1
        else
          log_format_if_enabled "dlopen %s failed: %s"
            [.s featureflags_path.toList, .s (cstr w.dlerror)] s1
      let rebindings : List rebinding :=
        [⟨"_os_feature_enabled_impl".toList, w.replacement_address,
            some original_os_feature_enabled_impl⟩,
          ⟨"_os_feature_enabled_simple_impl".toList, w.replacement_address,
            some original_os_feature_enabled_simple_impl⟩]
      let handle := if featureflags_handle ≠ 0 then featureflags_handle else RTLD_DEFAULT
      let (target, s3) := resolve_candidates w handle
        ["_os_feature_enabled_impl", "__os_feature_enabled_impl", "os_feature_enabled_impl"]
        0 s2
      let (_simple_target, s4) := resolve_candidates w handle
        ["_os_feature_enabled_simple_impl", "__os_feature_enabled_simple_impl",
          "os_feature_enabled_simple_impl"] 0 s3
      let (result, s5) := rebind_symbols w rebindings s4
      let s6 := log_format_if_enabled
        "rebind_symbols result=%d original_impl=%p simple_impl=%p"
        [.d result, .p (s5.replaced original_os_feature_enabled_impl),
          .p (s5.replaced original_os_feature_enabled_simple_impl)] s5
      if s6.replaced original_os_feature_enabled_impl = 0 ∧ target ≠ 0 then
        let (trampoline, s7) := install_inline_hook w target w.replacement_address s6
        if trampoline ≠ 0 then
          log_line_always "inline hook installed"
            { s7 with replaced :=
                Function.update s7.replaced original_os_feature_enabled_impl trampoline }
        else log_line_always "inline hook failed" s7
      else s6

end InjectedBundle

/-! ## The interposing library `MiniBrowserWebContentHook.c` -/

namespace WebContentHook

open InjectedBundle

/-- The static variables of the interposing library, and the events so far. -/
structure State where
  /-- `static bool (*original_os_feature_enabled_impl)(const char *, const char *)` -/
  original_os_feature_enabled_impl : Ptr
  /-- `static bool did_log_first_call` -/
  did_log_first_call : Bool
  /-- the events so far, oldest first -/
  trace : List Event

/-- `log_line`: hands the line to the log file. -/
def log_line (message : String) (s : State) : State :=
  { s with trace := s.trace ++ [.log message] }

/-- `replacement_os_feature_enabled_impl` of the interposing library. -/
def replacement_os_feature_enabled_impl (w : World) (domain feature : Option (List Char))
    (s : State) : Bool × State :=
  let s1 : State :=
    if s.did_log_first_call = false then
      { s with
        did_log_first_call := true
        trace := s.trace ++ [.log_format "first _os_feature_enabled_impl domain=%s feature=%s"
          [or_null domain, or_null feature]] }
    else s
  if is_forced_pair domain feature then
    (false, log_line "forced redesigned_text_cursor -> false" s1)
  else if s1.original_os_feature_enabled_impl ≠ 0 then
    (w.call s1.trace s1.original_os_feature_enabled_impl domain feature,
      { s1 with trace :=
          s1.trace ++ [.call s1.original_os_feature_enabled_impl domain feature] })
  else (true, s1)

end WebContentHook

namespace InjectedBundle

/-! ## Vocabulary of the statements -/

/-- The rebindings of the registry in the order the search visits them: batch after batch
from the head (the batch registered last) on, each batch in index order. -/
def registry_order (rebindings : List rebindings_entry) : List rebinding :=
  rebindings.flatMap (fun cur => cur.rebindings)

/-- The rebinding the loop body binds slot `i` to, if any. -/
def slot_rebinding (rebindings : List rebindings_entry) (sect : section_t)
    (symtab : Nat → nlist_t) (strtab : List Char) (indirect_symtab : Nat → Nat) (i : Nat) :
    Option rebinding :=
  match slot_symbol sect symtab strtab indirect_symtab i with
  | none => none
  | some name => find_rebinding name rebindings

/-- The state a `Flow` carries. -/
def Flow.state : Flow → State
  | .next s _ => s
  | .ret s => s

/-- The event is a call to `vm_protect`. -/
def Event.is_protect : Event → Bool
  | .vm_protect _ _ _ => true
  | _ => false

/-- The event is a store into a pointer slot. -/
def Event.is_store : Event → Bool
  | .store _ _ => true
  | _ => false

/-- The request `set_memory_protection(indirect_symbol_bindings, section->size, protection)`
as the kernel sees it. -/
def protect_event (w : World) (sect : section_t) (slide : Int) (protection : Nat) : Event :=
  .vm_protect (page_start w (bindings_base sect slide))
    (page_length w (bindings_base sect slide) sect.size) protection

/-- The kernel grants the request to make the section writable, asked after the events
`history`. -/
def grants_write (w : World) (sect : section_t) (slide : Int) (history : List Event) : Prop :=
  w.vm_protect history (page_start w (bindings_base sect slide))
    (page_length w (bindings_base sect slide) sect.size) (VM_PROT_READ ||| VM_PROT_WRITE)
    = KERN_SUCCESS

instance (w : World) (sect : section_t) (slide : Int) (history : List Event) :
    Decidable (grants_write w sect slide history) := by
  unfold grants_write
  infer_instance

/-- The `ADRP` immediate cannot hold the page displacement, or there is no encoder for the
architecture: what makes `write_absolute_jump` report failure. -/
def jump_not_encodable (w : World) (from_addr to_addr : Nat) : Prop :=
  w.arm64 = false ∨ adrp_imm from_addr to_addr < -(2 ^ 20) ∨ adrp_imm from_addr to_addr ≥ 2 ^ 20

instance (w : World) (from_addr to_addr : Nat) :
    Decidable (jump_not_encodable w from_addr to_addr) := by
  unfold jump_not_encodable
  infer_instance

/-- The field `immlo` (bits 30:29) of an `ADRP` word. -/
def adrp_immlo (word : Nat) : Nat := (word >>> 29) &&& 0x3

/-- The field `immhi` (bits 23:5) of an `ADRP` word. -/
def adrp_immhi (word : Nat) : Nat := (word >>> 5) &&& 0x7FFFF

/-- The sign extension of a 21-bit value. -/
def sign_extend21 (x : Nat) : Int :=
  if x % 2 ^ 21 < 2 ^ 20 then ((x % 2 ^ 21 : Nat) : Int) else ((x % 2 ^ 21 : Nat) : Int) - 2 ^ 21

/-- The field `imm12` (bits 21:10) of an `ADD` (immediate) word. -/
def add_imm12 (word : Nat) : Nat := (word >>> 10) &&& 0xFFF

/-- The word is `ADRP x16, <label>`: `op` (bit 31) set, bits 28:24 equal to `10000`,
`Rd` (bits 4:0) equal to 16. -/
def is_adrp_x16 (word : Nat) : Prop :=
  (word >>> 31) &&& 1 = 1 ∧ (word >>> 24) &&& 0x1F = 0x10 ∧ word &&& 0x1F = 16

/-- The word is `ADD x16, x16, #imm12` (64-bit, no shift): bits 31:22 equal to
`1001000100`, `Rn` (bits 9:5) and `Rd` (bits 4:0) equal to 16. -/
def is_add_x16_x16 (word : Nat) : Prop :=
  (word >>> 22) &&& 0x3FF = 0x244 ∧ (word >>> 5) &&& 0x1F = 16 ∧ word &&& 0x1F = 16

/-- The sum the instructions `ADRP x16 / ADD x16, x16, #imm12` executed at `pc` compute,
before its reduction to 64 bits: the page of `pc`, plus 4096 times the sign-extended
`immhi:immlo`, plus `imm12`. -/
def jump_destination_exact (pc adrp add : Nat) : Int :=
  (((pc % 2 ^ 64) &&& not64 0xFFF : Nat) : Int)
    + 4096 * sign_extend21 (adrp_immhi adrp * 4 + adrp_immlo adrp)
    + ((add_imm12 add : Nat) : Int)

/-- The register `x16` after `ADRP x16 / ADD x16, x16, #imm12` executed at `pc`, that is the
destination of the `BR x16` that follows: the sum above in 64-bit arithmetic. -/
def jump_destination (pc adrp add : Nat) : Nat :=
  (jump_destination_exact pc adrp add % 2 ^ 64).toNat

/-- The event is a call through a function pointer. -/
def Event.is_call : Event → Bool
  | .call _ _ _ => true
  | _ => false

/-- The pair names the domain `UIKit` and the feature `redesigned_text_cursor`. -/
def names_forced_pair (domain feature : Option (List Char)) : Prop :=
  ∃ d f, domain = some d ∧ feature = some f ∧ cstr d = "UIKit".toList
    ∧ cstr f = "redesigned_text_cursor".toList

/-- The two states have the same installed flag, registry, number of registered image-added
callbacks and list of loaded images. -/
def same_registry (s t : State) : Prop :=
  t.did_install_hooks = s.did_install_hooks ∧ t.rebindings_head = s.rebindings_head
    ∧ t.add_image_callbacks = s.add_image_callbacks ∧ t.images = s.images

/-- The states a process can be in after the state `s0`: any number of calls to
`rebind_symbols`, of images loaded by the dynamic linker, of calls to the replacement
function and of calls to `install_hooks`, in any order and in any environment. -/
inductive Reachable (s0 : State) : State → Prop where
  | start : Reachable s0 s0
  | rebind_symbols (w : World) (rebindings : List rebinding) {t : State} :
      Reachable s0 t → Reachable s0 (rebind_symbols w rebindings t).2
  | image_added (w : World) (image : Image) {t : State} :
      Reachable s0 t → Reachable s0 (image_added w image t)
  | replacement (w : World) (domain feature : Option (List Char)) {t : State} :
      Reachable s0 t → Reachable s0 (replacement_os_feature_enabled_impl w domain feature t).2
  | install_hooks (w : World) {t : State} :
      Reachable s0 t → Reachable s0 (install_hooks w t)

/-- The code bytes once the four words of the jump from `from_addr` to `to_addr` have been
stored at `from_addr`. -/
def jump_code (code : Nat → Nat) (from_addr to_addr : Nat) : Nat → Nat :=
  store32 (store32 (store32 (store32 code from_addr
    (adrp_word (adrp_imm from_addr to_addr))) (from_addr + 4) (add_word to_addr))
    (from_addr + 8) br_word) (from_addr + 12) nop_word

/-- The two rebindings `install_hooks` hands to `rebind_symbols`. -/
def feature_rebindings (w : World) : List rebinding :=
  [⟨"_os_feature_enabled_impl".toList, w.replacement_address,
      some original_os_feature_enabled_impl⟩,
    ⟨"_os_feature_enabled_simple_impl".toList, w.replacement_address,
      some original_os_feature_enabled_simple_impl⟩]

/-- A first run of `install_hooks` with the hook enabled, up to and including the line
logged right after `rebind_symbols` has returned: the `target` found by `dlsym`, and the
state reached. -/
def hooks_after_rebinding (w : World) (s : State) : Ptr × State :=
  let s1 := log_line_always "install_hooks begin" { s with did_install_hooks := true }
  let featureflags_path := "/usr/lib/system/libsystem_featureflags.dylib"
  let featureflags_handle := w.dlopen featureflags_path
  let s2 :=
    if featureflags_handle ≠ 0 then
      log_format_if_enabled "dlopen %s handle=%p"
        [.s featureflags_path.toList, .p featureflags_handle] s1
    else
      log_format_if_enabled "dlopen %s failed: %s"
        [.s featureflags_path.toList, .s (cstr w.dlerror)] s1
  let handle := if featureflags_handle ≠ 0 then featureflags_handle else RTLD_DEFAULT
  let (target, s3) := resolve_candidates w handle
    ["_os_feature_enabled_impl", "__os_feature_enabled_impl", "os_feature_enabled_impl"]
    0 s2
  let (_simple_target, s4) := resolve_candidates w handle
    ["_os_feature_enabled_simple_impl", "__os_feature_enabled_simple_impl",
      "os_feature_enabled_simple_impl"] 0 s3
  let (result, s5) := rebind_symbols w (feature_rebindings w) s4
  (target, log_format_if_enabled
    "rebind_symbols result=%d original_impl=%p simple_impl=%p"
    [.d result, .p (s5.replaced original_os_feature_enabled_impl),
      .p (s5.replaced original_os_feature_enabled_simple_impl)] s5)

/-- The fallback of `install_hooks`: the call of `install_inline_hook` on `target` and the
statements that follow it. -/
def inline_hook_fallback (w : World) (target : Ptr) (s : State) : State :=
  let (trampoline, s7) := install_inline_hook w target w.replacement_address s
  if trampoline ≠ 0 then
    log_line_always "inline hook installed"
      { s7 with replaced :=
          Function.update s7.replaced original_os_feature_enabled_impl trampoline }
  else log_line_always "inline hook failed" s7

/-- The last event of the trace is one of the two lines `install_hooks` logs after a call
of `install_inline_hook`. -/
def ends_with_hook_attempt (s : State) : Prop :=
  s.trace.getLast? = some (.log "inline hook installed")
    ∨ s.trace.getLast? = some (.log "inline hook failed")

instance (s : State) : Decidable (ends_with_hook_attempt s) := by
  unfold ends_with_hook_attempt
  infer_instance

/-- One call of `perform_rebinding_with_section` by `rebind_symbols_for_image`: the
arguments of the call other than the registry. -/
structure Pass where
  sect : section_t
  slide : Int
  symtab : Nat → nlist_t
  strtab : List Char
  indirect_symtab : Nat → Nat
  make_writable : Bool

/-- The call itself, with `rebindings_head` for registry. -/
def Pass.run (w : World) (p : Pass) (s : State) : State :=
  perform_rebinding_with_section w s.rebindings_head p.sect p.slide p.symtab p.strtab
    p.indirect_symtab p.make_writable s

/-- A sequence of calls of `perform_rebinding_with_section`, one after the other. -/
def run_passes (w : World) : List Pass → State → State
  | [], s => s
  | p :: rest, s => run_passes w rest (p.run w s)

/-- The calls of `perform_rebinding_with_section` that `rebind_symbols_for_image` makes for
the candidates given: one for each section that `find_section` finds. -/
def section_passes (header : mach_header) (slide : Int) (symtab : Nat → nlist_t)
    (strtab : List Char) (indirect_symtab : Nat → Nat) :
    List (String × String × Bool) → List Pass
  | [] => []
  | (segment, sect, make_writable) :: rest =>
    match find_section header segment sect with
    | some found =>
      ⟨found, slide, symtab, strtab, indirect_symtab, make_writable⟩
        :: section_passes header slide symtab strtab indirect_symtab rest
    | none => section_passes header slide symtab strtab indirect_symtab rest

/-- The calls of `perform_rebinding_with_section` that `rebind_symbols_for_image` makes for
an image, in order. -/
def image_passes (w : World) (image : Image) : List Pass :=
  match walk_commands image.header.commands ⟨none, none, none⟩ with
  | ⟨some (vmaddr, fileoff), some (symoff, stroff), some indirectsymoff⟩ =>
    let linkedit_base := ((image.slide + (vmaddr : Int) - (fileoff : Int)) % 2 ^ 64).toNat
    section_passes image.header image.slide
      (w.symtab_at ((linkedit_base + symoff) % 2 ^ 64))
      (w.strtab_at ((linkedit_base + stroff) % 2 ^ 64))
      (w.indirect_symtab_at ((linkedit_base + indirectsymoff) % 2 ^ 64)) candidate_sections
  | _ => []

/-- The calls of `perform_rebinding_with_section` made when every image of the list is
processed once, in order. -/
def images_passes (w : World) (images : List Image) : List Pass :=
  images.flatMap (image_passes w)

/-- Slot `k` of the section of the pass is a slot the pass rebinds: it is within the
section and the registry has a rebinding for the symbol it imports. -/
def Pass.binds (rebindings : List rebindings_entry) (p : Pass) (k : Nat) : Prop :=
  k < slot_count p.sect
    ∧ slot_rebinding rebindings p.sect p.symtab p.strtab p.indirect_symtab k ≠ none

/-- The address of slot `k` of the section of the pass. -/
def Pass.address (p : Pass) (k : Nat) : Nat :=
  slot_address p.sect p.slide k

/-- The slots the two passes rebind are at different addresses. -/
def Pass.separate (rebindings : List rebindings_entry) (p q : Pass) : Prop :=
  ∀ k j, p.binds rebindings k → q.binds rebindings j → p.address k ≠ q.address j

/-- Every slot the pass rebinds holds the replacement of its rebinding. -/
def Pass.slots_settled (rebindings : List rebindings_entry) (p : Pass) (mem : Nat → Ptr) :
    Prop :=
  ∀ k r, k < slot_count p.sect →
    slot_rebinding rebindings p.sect p.symtab p.strtab p.indirect_symtab k = some r →
    mem (p.address k) = r.replacement

/-- Every output location of a rebinding of a slot the pass rebinds is populated. -/
def Pass.outputs_settled (rebindings : List rebindings_entry) (p : Pass)
    (replaced : Nat → Ptr) : Prop :=
  ∀ k r l, k < slot_count p.sect →
    slot_rebinding rebindings p.sect p.symtab p.strtab p.indirect_symtab k = some r →
    r.replaced = some l → replaced l ≠ 0

/-! ## Example inputs -/

/-- An arm64 process with 4 KiB pages whose kernel grants every request, with an empty
environment and no symbol found by `dlsym`. -/
def ex_world : World where
  arm64 := true
  getpagesize := 4096
  vm_protect := fun _ _ _ _ => KERN_SUCCESS
  malloc := fun _ _ => true
  mmap := fun _ _ => 0x20000
  getenv := fun _ => none
  dlopen := fun _ => 0
  dlerror := []
  dlsym := fun _ _ => 0
  call := fun _ _ _ _ => false
  replacement_address := 0x7000
  symtab_at := fun _ _ => ⟨0⟩
  strtab_at := fun _ => []
  indirect_symtab_at := fun _ _ => 0

/-- The same process with a kernel that refuses every `vm_protect` request. -/
def ex_world_refusing : World :=
  { ex_world with vm_protect := fun _ _ _ _ => 2 }

/-- A state whose slots at `0x1000` and `0x1008` hold `7` and `9`, with every output
location unset, an empty registry and no image. -/
def ex_state : State where
  mem := fun a => if a = 4096 then 7 else if a = 4104 then 9 else 0
  replaced := fun _ => 0
  code := fun _ => 0
  rebindings_head := []
  did_log_rebind_feature_impl := false
  did_log_rebind_feature_simple_impl := false
  did_log_feature := false
  did_log_first_call := false
  did_install_hooks := false
  add_image_callbacks := 0
  images := []
  trace := []

/-- A registry of one batch that rebinds `foo` to `100`, original into location `0`. -/
def ex_registry : List rebindings_entry :=
  [⟨[⟨"foo".toList, 100, some 0⟩]⟩]

/-- A section of two pointer slots at `0x1000`. -/
def ex_section : section_t := ⟨4096, 16, 0⟩

/-- A string table holding `_foo` at offset 1 and `xfoo` at offset 6. -/
def ex_strtab : List Char :=
  (NUL :: "_foo".toList) ++ (NUL :: "xfoo".toList) ++ [NUL]

/-- A symbol table whose symbol 0 is `_foo` and whose other symbols are `xfoo`. -/
def ex_symtab : Nat → nlist_t := fun k => if k = 0 then ⟨1⟩ else ⟨6⟩

/-- The indirect symbol table that sends slot `k` to symbol `k`. -/
def ex_indirect : Nat → Nat := fun k => k

/-- A process like `ex_world` in which `dlsym` finds `_os_feature_enabled_impl` at `0x5000`
and the symbol every slot imports is `__os_feature_enabled_simple_impl`. -/
def hook_world : World :=
  { ex_world with
    dlsym := fun _ name => if name = "_os_feature_enabled_impl" then 0x5000 else 0
    symtab_at := fun _ _ => ⟨1⟩
    strtab_at := fun _ => (NUL :: "__os_feature_enabled_simple_impl".toList) ++ [NUL]
    indirect_symtab_at := fun _ k => k }

/-- An image with a `__LINKEDIT` segment, a symbol table, an indirect symbol table and a
section `__DATA,__got` of one pointer slot at `0x1000`. -/
def hook_image : Image :=
  ⟨⟨MH_MAGIC_64, [.segment "__LINKEDIT".toList 0 0 [], .symtab 0 0, .dysymtab 0,
    .segment "__DATA".toList 0 0 [("__got".toList, ⟨0x1000, 8, 0⟩)]]⟩, 0⟩

/-- The state of a process that has loaded `hook_image`, the slot of the image holding
`slot_value`. -/
def hook_state (slot_value : Ptr) : State :=
  { ex_state with
    mem := fun a => if a = 0x1000 then slot_value else 0
    images := [hook_image] }

/-- An image like `hook_image` whose pointer slot, at `0x2000`, is in the section
`__DATA_CONST,__got`, which the engine has to make writable. -/
def const_image : Image :=
  ⟨⟨MH_MAGIC_64, [.segment "__LINKEDIT".toList 0 0 [], .symtab 0 0, .dysymtab 0,
    .segment "__DATA_CONST".toList 0 0 [("__got".toList, ⟨0x2000, 8, 0⟩)]]⟩, 0⟩

/-- The state of a process that has loaded `hook_image` and `const_image`, their slots
holding `0x6000` and `0x6100`. -/
def two_images_state : State :=
  { ex_state with
    mem := fun a => if a = 0x1000 then 0x6000 else if a = 0x2000 then 0x6100 else 0
    images := [hook_image, const_image] }

/-! ## Strings and the search -/

theorem toNat_eq_zero_iff (c : Char) : c.toNat = 0 ↔ c = NUL := by
  constructor
  · intro h
    apply Char.ext
    apply UInt32.ext
    simpa [Char.toNat, UInt32.toNat] using h
  · rintro rfl
    rfl

theorem toNat_inj_iff (a b : Char) : a.toNat = b.toNat ↔ a = b := by
  constructor
  · intro h
    apply Char.ext
    apply UInt32.ext
    simpa [Char.toNat, UInt32.toNat] using h
  · rintro rfl
    rfl

theorem strcmp_eq_zero_iff (a b : List Char) : strcmp a b = 0 ↔ cstr a = cstr b := by
  induction a generalizing b with
  | nil =>
    cases b with
    | nil => simp [strcmp, cstr]
    | cons b bs =>
      by_cases hb : b = NUL
      · simp [strcmp, cstr, hb, (toNat_eq_zero_iff NUL).2 rfl]
      · have : b.toNat ≠ 0 := fun h => hb ((toNat_eq_zero_iff b).1 h)
        simp [strcmp, cstr, hb]
        omega
  | cons a as ih =>
    cases b with
    | nil =>
      by_cases ha : a = NUL
      · simp [strcmp, cstr, ha, (toNat_eq_zero_iff NUL).2 rfl]
      · have : a.toNat ≠ 0 := fun h => ha ((toNat_eq_zero_iff a).1 h)
        simp [strcmp, cstr, ha]
        omega
    | cons b bs =>
      by_cases hab : a = b
      · subst hab
        by_cases ha : a = NUL
        · simp [strcmp, cstr, ha]
        · simp [strcmp, cstr, ha, ih]
      · have hne : a.toNat ≠ b.toNat := fun h => hab ((toNat_inj_iff a b).1 h)
        have h1 : strcmp (a :: as) (b :: bs) ≠ 0 := by
          simp only [strcmp, hab, if_false]
          omega
        have h2 : cstr (a :: as) ≠ cstr (b :: bs) := by
          by_cases ha : a = NUL
          · have hb : ¬ b = NUL := fun hb => hab (ha.trans hb.symm)
            simp [cstr, ha, hb]
          · by_cases hb : b = NUL
            · simp [cstr, ha, hb]
            · simp [cstr, ha, hb, hab]
        exact ⟨fun h => absurd h h1, fun h => absurd h h2⟩

theorem cstr_eq_cons {l : List Char} {c : Char} {n : List Char} (h : cstr l = c :: n) :
    ∃ rest, l = c :: rest ∧ cstr rest = n := by
  cases l with
  | nil => simp [cstr] at h
  | cons a rest =>
    by_cases ha : a = NUL
    · simp [cstr, ha] at h
    · simp only [cstr, ha, if_false, List.cons.injEq] at h
      exact ⟨rest, by rw [h.1], h.2⟩

theorem find_in_entry_eq (name : List Char) (rs : List rebinding) :
    find_in_entry name rs = rs.find? (fun r => decide (cstr r.name = cstr name)) := by
  induction rs with
  | nil => rfl
  | cons r rs ih =>
    simp only [find_in_entry, List.find?_cons, strcmp_eq_zero_iff, ih]
    by_cases h : cstr name = cstr r.name
    · simp [h]
    · have h' : ¬ cstr r.name = cstr name := fun e => h e.symm
      simp [h, h']

theorem find_rebinding_eq (name : List Char) (reg : List rebindings_entry) :
    find_rebinding name reg
      = (registry_order reg).find? (fun r => decide (cstr r.name = cstr name)) := by
  induction reg with
  | nil => rfl
  | cons cur next ih =>
    simp only [find_rebinding, registry_order, List.flatMap_cons, List.find?_append,
      find_in_entry_eq]
    cases h : List.find? (fun r => decide (cstr r.name = cstr name)) cur.rebindings with
    | none => simpa [registry_order] using ih
    | some r => simp

/-! ## One slot -/

section Engine

variable (w : World) (rebindings : List rebindings_entry) (sect : section_t) (slide : Int)
  (symtab : Nat → nlist_t) (strtab : List Char) (indirect_symtab : Nat → Nat)
  (make_writable : Bool)

theorem slot_address_inj {i j : Nat} :
    slot_address sect slide i = slot_address sect slide j ↔ i = j := by
  unfold slot_address
  omega

theorem apply_rebinding_mem (i : Nat) (r : rebinding) (s : State) :
    (apply_rebinding sect slide symtab strtab indirect_symtab i r s).mem
      = Function.update s.mem (slot_address sect slide i) r.replacement := by
  unfold apply_rebinding
  simp only [log_format_if_enabled, should_log, State.emit]
  cases r.replaced <;> simp <;> split_ifs <;> rfl

theorem apply_rebinding_replaced (i : Nat) (r : rebinding) (s : State) :
    (apply_rebinding sect slide symtab strtab indirect_symtab i r s).replaced
      = match r.replaced with
        | some l =>
          if s.replaced l = 0 then
            Function.update s.replaced l (s.mem (slot_address sect slide i))
          else s.replaced
        | none => s.replaced := by
  unfold apply_rebinding
  simp only [log_format_if_enabled, should_log, State.emit]
  cases r.replaced <;> simp <;> split_ifs <;> rfl

theorem apply_rebinding_trace (i : Nat) (r : rebinding) (s : State) :
    ∃ logs, (apply_rebinding sect slide symtab strtab indirect_symtab i r s).trace
        = s.trace ++ (logs ++ [.store (slot_address sect slide i) r.replacement])
      ∧ ∀ e ∈ logs, e.is_protect = false ∧ e.is_store = false := by
  unfold apply_rebinding
  simp only [log_format_if_enabled, should_log, State.emit]
  cases r.replaced <;> simp <;> split_ifs <;> (try simp) <;>
    first
    | exact ⟨[_], rfl, by simp [Event.is_protect, Event.is_store]⟩
    | exact ⟨[_, _], rfl, by simp [Event.is_protect, Event.is_store]⟩

theorem set_memory_protection_fst (address size protection : Nat) (s : State) :
    (set_memory_protection w address size protection s).1
      = decide (w.vm_protect s.trace (page_start w address) (page_length w address size)
          protection = KERN_SUCCESS) := by
  unfold set_memory_protection
  by_cases h : w.vm_protect s.trace (page_start w address) (page_length w address size)
      protection = KERN_SUCCESS <;> simp [h]

theorem set_memory_protection_mem (address size protection : Nat) (s : State) :
    (set_memory_protection w address size protection s).2.mem = s.mem := by
  unfold set_memory_protection
  simp only [log_format_if_enabled, should_log, State.emit]
  split_ifs <;> rfl

theorem set_memory_protection_replaced (address size protection : Nat) (s : State) :
    (set_memory_protection w address size protection s).2.replaced = s.replaced := by
  unfold set_memory_protection
  simp only [log_format_if_enabled, should_log, State.emit]
  split_ifs <;> rfl

theorem set_memory_protection_trace (address size protection : Nat) (s : State) :
    (set_memory_protection w address size protection s).2.trace
      = s.trace ++ .vm_protect (page_start w address) (page_length w address size) protection
          :: (if w.vm_protect s.trace (page_start w address) (page_length w address size)
                protection = KERN_SUCCESS then []
              else [.log_format "vm_protect failed: %d"
                [.d (w.vm_protect s.trace (page_start w address)
                  (page_length w address size) protection)]]) := by
  unfold set_memory_protection
  simp only [log_format_if_enabled, should_log, State.emit]
  split_ifs <;> simp_all

/-- The state `bind_slot` returns with when the kernel refuses to make the section
writable. -/
theorem bind_slot_refused (i : Nat) (r : rebinding) (s : State)
    (hw : make_writable = true) (h : ¬ grants_write w sect slide s.trace) :
    ∃ s1, bind_slot w sect slide symtab strtab indirect_symtab make_writable i r s false
        = .ret s1
      ∧ s1.mem = s.mem ∧ s1.replaced = s.replaced
      ∧ s1.trace = s.trace ++ [protect_event w sect slide (VM_PROT_READ ||| VM_PROT_WRITE),
          .log_format "vm_protect failed: %d"
            [.d (w.vm_protect s.trace (page_start w (bindings_base sect slide))
              (page_length w (bindings_base sect slide) sect.size)
              (VM_PROT_READ ||| VM_PROT_WRITE))],
          .log "failed to make symbol pointers writable"] := by
  unfold grants_write at h
  simp only [bind_slot, hw, set_memory_protection, h, log_format_if_enabled,
    log_line_if_enabled, should_log, State.emit, protect_event]
  simp [h]

theorem bind_slot_granted (i : Nat) (r : rebinding) (s : State)
    (hw : make_writable = true) (h : grants_write w sect slide s.trace) :
    bind_slot w sect slide symtab strtab indirect_symtab make_writable i r s false
      = .next (apply_rebinding sect slide symtab strtab indirect_symtab i r
          (s.emit (protect_event w sect slide (VM_PROT_READ ||| VM_PROT_WRITE)))) true := by
  unfold grants_write at h
  simp only [bind_slot, hw, set_memory_protection, h, protect_event]
  simp

theorem bind_slot_steady (i : Nat) (r : rebinding) (s : State) (did : Bool)
    (h : make_writable = false ∨ did = true) :
    bind_slot w sect slide symtab strtab indirect_symtab make_writable i r s did
      = .next (apply_rebinding sect slide symtab strtab indirect_symtab i r s) did := by
  unfold bind_slot
  rcases h with h | h <;> simp [h]

theorem rebind_slot_eq (i : Nat) (s : State) (did : Bool) :
    rebind_slot w rebindings sect slide symtab strtab indirect_symtab make_writable i s did
      = match slot_rebinding rebindings sect symtab strtab indirect_symtab i with
        | none => .next s did
        | some r =>
          bind_slot w sect slide symtab strtab indirect_symtab make_writable i r s did := by
  unfold rebind_slot slot_rebinding
  cases slot_symbol sect symtab strtab indirect_symtab i with
  | none => rfl
  | some name => cases find_rebinding name rebindings <;> rfl

theorem apply_rebinding_replaced_mono (i : Nat) (r : rebinding) (s : State) (l : Nat)
    (h : s.replaced l ≠ 0) :
    (apply_rebinding sect slide symtab strtab indirect_symtab i r s).replaced l
      = s.replaced l := by
  rw [apply_rebinding_replaced]
  cases r.replaced with
  | none => rfl
  | some l' =>
    simp only
    split_ifs with h0
    · by_cases hl : l = l'
      · subst hl
        exact absurd h0 h
      · rw [Function.update_noteq hl]
    · rfl

theorem apply_rebinding_replaced_frame (i : Nat) (r : rebinding) (s : State) (l : Nat)
    (h : r.replaced ≠ some l) :
    (apply_rebinding sect slide symtab strtab indirect_symtab i r s).replaced l
      = s.replaced l := by
  rw [apply_rebinding_replaced]
  cases hr : r.replaced with
  | none => rfl
  | some l' =>
    have hl : l ≠ l' := fun e => h (by rw [hr, e])
    simp only
    split_ifs
    · rw [Function.update_noteq hl]
    · rfl

theorem apply_rebinding_replaced_capture (i : Nat) (r : rebinding) (s : State) (l : Nat)
    (hr : r.replaced = some l) (h : s.replaced l = 0) :
    (apply_rebinding sect slide symtab strtab indirect_symtab i r s).replaced l
      = s.mem (slot_address sect slide i) := by
  rw [apply_rebinding_replaced, hr]
  simp [h]

/-- The three ways `bind_slot` can go. -/
theorem bind_slot_cases (i : Nat) (r : rebinding) (s : State) (did : Bool) :
    ((make_writable = false ∨ did = true)
        ∧ bind_slot w sect slide symtab strtab indirect_symtab make_writable i r s did
          = .next (apply_rebinding sect slide symtab strtab indirect_symtab i r s) did)
    ∨ (make_writable = true ∧ did = false ∧ grants_write w sect slide s.trace
        ∧ bind_slot w sect slide symtab strtab indirect_symtab make_writable i r s did
          = .next (apply_rebinding sect slide symtab strtab indirect_symtab i r
              (s.emit (protect_event w sect slide (VM_PROT_READ ||| VM_PROT_WRITE)))) true)
    ∨ (make_writable = true ∧ did = false ∧ ¬ grants_write w sect slide s.trace
        ∧ ∃ s1, bind_slot w sect slide symtab strtab indirect_symtab make_writable i r s did
            = .ret s1
          ∧ s1.mem = s.mem ∧ s1.replaced = s.replaced
          ∧ s1.trace = s.trace
            ++ [protect_event w sect slide (VM_PROT_READ ||| VM_PROT_WRITE),
              .log_format "vm_protect failed: %d"
                [.d (w.vm_protect s.trace (page_start w (bindings_base sect slide))
                  (page_length w (bindings_base sect slide) sect.size)
                  (VM_PROT_READ ||| VM_PROT_WRITE))],
              .log "failed to make symbol pointers writable"]) := by
  by_cases hm : make_writable = false ∨ did = true
  · exact Or.inl ⟨hm, bind_slot_steady w sect slide symtab strtab indirect_symtab
      make_writable i r s did hm⟩
  · have hw : make_writable = true := by
      cases make_writable <;> simp_all
    have hd : did = false := by
      cases did <;> simp_all
    subst hd
    by_cases hg : grants_write w sect slide s.trace
    · exact Or.inr (Or.inl ⟨hw, rfl, hg, bind_slot_granted w sect slide symtab strtab
        indirect_symtab make_writable i r s hw hg⟩)
    · exact Or.inr (Or.inr ⟨hw, rfl, hg, bind_slot_refused w sect slide symtab strtab
        indirect_symtab make_writable i r s hw hg⟩)

theorem bind_slot_mem_frame (i : Nat) (r : rebinding) (s : State) (did : Bool) (a : Nat)
    (ha : slot_address sect slide i ≠ a) :
    (bind_slot w sect slide symtab strtab indirect_symtab make_writable i r s did).state.mem a
      = s.mem a := by
  rcases bind_slot_cases w sect slide symtab strtab indirect_symtab make_writable i r s did
    with ⟨_, h⟩ | ⟨_, _, _, h⟩ | ⟨_, _, _, s1, h, hmem, _, _⟩
  · rw [h, Flow.state, apply_rebinding_mem, Function.update_noteq (Ne.symm ha)]
  · rw [h, Flow.state, apply_rebinding_mem, Function.update_noteq (Ne.symm ha)]
    rfl
  · rw [h, Flow.state, hmem]

theorem bind_slot_replaced_mono (i : Nat) (r : rebinding) (s : State) (did : Bool) (l : Nat)
    (hl : s.replaced l ≠ 0) :
    (bind_slot w sect slide symtab strtab indirect_symtab make_writable i r s
      did).state.replaced l = s.replaced l := by
  rcases bind_slot_cases w sect slide symtab strtab indirect_symtab make_writable i r s did
    with ⟨_, h⟩ | ⟨_, _, _, h⟩ | ⟨_, _, _, s1, h, _, hrep, _⟩
  · rw [h, Flow.state, apply_rebinding_replaced_mono _ _ _ _ _ _ _ _ _ hl]
  · rw [h, Flow.state, apply_rebinding_replaced_mono _ _ _ _ _ _ _ _ _ (by exact hl)]
    rfl
  · rw [h, Flow.state, hrep]

theorem bind_slot_replaced_frame (i : Nat) (r : rebinding) (s : State) (did : Bool) (l : Nat)
    (hl : r.replaced ≠ some l) :
    (bind_slot w sect slide symtab strtab indirect_symtab make_writable i r s
      did).state.replaced l = s.replaced l := by
  rcases bind_slot_cases w sect slide symtab strtab indirect_symtab make_writable i r s did
    with ⟨_, h⟩ | ⟨_, _, _, h⟩ | ⟨_, _, _, s1, h, _, hrep, _⟩
  · rw [h, Flow.state, apply_rebinding_replaced_frame _ _ _ _ _ _ _ _ _ hl]
  · rw [h, Flow.state, apply_rebinding_replaced_frame _ _ _ _ _ _ _ _ _ hl]
    rfl
  · rw [h, Flow.state, hrep]

/-! ## The slot loop -/

theorem slots_loop_succ_none (n i : Nat) (s : State) (did : Bool)
    (hr : slot_rebinding rebindings sect symtab strtab indirect_symtab i = none) :
    slots_loop w rebindings sect slide symtab strtab indirect_symtab make_writable
        (n + 1) i s did
      = slots_loop w rebindings sect slide symtab strtab indirect_symtab make_writable
          n (i + 1) s did := by
  rw [slots_loop, rebind_slot_eq, hr]

theorem slots_loop_succ_some (n i : Nat) (s : State) (did : Bool) (r : rebinding)
    (hr : slot_rebinding rebindings sect symtab strtab indirect_symtab i = some r) :
    slots_loop w rebindings sect slide symtab strtab indirect_symtab make_writable
        (n + 1) i s did
      = match bind_slot w sect slide symtab strtab indirect_symtab make_writable i r s
          did with
        | .next s1 did1 =>
          slots_loop w rebindings sect slide symtab strtab indirect_symtab make_writable
            n (i + 1) s1 did1
        | .ret s1 => .ret s1 := by
  rw [slots_loop, rebind_slot_eq, hr]

theorem slots_loop_none (n i : Nat) (s : State) (did : Bool)
    (h : ∀ k, i ≤ k → k < i + n →
      slot_rebinding rebindings sect symtab strtab indirect_symtab k = none) :
    slots_loop w rebindings sect slide symtab strtab indirect_symtab make_writable n i s did
      = .next s did := by
  induction n generalizing i with
  | zero => rfl
  | succ n ih =>
    rw [slots_loop_succ_none _ _ _ _ _ _ _ _ _ _ _ _ (h i (le_refl i) (by omega))]
    exact ih (i + 1) (fun k h1 h2 => h k (by omega) (by omega))

theorem slots_loop_add (n m i : Nat) (s : State) (did : Bool) :
    slots_loop w rebindings sect slide symtab strtab indirect_symtab make_writable
        (n + m) i s did
      = match slots_loop w rebindings sect slide symtab strtab indirect_symtab make_writable
          n i s did with
        | .next s1 did1 =>
          slots_loop w rebindings sect slide symtab strtab indirect_symtab make_writable
            m (i + n) s1 did1
        | .ret s1 => .ret s1 := by
  induction n generalizing i s did with
  | zero => simp [slots_loop]
  | succ n ih =>
    rw [show n + 1 + m = (n + m) + 1 by omega, slots_loop, slots_loop]
    cases h : rebind_slot w rebindings sect slide symtab strtab indirect_symtab
        make_writable i s did with
    | next s1 did1 =>
      simp only
      rw [ih, show i + 1 + n = i + (n + 1) by omega]
    | ret s1 => rfl

theorem slots_loop_mem_frame (n i : Nat) (s : State) (did : Bool) (a : Nat)
    (h : ∀ k, i ≤ k → k < i + n → slot_address sect slide k = a →
      slot_rebinding rebindings sect symtab strtab indirect_symtab k = none) :
    (slots_loop w rebindings sect slide symtab strtab indirect_symtab make_writable
      n i s did).state.mem a = s.mem a := by
  induction n generalizing i s did with
  | zero => rfl
  | succ n ih =>
    cases hr : slot_rebinding rebindings sect symtab strtab indirect_symtab i with
    | none =>
      rw [slots_loop_succ_none _ _ _ _ _ _ _ _ _ _ _ _ hr]
      exact ih (i + 1) s did (fun k h1 h2 => h k (by omega) (by omega))
    | some r =>
      rw [slots_loop_succ_some _ _ _ _ _ _ _ _ _ _ _ _ _ hr]
      have ha : slot_address sect slide i ≠ a := by
        intro e
        rw [h i (le_refl i) (by omega) e] at hr
        cases hr
      have hb := bind_slot_mem_frame w sect slide symtab strtab indirect_symtab
        make_writable i r s did a ha
      cases hf : bind_slot w sect slide symtab strtab indirect_symtab make_writable i r s
          did with
      | next s1 did1 =>
        rw [hf] at hb
        simp only
        rw [ih (i + 1) s1 did1 (fun k h1 h2 => h k (by omega) (by omega))]
        exact hb
      | ret s1 =>
        rw [hf] at hb
        exact hb

theorem slots_loop_replaced_mono (n i : Nat) (s : State) (did : Bool) (l : Nat)
    (h : s.replaced l ≠ 0) :
    (slots_loop w rebindings sect slide symtab strtab indirect_symtab make_writable
      n i s did).state.replaced l = s.replaced l := by
  induction n generalizing i s did with
  | zero => rfl
  | succ n ih =>
    cases hr : slot_rebinding rebindings sect symtab strtab indirect_symtab i with
    | none =>
      rw [slots_loop_succ_none _ _ _ _ _ _ _ _ _ _ _ _ hr]
      exact ih (i + 1) s did h
    | some r =>
      rw [slots_loop_succ_some _ _ _ _ _ _ _ _ _ _ _ _ _ hr]
      have hb := bind_slot_replaced_mono w sect slide symtab strtab indirect_symtab
        make_writable i r s did l h
      cases hf : bind_slot w sect slide symtab strtab indirect_symtab make_writable i r s
          did with
      | next s1 did1 =>
        rw [hf] at hb
        simp only [Flow.state] at hb
        simp only
        rw [ih (i + 1) s1 did1 (by rw [hb]; exact h)]
        exact hb
      | ret s1 =>
        rw [hf] at hb
        exact hb

theorem slots_loop_replaced_frame (n i : Nat) (s : State) (did : Bool) (l : Nat)
    (h : ∀ k r, i ≤ k → k < i + n →
      slot_rebinding rebindings sect symtab strtab indirect_symtab k = some r →
      r.replaced ≠ some l) :
    (slots_loop w rebindings sect slide symtab strtab indirect_symtab make_writable
      n i s did).state.replaced l = s.replaced l := by
  induction n generalizing i s did with
  | zero => rfl
  | succ n ih =>
    cases hr : slot_rebinding rebindings sect symtab strtab indirect_symtab i with
    | none =>
      rw [slots_loop_succ_none _ _ _ _ _ _ _ _ _ _ _ _ hr]
      exact ih (i + 1) s did (fun k r h1 h2 => h k r (by omega) (by omega))
    | some r =>
      rw [slots_loop_succ_some _ _ _ _ _ _ _ _ _ _ _ _ _ hr]
      have hb := bind_slot_replaced_frame w sect slide symtab strtab indirect_symtab
        make_writable i r s did l (h i r (le_refl i) (by omega) hr)
      cases hf : bind_slot w sect slide symtab strtab indirect_symtab make_writable i r s
          did with
      | next s1 did1 =>
        rw [hf] at hb
        simp only
        rw [ih (i + 1) s1 did1 (fun k r h1 h2 => h k r (by omega) (by omega))]
        exact hb
      | ret s1 =>
        rw [hf] at hb
        exact hb

/-- The loop once the section is writable (or needs no permission): it runs to its end,
asks the kernel for nothing, stores into exactly the slots that have a rebinding, and
leaves each of them holding the replacement. -/
theorem slots_loop_steady (n i : Nat) (s : State) (did : Bool)
    (hmode : make_writable = false ∨ did = true) :
    ∃ s' body,
      slots_loop w rebindings sect slide symtab strtab indirect_symtab make_writable n i s did
        = .next s' did
      ∧ s'.trace = s.trace ++ body
      ∧ (∀ e ∈ body, e.is_protect = false)
      ∧ (∀ a v, Event.store a v ∈ body ↔
          ∃ k r, i ≤ k ∧ k < i + n
            ∧ slot_rebinding rebindings sect symtab strtab indirect_symtab k = some r
            ∧ a = slot_address sect slide k ∧ v = r.replacement)
      ∧ (∀ k r, i ≤ k → k < i + n →
          slot_rebinding rebindings sect symtab strtab indirect_symtab k = some r →
          s'.mem (slot_address sect slide k) = r.replacement) := by
  induction n generalizing i s with
  | zero =>
    refine ⟨s, [], rfl, by simp, by simp, ?_, ?_⟩
    · intro a v
      simp only [List.not_mem_nil, false_iff]
      rintro ⟨k, r, h1, h2, _⟩
      omega
    · intro k r h1 h2
      omega
  | succ n ih =>
    cases hr : slot_rebinding rebindings sect symtab strtab indirect_symtab i with
    | none =>
      rw [slots_loop_succ_none _ _ _ _ _ _ _ _ _ _ _ _ hr]
      obtain ⟨s', body, hloop, htr, hprot, hstore, hmem⟩ := ih (i + 1) s
      refine ⟨s', body, hloop, htr, hprot, ?_, ?_⟩
      · intro a v
        rw [hstore]
        constructor
        · rintro ⟨k, r, h1, h2, h3, h4⟩
          exact ⟨k, r, by omega, by omega, h3, h4⟩
        · rintro ⟨k, r, h1, h2, h3, h4⟩
          have hk : k ≠ i := by
            rintro rfl
            rw [hr] at h3
            cases h3
          exact ⟨k, r, by omega, by omega, h3, h4⟩
      · intro k r h1 h2 h3
        have hk : k ≠ i := by
          rintro rfl
          rw [hr] at h3
          cases h3
        exact hmem k r (by omega) (by omega) h3
    | some r =>
      rw [slots_loop_succ_some _ _ _ _ _ _ _ _ _ _ _ _ _ hr,
        bind_slot_steady _ _ _ _ _ _ _ _ _ _ _ hmode]
      simp only
      obtain ⟨s', body, hloop, htr, hprot, hstore, hmem⟩ :=
        ih (i + 1) (apply_rebinding sect slide symtab strtab indirect_symtab i r s)
      obtain ⟨logs, hlogs, hlogs'⟩ :=
        apply_rebinding_trace sect slide symtab strtab indirect_symtab i r s
      refine ⟨s', (logs ++ [.store (slot_address sect slide i) r.replacement]) ++ body,
        hloop, ?_, ?_, ?_, ?_⟩
      · rw [htr, hlogs, List.append_assoc]
      · intro e he
        rcases List.mem_append.1 he with he | he
        · rcases List.mem_append.1 he with he | he
          · exact (hlogs' e he).1
          · rw [List.mem_singleton.1 he]
            rfl
        · exact hprot e he
      · intro a v
        constructor
        · intro he
          rcases List.mem_append.1 he with he | he
          · rcases List.mem_append.1 he with he | he
            · have := (hlogs' _ he).2
              simp [Event.is_store] at this
            · have he' := List.mem_singleton.1 he
              injection he' with h1 h2
              exact ⟨i, r, le_refl i, by omega, hr, h1, h2⟩
          · obtain ⟨k, r', h1, h2, h3, h4⟩ := (hstore a v).1 he
            exact ⟨k, r', by omega, by omega, h3, h4⟩
        · rintro ⟨k, r', h1, h2, h3, h4, h5⟩
          by_cases hk : k = i
          · subst hk
            rw [hr] at h3
            cases h3
            rw [h4, h5]
            simp
          · apply List.mem_append_right
            exact (hstore a v).2 ⟨k, r', by omega, by omega, h3, h4, h5⟩
      · intro k r' h1 h2 h3
        by_cases hk : k = i
        · subst hk
          rw [hr] at h3
          cases h3
          have hfr := slots_loop_mem_frame w rebindings sect slide symtab strtab
            indirect_symtab make_writable n (k + 1)
            (apply_rebinding sect slide symtab strtab indirect_symtab k r s) did
            (slot_address sect slide k) (by
              intro j hj1 hj2 hj3
              have := (slot_address_inj sect slide).1 hj3
              omega)
          rw [hloop] at hfr
          simp only [Flow.state] at hfr
          rw [hfr, apply_rebinding_mem, Function.update_same]
        · exact hmem k r' (by omega) (by omega) h3

/-- While no protection has been requested yet, a granted request turns the loop into the
loop that starts writable, one `vm_protect` event later. -/
theorem slots_loop_granted (n i : Nat) (s : State) (hw : make_writable = true)
    (hg : grants_write w sect slide s.trace)
    (hm : ∃ k, i ≤ k ∧ k < i + n
      ∧ slot_rebinding rebindings sect symtab strtab indirect_symtab k ≠ none) :
    slots_loop w rebindings sect slide symtab strtab indirect_symtab make_writable n i s false
      = slots_loop w rebindings sect slide symtab strtab indirect_symtab make_writable n i
          (s.emit (protect_event w sect slide (VM_PROT_READ ||| VM_PROT_WRITE))) true := by
  induction n generalizing i with
  | zero =>
    obtain ⟨k, h1, h2, _⟩ := hm
    omega
  | succ n ih =>
    cases hr : slot_rebinding rebindings sect symtab strtab indirect_symtab i with
    | none =>
      rw [slots_loop_succ_none _ _ _ _ _ _ _ _ _ _ _ _ hr,
        slots_loop_succ_none _ _ _ _ _ _ _ _ _ _ _ _ hr]
      apply ih
      obtain ⟨k, h1, h2, h3⟩ := hm
      have hk : k ≠ i := by
        rintro rfl
        exact h3 hr
      exact ⟨k, by omega, by omega, h3⟩
    | some r =>
      rw [slots_loop_succ_some _ _ _ _ _ _ _ _ _ _ _ _ _ hr,
        slots_loop_succ_some _ _ _ _ _ _ _ _ _ _ _ _ _ hr,
        bind_slot_granted _ _ _ _ _ _ _ _ _ _ hw hg,
        bind_slot_steady _ _ _ _ _ _ _ _ _ _ _ (Or.inr rfl)]

/-- While no protection has been requested yet, a refused request ends the loop at the
first slot that has a rebinding. -/
theorem slots_loop_refused (n i : Nat) (s : State) (hw : make_writable = true)
    (hg : ¬ grants_write w sect slide s.trace)
    (hm : ∃ k, i ≤ k ∧ k < i + n
      ∧ slot_rebinding rebindings sect symtab strtab indirect_symtab k ≠ none) :
    ∃ s1, slots_loop w rebindings sect slide symtab strtab indirect_symtab make_writable
          n i s false = .ret s1
      ∧ s1.mem = s.mem ∧ s1.replaced = s.replaced
      ∧ s1.trace = s.trace
        ++ [protect_event w sect slide (VM_PROT_READ ||| VM_PROT_WRITE),
          .log_format "vm_protect failed: %d"
            [.d (w.vm_protect s.trace (page_start w (bindings_base sect slide))
              (page_length w (bindings_base sect slide) sect.size)
              (VM_PROT_READ ||| VM_PROT_WRITE))],
          .log "failed to make symbol pointers writable"] := by
  induction n generalizing i with
  | zero =>
    obtain ⟨k, h1, h2, _⟩ := hm
    omega
  | succ n ih =>
    cases hr : slot_rebinding rebindings sect symtab strtab indirect_symtab i with
    | none =>
      rw [slots_loop_succ_none _ _ _ _ _ _ _ _ _ _ _ _ hr]
      apply ih
      obtain ⟨k, h1, h2, h3⟩ := hm
      have hk : k ≠ i := by
        rintro rfl
        exact h3 hr
      exact ⟨k, by omega, by omega, h3⟩
    | some r =>
      obtain ⟨s1, h1, h2⟩ := bind_slot_refused w sect slide symtab strtab indirect_symtab
        make_writable i r s hw hg
      rw [slots_loop_succ_some _ _ _ _ _ _ _ _ _ _ _ _ _ hr, h1]
      exact ⟨s1, rfl, h2⟩

/-! ## One pass over a section -/

theorem perform_no_match (s : State)
    (h : ∀ k, k < slot_count sect →
      slot_rebinding rebindings sect symtab strtab indirect_symtab k = none) :
    perform_rebinding_with_section w rebindings sect slide symtab strtab indirect_symtab
      make_writable s = s := by
  unfold perform_rebinding_with_section
  rw [slots_loop_none w rebindings sect slide symtab strtab indirect_symtab make_writable
    (slot_count sect) 0 s false (fun k _ h2 => h k (by omega))]
  simp

theorem perform_unprotected (s : State) (hw : make_writable = false) :
    slots_loop w rebindings sect slide symtab strtab indirect_symtab make_writable
        (slot_count sect) 0 s false
      = .next (perform_rebinding_with_section w rebindings sect slide symtab strtab
          indirect_symtab make_writable s) false := by
  obtain ⟨s', body, hloop, _⟩ := slots_loop_steady w rebindings sect slide symtab strtab
    indirect_symtab make_writable (slot_count sect) 0 s false (Or.inl hw)
  unfold perform_rebinding_with_section
  rw [hloop]
  simp [hw]

theorem perform_refused (s : State) (hw : make_writable = true)
    (hg : ¬ grants_write w sect slide s.trace)
    (hm : ∃ k, k < slot_count sect
      ∧ slot_rebinding rebindings sect symtab strtab indirect_symtab k ≠ none) :
    (perform_rebinding_with_section w rebindings sect slide symtab strtab indirect_symtab
        make_writable s).mem = s.mem
      ∧ (perform_rebinding_with_section w rebindings sect slide symtab strtab
        indirect_symtab make_writable s).replaced = s.replaced
      ∧ (perform_rebinding_with_section w rebindings sect slide symtab strtab
        indirect_symtab make_writable s).trace = s.trace
        ++ [protect_event w sect slide (VM_PROT_READ ||| VM_PROT_WRITE),
          .log_format "vm_protect failed: %d"
            [.d (w.vm_protect s.trace (page_start w (bindings_base sect slide))
              (page_length w (bindings_base sect slide) sect.size)
              (VM_PROT_READ ||| VM_PROT_WRITE))],
          .log "failed to make symbol pointers writable"] := by
  obtain ⟨k, hk, hk'⟩ := hm
  obtain ⟨s1, h1, h2⟩ := slots_loop_refused w rebindings sect slide symtab strtab
    indirect_symtab make_writable (slot_count sect) 0 s hw hg ⟨k, by omega, by omega, hk'⟩
  unfold perform_rebinding_with_section
  rw [h1]
  exact h2

theorem perform_granted (s : State) (hw : make_writable = true)
    (hg : grants_write w sect slide s.trace)
    (hm : ∃ k, k < slot_count sect
      ∧ slot_rebinding rebindings sect symtab strtab indirect_symtab k ≠ none) :
    ∃ s', slots_loop w rebindings sect slide symtab strtab indirect_symtab make_writable
          (slot_count sect) 0
          (s.emit (protect_event w sect slide (VM_PROT_READ ||| VM_PROT_WRITE))) true
        = .next s' true
      ∧ perform_rebinding_with_section w rebindings sect slide symtab strtab
          indirect_symtab make_writable s
        = (set_memory_protection w (bindings_base sect slide) sect.size VM_PROT_READ s').2 := by
  obtain ⟨k, hk, hk'⟩ := hm
  obtain ⟨s', body, hloop, _⟩ := slots_loop_steady w rebindings sect slide symtab strtab
    indirect_symtab make_writable (slot_count sect) 0
    (s.emit (protect_event w sect slide (VM_PROT_READ ||| VM_PROT_WRITE))) true
    (Or.inr rfl)
  refine ⟨s', hloop, ?_⟩
  unfold perform_rebinding_with_section
  rw [slots_loop_granted w rebindings sect slide symtab strtab indirect_symtab make_writable
    (slot_count sect) 0 s hw hg ⟨k, by omega, by omega, hk'⟩, hloop]
  simp [hw]

/-- With write permission not required or granted, a pass leaves every slot that has a
rebinding holding the replacement pointer of that rebinding. -/
theorem perform_mem_of_rebinding (s : State) (k : Nat) (r : rebinding)
    (hperm : make_writable = false ∨ grants_write w sect slide s.trace)
    (hk : k < slot_count sect)
    (hr : slot_rebinding rebindings sect symtab strtab indirect_symtab k = some r) :
    (perform_rebinding_with_section w rebindings sect slide symtab strtab indirect_symtab
      make_writable s).mem (slot_address sect slide k) = r.replacement := by
  by_cases hw : make_writable = false
  · obtain ⟨s', body, hloop, _, _, _, hmem⟩ := slots_loop_steady w rebindings sect slide
      symtab strtab indirect_symtab make_writable (slot_count sect) 0 s false (Or.inl hw)
    have h := perform_unprotected w rebindings sect slide symtab strtab indirect_symtab
      make_writable s hw
    rw [hloop] at h
    injection h with h1 _
    rw [← h1]
    exact hmem k r (by omega) (by omega) hr
  · have hw' : make_writable = true := by
      cases make_writable <;> simp_all
    have hg : grants_write w sect slide s.trace := by
      rcases hperm with h | h
      · exact absurd h hw
      · exact h
    obtain ⟨s', hloop, hperf⟩ := perform_granted w rebindings sect slide symtab strtab
      indirect_symtab make_writable s hw' hg ⟨k, hk, by rw [hr]; simp⟩
    obtain ⟨s'', body, hloop', _, _, _, hmem⟩ := slots_loop_steady w rebindings sect slide
      symtab strtab indirect_symtab make_writable (slot_count sect) 0
      (s.emit (protect_event w sect slide (VM_PROT_READ ||| VM_PROT_WRITE))) true
      (Or.inr rfl)
    rw [hloop] at hloop'
    injection hloop' with h1 _
    rw [hperf, set_memory_protection_mem, h1]
    exact hmem k r (by omega) (by omega) hr

end Engine

section Engine

variable (w : World) (rebindings : List rebindings_entry) (sect : section_t) (slide : Int)
  (symtab : Nat → nlist_t) (strtab : List Char) (indirect_symtab : Nat → Nat)
  (make_writable : Bool)

theorem perform_mem_eq (s : State) :
    (perform_rebinding_with_section w rebindings sect slide symtab strtab indirect_symtab
        make_writable s).mem
      = (slots_loop w rebindings sect slide symtab strtab indirect_symtab make_writable
          (slot_count sect) 0 s false).state.mem := by
  unfold perform_rebinding_with_section
  cases slots_loop w rebindings sect slide symtab strtab indirect_symtab make_writable
      (slot_count sect) 0 s false with
  | ret s1 => rfl
  | next s1 did =>
    simp only [Flow.state]
    split_ifs
    · rw [set_memory_protection_mem]
    · rfl

theorem perform_replaced_eq (s : State) :
    (perform_rebinding_with_section w rebindings sect slide symtab strtab indirect_symtab
        make_writable s).replaced
      = (slots_loop w rebindings sect slide symtab strtab indirect_symtab make_writable
          (slot_count sect) 0 s false).state.replaced := by
  unfold perform_rebinding_with_section
  cases slots_loop w rebindings sect slide symtab strtab indirect_symtab make_writable
      (slot_count sect) 0 s false with
  | ret s1 => rfl
  | next s1 did =>
    simp only [Flow.state]
    split_ifs
    · rw [set_memory_protection_replaced]
    · rfl

/-- A pass writes no cell but the slots that have a rebinding. -/
theorem perform_mem_frame (s : State) (a : Nat)
    (h : ∀ k, k < slot_count sect → slot_address sect slide k = a →
      slot_rebinding rebindings sect symtab strtab indirect_symtab k = none) :
    (perform_rebinding_with_section w rebindings sect slide symtab strtab indirect_symtab
      make_writable s).mem a = s.mem a := by
  rw [perform_mem_eq]
  exact slots_loop_mem_frame w rebindings sect slide symtab strtab indirect_symtab
    make_writable (slot_count sect) 0 s false a (fun k _ h2 => h k (by omega))

/-- A pass never overwrites an output location that is already populated. -/
theorem perform_replaced_mono (s : State) (l : Nat) (h : s.replaced l ≠ 0) :
    (perform_rebinding_with_section w rebindings sect slide symtab strtab indirect_symtab
      make_writable s).replaced l = s.replaced l := by
  rw [perform_replaced_eq]
  exact slots_loop_replaced_mono w rebindings sect slide symtab strtab indirect_symtab
    make_writable (slot_count sect) 0 s false l h

/-- The writable loop captures into an unset output location the value of the first slot
whose rebinding points to it, when that value is not null. -/
theorem slots_loop_capture (n i : Nat) (s : State) (did : Bool)
    (hmode : make_writable = false ∨ did = true) (k : Nat) (r : rebinding) (l : Nat)
    (hk1 : i ≤ k) (hk2 : k < i + n)
    (hr : slot_rebinding rebindings sect symtab strtab indirect_symtab k = some r)
    (hl : r.replaced = some l) (h0 : s.replaced l = 0)
    (hv : s.mem (slot_address sect slide k) ≠ 0)
    (hfirst : ∀ j r', i ≤ j → j < k →
      slot_rebinding rebindings sect symtab strtab indirect_symtab j = some r' →
      r'.replaced ≠ some l) :
    (slots_loop w rebindings sect slide symtab strtab indirect_symtab make_writable
      n i s did).state.replaced l = s.mem (slot_address sect slide k) := by
  induction n generalizing i s with
  | zero => omega
  | succ n ih =>
    by_cases hik : i = k
    · subst hik
      rw [slots_loop_succ_some _ _ _ _ _ _ _ _ _ _ _ _ _ hr,
        bind_slot_steady _ _ _ _ _ _ _ _ _ _ _ hmode]
      simp only
      have hc := apply_rebinding_replaced_capture sect slide symtab strtab indirect_symtab
        i r s l hl h0
      rw [slots_loop_replaced_mono _ _ _ _ _ _ _ _ _ _ _ _ _ (by rw [hc]; exact hv), hc]
    · cases hri : slot_rebinding rebindings sect symtab strtab indirect_symtab i with
      | none =>
        rw [slots_loop_succ_none _ _ _ _ _ _ _ _ _ _ _ _ hri]
        exact ih (i + 1) s (by omega) (by omega) h0 hv
          (fun j r' h1 h2 => hfirst j r' (by omega) h2)
      | some r' =>
        rw [slots_loop_succ_some _ _ _ _ _ _ _ _ _ _ _ _ _ hri,
          bind_slot_steady _ _ _ _ _ _ _ _ _ _ _ hmode]
        simp only
        have hne : slot_address sect slide k ≠ slot_address sect slide i := fun e =>
          hik ((slot_address_inj sect slide).1 e).symm
        have hm : (apply_rebinding sect slide symtab strtab indirect_symtab i r' s).mem
            (slot_address sect slide k) = s.mem (slot_address sect slide k) := by
          rw [apply_rebinding_mem, Function.update_noteq hne]
        have hrep : (apply_rebinding sect slide symtab strtab indirect_symtab i r'
            s).replaced l = 0 := by
          rw [apply_rebinding_replaced_frame _ _ _ _ _ _ _ _ _
            (hfirst i r' (le_refl i) (by omega) hri), h0]
        rw [← hm]
        exact ih (i + 1) _ (by omega) (by omega) hrep (by rw [hm]; exact hv)
          (fun j r'' h1 h2 => hfirst j r'' (by omega) h2)

/-- With write permission not required or granted, a pass captures into an unset output
location the value of the first slot whose rebinding points to it, when that value is not
null. -/
theorem perform_replaced_capture (s : State) (k : Nat) (r : rebinding) (l : Nat)
    (hperm : make_writable = false ∨ grants_write w sect slide s.trace)
    (hk : k < slot_count sect)
    (hr : slot_rebinding rebindings sect symtab strtab indirect_symtab k = some r)
    (hl : r.replaced = some l) (h0 : s.replaced l = 0)
    (hv : s.mem (slot_address sect slide k) ≠ 0)
    (hfirst : ∀ j r', j < k →
      slot_rebinding rebindings sect symtab strtab indirect_symtab j = some r' →
      r'.replaced ≠ some l) :
    (perform_rebinding_with_section w rebindings sect slide symtab strtab indirect_symtab
      make_writable s).replaced l = s.mem (slot_address sect slide k) := by
  rw [perform_replaced_eq]
  by_cases hw : make_writable = false
  · exact slots_loop_capture w rebindings sect slide symtab strtab indirect_symtab
      make_writable (slot_count sect) 0 s false (Or.inl hw) k r l (by omega) (by omega) hr
      hl h0 hv (fun j r' _ h2 => hfirst j r' h2)
  · have hw' : make_writable = true := by
      cases make_writable <;> simp_all
    have hg : grants_write w sect slide s.trace := by
      rcases hperm with h | h
      · exact absurd h hw
      · exact h
    rw [slots_loop_granted w rebindings sect slide symtab strtab indirect_symtab
      make_writable (slot_count sect) 0 s hw' hg ⟨k, by omega, by omega, by rw [hr]; simp⟩]
    exact slots_loop_capture w rebindings sect slide symtab strtab indirect_symtab
      make_writable (slot_count sect) 0 _ true (Or.inr rfl) k r l (by omega) (by omega) hr
      hl h0 hv (fun j r' _ h2 => hfirst j r' h2)

end Engine

section Engine

variable (w : World) (rebindings : List rebindings_entry) (sect : section_t) (slide : Int)
  (symtab : Nat → nlist_t) (strtab : List Char) (indirect_symtab : Nat → Nat)
  (make_writable : Bool)

/-- The events of a pass over a section that needs no write permission. -/
theorem perform_trace_unprotected (s : State) :
    ∃ body, (perform_rebinding_with_section w rebindings sect slide symtab strtab
        indirect_symtab false s).trace = s.trace ++ body
      ∧ (∀ e ∈ body, e.is_protect = false)
      ∧ (∀ a v, Event.store a v ∈ body ↔
          ∃ k r, k < slot_count sect
            ∧ slot_rebinding rebindings sect symtab strtab indirect_symtab k = some r
            ∧ a = slot_address sect slide k ∧ v = r.replacement) := by
  obtain ⟨s', body, hloop, htr, hprot, hstore, _⟩ := slots_loop_steady w rebindings sect
    slide symtab strtab indirect_symtab false (slot_count sect) 0 s false (Or.inl rfl)
  have h := perform_unprotected w rebindings sect slide symtab strtab indirect_symtab
    false s rfl
  rw [hloop] at h
  injection h with h1 _
  refine ⟨body, by rw [← h1, htr], hprot, ?_⟩
  intro a v
  rw [hstore]
  constructor
  · rintro ⟨k, r, _, h2, h3⟩
    exact ⟨k, r, by omega, h3⟩
  · rintro ⟨k, r, h2, h3⟩
    exact ⟨k, r, by omega, by omega, h3⟩

/-- The events of a pass over a section that needs write permission, when some slot has a
rebinding and the kernel grants the request: the request, then the stores (one for each
slot that has a rebinding) and log lines, then the request that restores read-only
protection, then at most the log line of a refused restoration. -/
theorem perform_trace_granted (s : State) (hg : grants_write w sect slide s.trace)
    (hm : ∃ k, k < slot_count sect
      ∧ slot_rebinding rebindings sect symtab strtab indirect_symtab k ≠ none) :
    ∃ body tail, (perform_rebinding_with_section w rebindings sect slide symtab strtab
        indirect_symtab true s).trace
        = s.trace ++ protect_event w sect slide (VM_PROT_READ ||| VM_PROT_WRITE)
          :: (body ++ protect_event w sect slide VM_PROT_READ :: tail)
      ∧ (∀ e ∈ body, e.is_protect = false)
      ∧ (∀ a v, Event.store a v ∈ body ↔
          ∃ k r, k < slot_count sect
            ∧ slot_rebinding rebindings sect symtab strtab indirect_symtab k = some r
            ∧ a = slot_address sect slide k ∧ v = r.replacement)
      ∧ (∀ e ∈ tail, e.is_protect = false ∧ e.is_store = false) := by
  obtain ⟨s', hloop, hperf⟩ := perform_granted w rebindings sect slide symtab strtab
    indirect_symtab true s rfl hg hm
  obtain ⟨s'', body, hloop', htr, hprot, hstore, _⟩ := slots_loop_steady w rebindings sect
    slide symtab strtab indirect_symtab true (slot_count sect) 0
    (s.emit (protect_event w sect slide (VM_PROT_READ ||| VM_PROT_WRITE))) true
    (Or.inr rfl)
  rw [hloop] at hloop'
  injection hloop' with h1 _
  subst h1
  refine ⟨body,
    (if w.vm_protect s'.trace (page_start w (bindings_base sect slide))
        (page_length w (bindings_base sect slide) sect.size) VM_PROT_READ = KERN_SUCCESS
      then []
      else [.log_format "vm_protect failed: %d"
        [.d (w.vm_protect s'.trace (page_start w (bindings_base sect slide))
          (page_length w (bindings_base sect slide) sect.size) VM_PROT_READ)]]),
    ?_, hprot, ?_, ?_⟩
  · rw [hperf, set_memory_protection_trace, htr]
    simp only [State.emit, List.append_assoc, List.singleton_append, protect_event]
    rfl
  · intro a v
    rw [hstore]
    constructor
    · rintro ⟨k, r, _, h2, h3⟩
      exact ⟨k, r, by omega, h3⟩
    · rintro ⟨k, r, h2, h3⟩
      exact ⟨k, r, by omega, by omega, h3⟩
  · intro e he
    split_ifs at he
    · simp at he
    · rw [List.mem_singleton.1 he]
      exact ⟨rfl, rfl⟩

end Engine

/-! ## Claims about one pass -/

/-- The rebinding of a slot whose indirect-symbol entry is no marker, whose string-table
offset is non-zero and whose symbol name is `_` followed by `n`: the first rebinding named
`n` in the search order of the registry. -/
theorem slot_rebinding_of_name (rebindings : List rebindings_entry) (sect : section_t)
    (symtab : Nat → nlist_t) (strtab : List Char) (indirect_symtab : Nat → Nat) (i : Nat)
    (n : List Char)
    (hidx : indirect_symtab (sect.reserved1 + i) ≠ INDIRECT_SYMBOL_ABS
      ∧ indirect_symtab (sect.reserved1 + i) ≠ INDIRECT_SYMBOL_LOCAL
      ∧ indirect_symtab (sect.reserved1 + i) ≠ (INDIRECT_SYMBOL_LOCAL ||| INDIRECT_SYMBOL_ABS))
    (hstrx : (symtab (indirect_symtab (sect.reserved1 + i))).n_strx ≠ 0)
    (hname : cstr (strtab.drop (symtab (indirect_symtab (sect.reserved1 + i))).n_strx)
      = '_' :: n) :
    slot_rebinding rebindings sect symtab strtab indirect_symtab i
      = (registry_order rebindings).find? (fun r => decide (cstr r.name = n)) := by
  obtain ⟨rest, hrest, hn⟩ := cstr_eq_cons hname
  unfold slot_rebinding slot_symbol
  simp only [hidx.1, hidx.2.1, hidx.2.2, hstrx, or_self, if_false, hrest, List.head?_cons,
    ne_eq, not_true_eq_false, List.drop_succ_cons, List.drop_zero]
  rw [find_rebinding_eq, hn]

/-- C1: for a pass over a section whose write permission is not required or is granted,
a slot whose indirect-symbol entry is no absolute/local marker, whose string-table offset
is non-zero and whose symbol name is `_` followed by `n` holds, after the pass, the
replacement pointer of the first rebinding named `n`, the batches being searched from the
newest on and each batch in index order, as soon as some registered rebinding is
named `n`. -/
theorem rebinding_redirects_slot (w : World) (rebindings : List rebindings_entry)
    (sect : section_t) (slide : Int) (symtab : Nat → nlist_t) (strtab : List Char)
    (indirect_symtab : Nat → Nat) (make_writable : Bool) (s : State) (i : Nat)
    (n : List Char)
    (hperm : make_writable = false ∨ grants_write w sect slide s.trace)
    (hi : i < slot_count sect)
    (hidx : indirect_symtab (sect.reserved1 + i) ≠ INDIRECT_SYMBOL_ABS
      ∧ indirect_symtab (sect.reserved1 + i) ≠ INDIRECT_SYMBOL_LOCAL
      ∧ indirect_symtab (sect.reserved1 + i) ≠ (INDIRECT_SYMBOL_LOCAL ||| INDIRECT_SYMBOL_ABS))
    (hstrx : (symtab (indirect_symtab (sect.reserved1 + i))).n_strx ≠ 0)
    (hname : cstr (strtab.drop (symtab (indirect_symtab (sect.reserved1 + i))).n_strx)
      = '_' :: n)
    (hreg : ∃ r ∈ registry_order rebindings, cstr r.name = n) :
    ∃ r, (registry_order rebindings).find? (fun r => decide (cstr r.name = n)) = some r
      ∧ (perform_rebinding_with_section w rebindings sect slide symtab strtab
          indirect_symtab make_writable s).mem (slot_address sect slide i)
        = r.replacement := by
  have hslot := slot_rebinding_of_name rebindings sect symtab strtab indirect_symtab i n
    hidx hstrx hname
  cases hfind : (registry_order rebindings).find? (fun r => decide (cstr r.name = n)) with
  | none =>
    obtain ⟨r, hr, hrn⟩ := hreg
    have := List.find?_eq_none.1 hfind r hr
    simp [hrn] at this
  | some r =>
    rw [hfind] at hslot
    exact ⟨r, rfl, perform_mem_of_rebinding w rebindings sect slide symtab strtab
      indirect_symtab make_writable s i r hperm hi hslot⟩

/-- C1, witness: the slot importing `_foo` of the example section, in a segment that needs
write permission, holds the replacement `100` after the pass. -/
theorem rebinding_redirects_slot_witness :
    ∃ r, (registry_order ex_registry).find? (fun r => decide (cstr r.name = "foo".toList))
        = some r
      ∧ (perform_rebinding_with_section ex_world ex_registry ex_section 0 ex_symtab
          ex_strtab ex_indirect true ex_state).mem (slot_address ex_section 0 0)
        = r.replacement :=
  rebinding_redirects_slot ex_world ex_registry ex_section 0 ex_symtab ex_strtab
    ex_indirect true ex_state 0 "foo".toList (by decide) (by decide) (by decide)
    (by decide) (by decide) ⟨⟨"foo".toList, 100, some 0⟩, by decide, by decide⟩

/-- C2: first writer wins.  Let `r` be a rebinding whose output location `l` is unset, and
let slot `i`, holding the non-null value `v`, be the first slot processed whose rebinding
captures into `l`; write permission is not required or is granted.  Then
(same section) for a later slot `j` of the same pass that `r` also binds, after the pass
`l` holds `v` and both slots hold the replacement, and processing slot `j` in any state
in which `l` is populated leaves `l` as it is;
(different sections) for a slot `j` of another section, in the same or in another image,
processed by a second pass, `l` holds `v` after the first pass, the second pass does not
change `l`, and after both passes both slots hold the replacement. -/
theorem first_writer_wins (w : World) (rebindings : List rebindings_entry)
    (sect : section_t) (slide : Int) (symtab : Nat → nlist_t) (strtab : List Char)
    (indirect_symtab : Nat → Nat) (make_writable : Bool) (s : State) (i : Nat)
    (r : rebinding) (l : Nat) (v : Ptr)
    (hl : r.replaced = some l) (h0 : s.replaced l = 0)
    (hi : i < slot_count sect)
    (hri : slot_rebinding rebindings sect symtab strtab indirect_symtab i = some r)
    (hv : s.mem (slot_address sect slide i) = v) (hv0 : v ≠ 0)
    (hfirst : ∀ j r', j < i →
      slot_rebinding rebindings sect symtab strtab indirect_symtab j = some r' →
      r'.replaced ≠ some l)
    (hperm : make_writable = false ∨ grants_write w sect slide s.trace) :
    (∀ j, i < j → j < slot_count sect →
      slot_rebinding rebindings sect symtab strtab indirect_symtab j = some r →
      (perform_rebinding_with_section w rebindings sect slide symtab strtab
          indirect_symtab make_writable s).replaced l = v
        ∧ (perform_rebinding_with_section w rebindings sect slide symtab strtab
          indirect_symtab make_writable s).mem (slot_address sect slide i) = r.replacement
        ∧ (perform_rebinding_with_section w rebindings sect slide symtab strtab
          indirect_symtab make_writable s).mem (slot_address sect slide j) = r.replacement
        ∧ ∀ (t : State) (did : Bool), t.replaced l ≠ 0 →
          (rebind_slot w rebindings sect slide symtab strtab indirect_symtab make_writable
            j t did).state.replaced l = t.replaced l)
    ∧ (∀ (w2 : World) (rebindings2 : List rebindings_entry) (sect2 : section_t)
        (slide2 : Int) (symtab2 : Nat → nlist_t) (strtab2 : List Char)
        (indirect_symtab2 : Nat → Nat) (make_writable2 : Bool) (j : Nat),
      j < slot_count sect2 →
      slot_rebinding rebindings2 sect2 symtab2 strtab2 indirect_symtab2 j = some r →
      (make_writable2 = false ∨ grants_write w2 sect2 slide2
        (perform_rebinding_with_section w rebindings sect slide symtab strtab
          indirect_symtab make_writable s).trace) →
      (∀ k, k < slot_count sect2 →
        slot_address sect2 slide2 k ≠ slot_address sect slide i) →
      (perform_rebinding_with_section w rebindings sect slide symtab strtab
          indirect_symtab make_writable s).replaced l = v
        ∧ (perform_rebinding_with_section w2 rebindings2 sect2 slide2 symtab2 strtab2
            indirect_symtab2 make_writable2
            (perform_rebinding_with_section w rebindings sect slide symtab strtab
              indirect_symtab make_writable s)).replaced l = v
        ∧ (perform_rebinding_with_section w2 rebindings2 sect2 slide2 symtab2 strtab2
            indirect_symtab2 make_writable2
            (perform_rebinding_with_section w rebindings sect slide symtab strtab
              indirect_symtab make_writable s)).mem (slot_address sect slide i)
          = r.replacement
        ∧ (perform_rebinding_with_section w2 rebindings2 sect2 slide2 symtab2 strtab2
            indirect_symtab2 make_writable2
            (perform_rebinding_with_section w rebindings sect slide symtab strtab
              indirect_symtab make_writable s)).mem (slot_address sect2 slide2 j)
          = r.replacement) := by
  have hcap : (perform_rebinding_with_section w rebindings sect slide symtab strtab
      indirect_symtab make_writable s).replaced l = v := by
    rw [perform_replaced_capture w rebindings sect slide symtab strtab indirect_symtab
      make_writable s i r l hperm hi hri hl h0 (by rw [hv]; exact hv0) hfirst, hv]
  have hmi := perform_mem_of_rebinding w rebindings sect slide symtab strtab
    indirect_symtab make_writable s i r hperm hi hri
  refine ⟨?_, ?_⟩
  · intro j _ hj hrj
    refine ⟨hcap, hmi, perform_mem_of_rebinding w rebindings sect slide symtab strtab
      indirect_symtab make_writable s j r hperm hj hrj, ?_⟩
    intro t did ht
    rw [rebind_slot_eq, hrj]
    exact bind_slot_replaced_mono w sect slide symtab strtab indirect_symtab make_writable
      j r t did l ht
  · intro w2 rebindings2 sect2 slide2 symtab2 strtab2 indirect_symtab2 make_writable2 j
      hj hrj hperm2 hdisj
    refine ⟨hcap, ?_, ?_, ?_⟩
    · rw [perform_replaced_mono _ _ _ _ _ _ _ _ _ _ (by rw [hcap]; exact hv0), hcap]
    · rw [perform_mem_frame _ _ _ _ _ _ _ _ _ _
        (fun k hk e => absurd e (hdisj k hk)), hmi]
    · exact perform_mem_of_rebinding w2 rebindings2 sect2 slide2 symtab2 strtab2
        indirect_symtab2 make_writable2 _ j r hperm2 hj hrj

/-- C2, witness: two slots importing `_foo`, the first holding `7`, in one section and in
two sections; the original captured is `7` and every slot ends up holding `100`. -/
theorem first_writer_wins_witness :
    ((perform_rebinding_with_section ex_world ex_registry ex_section 0 ex_symtab ex_strtab
        (fun _ => 0) true ex_state).replaced 0 = 7
      ∧ (perform_rebinding_with_section ex_world ex_registry ex_section 0 ex_symtab
        ex_strtab (fun _ => 0) true ex_state).mem 4096 = 100
      ∧ (perform_rebinding_with_section ex_world ex_registry ex_section 0 ex_symtab
        ex_strtab (fun _ => 0) true ex_state).mem 4104 = 100)
    ∧ (perform_rebinding_with_section ex_world ex_registry ⟨8192, 8, 0⟩ 0 ex_symtab
        ex_strtab (fun _ => 0) false
        (perform_rebinding_with_section ex_world ex_registry ex_section 0 ex_symtab
          ex_strtab (fun _ => 0) true ex_state)).replaced 0 = 7
    ∧ (perform_rebinding_with_section ex_world ex_registry ⟨8192, 8, 0⟩ 0 ex_symtab
        ex_strtab (fun _ => 0) false
        (perform_rebinding_with_section ex_world ex_registry ex_section 0 ex_symtab
          ex_strtab (fun _ => 0) true ex_state)).mem 8192 = 100 :=
  have h := first_writer_wins ex_world ex_registry ex_section 0 ex_symtab ex_strtab
    (fun _ => 0) true ex_state 0 ⟨"foo".toList, 100, some 0⟩ 0 7 rfl rfl (by decide)
    (by decide) (by decide) (by decide) (fun j _ hj => absurd hj (Nat.not_lt_zero j))
    (by decide)
  have h1 := h.1 1 (by decide) (by decide) (by decide)
  have h2 := h.2 ex_world ex_registry ⟨8192, 8, 0⟩ 0 ex_symtab ex_strtab (fun _ => 0)
    false 0 (by decide) (by decide) (Or.inl rfl)
    (fun k hk => by
      have hk0 : k = 0 := by
        have : slot_count ⟨8192, 8, 0⟩ = 1 := by decide
        omega
      subst hk0
      decide)
  ⟨⟨h1.1, h1.2.1, h1.2.2.1⟩, h2.2.1, h2.2.2.2⟩

/-- C3: for a section whose segment requires write permission, when the kernel refuses the
request to make the section writable, the pass leaves every pointer slot and every output
location as they were; the request is made when the first slot with a rebinding is
reached, and the pass then hands the failure to the logging interface (the lines
`vm_protect failed: %d` and `failed to make symbol pointers writable`) and returns; when no
slot has a rebinding no request is made and the state is unchanged. -/
theorem refused_protection_leaves_section_untouched (w : World)
    (rebindings : List rebindings_entry) (sect : section_t) (slide : Int)
    (symtab : Nat → nlist_t) (strtab : List Char) (indirect_symtab : Nat → Nat)
    (s : State) (hfail : ¬ grants_write w sect slide s.trace) :
    (perform_rebinding_with_section w rebindings sect slide symtab strtab indirect_symtab
        true s).mem = s.mem
      ∧ (perform_rebinding_with_section w rebindings sect slide symtab strtab
        indirect_symtab true s).replaced = s.replaced
      ∧ ((∃ k, k < slot_count sect
            ∧ slot_rebinding rebindings sect symtab strtab indirect_symtab k ≠ none) →
          (perform_rebinding_with_section w rebindings sect slide symtab strtab
            indirect_symtab true s).trace = s.trace
            ++ [protect_event w sect slide (VM_PROT_READ ||| VM_PROT_WRITE),
              .log_format "vm_protect failed: %d"
                [.d (w.vm_protect s.trace (page_start w (bindings_base sect slide))
                  (page_length w (bindings_base sect slide) sect.size)
                  (VM_PROT_READ ||| VM_PROT_WRITE))],
              .log "failed to make symbol pointers writable"])
      ∧ ((∀ k, k < slot_count sect →
            slot_rebinding rebindings sect symtab strtab indirect_symtab k = none) →
          perform_rebinding_with_section w rebindings sect slide symtab strtab
            indirect_symtab true s = s) := by
  by_cases hm : ∃ k, k < slot_count sect
      ∧ slot_rebinding rebindings sect symtab strtab indirect_symtab k ≠ none
  · obtain ⟨h1, h2, h3⟩ := perform_refused w rebindings sect slide symtab strtab
      indirect_symtab true s rfl hfail hm
    refine ⟨h1, h2, fun _ => h3, fun hnone => ?_⟩
    obtain ⟨k, hk, hk'⟩ := hm
    exact absurd (hnone k hk) hk'
  · have hnone : ∀ k, k < slot_count sect →
        slot_rebinding rebindings sect symtab strtab indirect_symtab k = none := by
      intro k hk
      by_contra hne
      exact hm ⟨k, hk, hne⟩
    have hs := perform_no_match w rebindings sect slide symtab strtab indirect_symtab
      true s hnone
    rw [hs]
    exact ⟨rfl, rfl, fun h => absurd h hm, fun _ => rfl⟩

/-- C3, witness: the example section under a kernel that refuses every request. -/
theorem refused_protection_leaves_section_untouched_witness :
    (perform_rebinding_with_section ex_world_refusing ex_registry ex_section 0 ex_symtab
        ex_strtab ex_indirect true ex_state).mem = ex_state.mem
      ∧ (perform_rebinding_with_section ex_world_refusing ex_registry ex_section 0
        ex_symtab ex_strtab ex_indirect true ex_state).replaced = ex_state.replaced
      ∧ (perform_rebinding_with_section ex_world_refusing ex_registry ex_section 0
        ex_symtab ex_strtab ex_indirect true ex_state).trace
        = [.vm_protect 4096 4096 3, .log_format "vm_protect failed: %d" [.d 2],
          .log "failed to make symbol pointers writable"] :=
  have h := refused_protection_leaves_section_untouched ex_world_refusing ex_registry
    ex_section 0 ex_symtab ex_strtab ex_indirect ex_state (by decide)
  ⟨h.1, h.2.1, h.2.2.1 ⟨0, by decide, by decide⟩⟩

/-- C9: a pass over a section that needs no write permission asks the kernel for no
protection change.  A pass over a section that needs it asks for nothing when no slot has
a rebinding; otherwise it asks once to make the section writable, at the first slot that
has a rebinding and before any store; when that request is granted, the stores of all
the slots that have a rebinding follow with no further request between them, and one
request to restore read-only protection comes after the last of them; when it is refused
the pass ends there, with no store and no restoration. -/
theorem protection_changed_once_per_pass (w : World) (rebindings : List rebindings_entry)
    (sect : section_t) (slide : Int) (symtab : Nat → nlist_t) (strtab : List Char)
    (indirect_symtab : Nat → Nat) (s : State) :
    (∃ body, (perform_rebinding_with_section w rebindings sect slide symtab strtab
          indirect_symtab false s).trace = s.trace ++ body
        ∧ ∀ e ∈ body, e.is_protect = false)
      ∧ ((∀ k, k < slot_count sect →
            slot_rebinding rebindings sect symtab strtab indirect_symtab k = none) →
          perform_rebinding_with_section w rebindings sect slide symtab strtab
            indirect_symtab true s = s)
      ∧ ((∃ k, k < slot_count sect
            ∧ slot_rebinding rebindings sect symtab strtab indirect_symtab k ≠ none) →
          ¬ grants_write w sect slide s.trace →
          (perform_rebinding_with_section w rebindings sect slide symtab strtab
            indirect_symtab true s).trace = s.trace
            ++ [protect_event w sect slide (VM_PROT_READ ||| VM_PROT_WRITE),
              .log_format "vm_protect failed: %d"
                [.d (w.vm_protect s.trace (page_start w (bindings_base sect slide))
                  (page_length w (bindings_base sect slide) sect.size)
                  (VM_PROT_READ ||| VM_PROT_WRITE))],
              .log "failed to make symbol pointers writable"])
      ∧ ((∃ k, k < slot_count sect
            ∧ slot_rebinding rebindings sect symtab strtab indirect_symtab k ≠ none) →
          grants_write w sect slide s.trace →
          ∃ body tail, (perform_rebinding_with_section w rebindings sect slide symtab
              strtab indirect_symtab true s).trace
              = s.trace ++ protect_event w sect slide (VM_PROT_READ ||| VM_PROT_WRITE)
                :: (body ++ protect_event w sect slide VM_PROT_READ :: tail)
            ∧ (∀ e ∈ body, e.is_protect = false)
            ∧ (∀ a v, Event.store a v ∈ body ↔
                ∃ k r, k < slot_count sect
                  ∧ slot_rebinding rebindings sect symtab strtab indirect_symtab k = some r
                  ∧ a = slot_address sect slide k ∧ v = r.replacement)
            ∧ (∀ e ∈ tail, e.is_protect = false ∧ e.is_store = false)) := by
  refine ⟨?_, ?_, ?_, ?_⟩
  · obtain ⟨body, h1, h2, _⟩ := perform_trace_unprotected w rebindings sect slide symtab
      strtab indirect_symtab s
    exact ⟨body, h1, h2⟩
  · exact perform_no_match w rebindings sect slide symtab strtab indirect_symtab true s
  · intro hm hg
    exact (perform_refused w rebindings sect slide symtab strtab indirect_symtab true s
      rfl hg hm).2.2
  · intro hm hg
    exact perform_trace_granted w rebindings sect slide symtab strtab indirect_symtab s
      hg hm

/-- C9, witness: the pass over the example section, which needs write permission: one
request to make it writable, the store, one request to restore it. -/
theorem protection_changed_once_per_pass_witness :
    (perform_rebinding_with_section ex_world ex_registry ex_section 0 ex_symtab ex_strtab
        ex_indirect true ex_state).trace
        = [.vm_protect 4096 4096 3, .store 4096 100, .vm_protect 4096 4096 1]
      ∧ ∃ body tail, (perform_rebinding_with_section ex_world ex_registry ex_section 0
          ex_symtab ex_strtab ex_indirect true ex_state).trace
          = ex_state.trace
            ++ protect_event ex_world ex_section 0 (VM_PROT_READ ||| VM_PROT_WRITE)
              :: (body ++ protect_event ex_world ex_section 0 VM_PROT_READ :: tail)
        ∧ (∀ e ∈ body, e.is_protect = false)
        ∧ (∀ a v, Event.store a v ∈ body ↔
            ∃ k r, k < slot_count ex_section
              ∧ slot_rebinding ex_registry ex_section ex_symtab ex_strtab ex_indirect k
                = some r
              ∧ a = slot_address ex_section 0 k ∧ v = r.replacement)
        ∧ (∀ e ∈ tail, e.is_protect = false ∧ e.is_store = false) :=
  ⟨by decide,
    (protection_changed_once_per_pass ex_world ex_registry ex_section 0 ex_symtab
      ex_strtab ex_indirect ex_state).2.2.2 ⟨0, by decide, by decide⟩ (by decide)⟩

/-- The slots that have a rebinding: a slot whose indirect-symbol entry is no marker and
whose string-table offset is non-zero has one exactly when its symbol name is `_`
followed by the name of a registered rebinding. -/
theorem slot_rebinding_ne_none_iff (rebindings : List rebindings_entry) (sect : section_t)
    (symtab : Nat → nlist_t) (strtab : List Char) (indirect_symtab : Nat → Nat) (i : Nat)
    (hidx : indirect_symtab (sect.reserved1 + i) ≠ INDIRECT_SYMBOL_ABS
      ∧ indirect_symtab (sect.reserved1 + i) ≠ INDIRECT_SYMBOL_LOCAL
      ∧ indirect_symtab (sect.reserved1 + i) ≠ (INDIRECT_SYMBOL_LOCAL ||| INDIRECT_SYMBOL_ABS))
    (hstrx : (symtab (indirect_symtab (sect.reserved1 + i))).n_strx ≠ 0) :
    slot_rebinding rebindings sect symtab strtab indirect_symtab i ≠ none
      ↔ ∃ n, cstr (strtab.drop (symtab (indirect_symtab (sect.reserved1 + i))).n_strx)
          = '_' :: n
        ∧ ∃ r ∈ registry_order rebindings, cstr r.name = n := by
  constructor
  · intro h
    unfold slot_rebinding slot_symbol at h
    simp only [hidx.1, hidx.2.1, hidx.2.2, hstrx, or_self, if_false] at h
    cases hd : strtab.drop (symtab (indirect_symtab (sect.reserved1 + i))).n_strx with
    | nil => simp [hd] at h
    | cons c rest =>
      rw [hd] at h
      by_cases hc : c = '_'
      · subst hc
        simp only [List.head?_cons, ne_eq, not_true_eq_false, if_false,
          List.drop_succ_cons, List.drop_zero] at h
        rw [find_rebinding_eq] at h
        cases hf : (registry_order rebindings).find?
            (fun r => decide (cstr r.name = cstr rest)) with
        | none => exact absurd hf h
        | some r =>
          refine ⟨cstr rest, by simp [cstr, NUL], r, List.mem_of_find?_eq_some hf, ?_⟩
          simpa using List.find?_some hf
      · simp [hc] at h
  · rintro ⟨n, hn, r, hr, hrn⟩
    rw [slot_rebinding_of_name rebindings sect symtab strtab indirect_symtab i n hidx hstrx
      hn]
    intro hf
    have := List.find?_eq_none.1 hf r hr
    simp [hrn] at this

/-- With write permission not required or granted, the stores of a pass are the stores of
the replacement into the slots that have a rebinding. -/
theorem perform_store_iff (w : World) (rebindings : List rebindings_entry)
    (sect : section_t) (slide : Int) (symtab : Nat → nlist_t) (strtab : List Char)
    (indirect_symtab : Nat → Nat) (make_writable : Bool) (s : State)
    (hperm : make_writable = false ∨ grants_write w sect slide s.trace) (a : Nat) (v : Ptr) :
    Event.store a v ∈ (perform_rebinding_with_section w rebindings sect slide symtab
        strtab indirect_symtab make_writable s).trace.drop s.trace.length
      ↔ ∃ k r, k < slot_count sect
          ∧ slot_rebinding rebindings sect symtab strtab indirect_symtab k = some r
          ∧ a = slot_address sect slide k ∧ v = r.replacement := by
  by_cases hw : make_writable = false
  · subst hw
    obtain ⟨body, h1, _, h3⟩ := perform_trace_unprotected w rebindings sect slide symtab
      strtab indirect_symtab s
    rw [h1, List.drop_left]
    exact h3 a v
  · have hw' : make_writable = true := by
      cases make_writable <;> simp_all
    subst hw'
    have hg : grants_write w sect slide s.trace := by
      rcases hperm with h | h
      · exact absurd h hw
      · exact h
    by_cases hm : ∃ k, k < slot_count sect
        ∧ slot_rebinding rebindings sect symtab strtab indirect_symtab k ≠ none
    · obtain ⟨body, tail, h1, _, h3, h4⟩ := perform_trace_granted w rebindings sect slide
        symtab strtab indirect_symtab s hg hm
      rw [h1, List.drop_left, ← h3 a v]
      constructor
      · intro he
        rcases List.mem_cons.1 he with he | he
        · simp [protect_event] at he
        · rcases List.mem_append.1 he with he | he
          · exact he
          · rcases List.mem_cons.1 he with he | he
            · simp [protect_event] at he
            · have := (h4 _ he).2
              simp [Event.is_store] at this
      · intro he
        exact List.mem_cons_of_mem _ (List.mem_append_left _ he)
    · have hnone : ∀ k, k < slot_count sect →
          slot_rebinding rebindings sect symtab strtab indirect_symtab k = none := by
        intro k hk
        by_contra hne
        exact hm ⟨k, hk, hne⟩
      rw [perform_no_match w rebindings sect slide symtab strtab indirect_symtab true s
        hnone, List.drop_length]
      simp only [List.not_mem_nil, false_iff]
      rintro ⟨k, r, hk, hr, _⟩
      rw [hnone k hk] at hr
      cases hr

/-- C10, as amended: with write permission not required or granted, a slot whose
indirect-symbol entry is no marker and whose string-table offset is non-zero is rebound
by the pass (a store into the slot happens) exactly when its symbol name begins with an
underscore and the name that follows the underscore equals the name of some registered
rebinding. -/
theorem rebinds_iff_underscore_name (w : World) (rebindings : List rebindings_entry)
    (sect : section_t) (slide : Int) (symtab : Nat → nlist_t) (strtab : List Char)
    (indirect_symtab : Nat → Nat) (make_writable : Bool) (s : State) (i : Nat)
    (hperm : make_writable = false ∨ grants_write w sect slide s.trace)
    (hi : i < slot_count sect)
    (hidx : indirect_symtab (sect.reserved1 + i) ≠ INDIRECT_SYMBOL_ABS
      ∧ indirect_symtab (sect.reserved1 + i) ≠ INDIRECT_SYMBOL_LOCAL
      ∧ indirect_symtab (sect.reserved1 + i) ≠ (INDIRECT_SYMBOL_LOCAL ||| INDIRECT_SYMBOL_ABS))
    (hstrx : (symtab (indirect_symtab (sect.reserved1 + i))).n_strx ≠ 0) :
    (∃ v, Event.store (slot_address sect slide i) v
        ∈ (perform_rebinding_with_section w rebindings sect slide symtab strtab
          indirect_symtab make_writable s).trace.drop s.trace.length)
      ↔ ∃ n, cstr (strtab.drop (symtab (indirect_symtab (sect.reserved1 + i))).n_strx)
          = '_' :: n
        ∧ ∃ r ∈ registry_order rebindings, cstr r.name = n := by
  rw [← slot_rebinding_ne_none_iff rebindings sect symtab strtab indirect_symtab i hidx
    hstrx]
  constructor
  · rintro ⟨v, hv⟩
    obtain ⟨k, r, _, hr, ha, _⟩ := (perform_store_iff w rebindings sect slide symtab
      strtab indirect_symtab make_writable s hperm _ v).1 hv
    have hk : i = k := (slot_address_inj sect slide).1 ha
    subst hk
    rw [hr]
    simp
  · intro h
    cases hr : slot_rebinding rebindings sect symtab strtab indirect_symtab i with
    | none => exact absurd hr h
    | some r =>
      exact ⟨r.replacement, (perform_store_iff w rebindings sect slide symtab strtab
        indirect_symtab make_writable s hperm _ _).2 ⟨i, r, hi, hr, rfl, rfl⟩⟩

/-- C10, witness: the slot importing `_foo` of the example section is rebound. -/
theorem rebinds_iff_underscore_name_witness :
    ∃ v, Event.store (slot_address ex_section 0 0) v
      ∈ (perform_rebinding_with_section ex_world ex_registry ex_section 0 ex_symtab
        ex_strtab ex_indirect false ex_state).trace.drop ex_state.trace.length :=
  (rebinds_iff_underscore_name ex_world ex_registry ex_section 0 ex_symtab ex_strtab
    ex_indirect false ex_state 0 (by decide) (by decide) (by decide) (by decide)).2
    ⟨"foo".toList, by decide, ⟨"foo".toList, 100, some 0⟩, by decide, by decide⟩

/-- C10, counterexample: the second slot of the example section imports `xfoo`, whose
name with its first character removed is `foo`, the name of a registered rebinding; the
pass does not rebind it: no store into the slot, which keeps its value `9`. -/
theorem strips_any_leading_character_counterexample :
    ex_indirect (ex_section.reserved1 + 1) ≠ INDIRECT_SYMBOL_ABS
      ∧ ex_indirect (ex_section.reserved1 + 1) ≠ INDIRECT_SYMBOL_LOCAL
      ∧ ex_indirect (ex_section.reserved1 + 1)
        ≠ (INDIRECT_SYMBOL_LOCAL ||| INDIRECT_SYMBOL_ABS)
      ∧ cstr (ex_strtab.drop (ex_symtab (ex_indirect (ex_section.reserved1 + 1))).n_strx)
        = "xfoo".toList
      ∧ (∃ r ∈ registry_order ex_registry, cstr r.name = "xfoo".toList.drop 1)
      ∧ (perform_rebinding_with_section ex_world ex_registry ex_section 0 ex_symtab
          ex_strtab ex_indirect false ex_state).mem (slot_address ex_section 0 1) = 9
      ∧ ¬ ∃ v, Event.store (slot_address ex_section 0 1) v
          ∈ (perform_rebinding_with_section ex_world ex_registry ex_section 0 ex_symtab
            ex_strtab ex_indirect false ex_state).trace.drop ex_state.trace.length := by
  refine ⟨by decide, by decide, by decide, by decide,
    ⟨⟨"foo".toList, 100, some 0⟩, by decide, by decide⟩, by decide, ?_⟩
  have h : (perform_rebinding_with_section ex_world ex_registry ex_section 0 ex_symtab
      ex_strtab ex_indirect false ex_state).trace.drop ex_state.trace.length
      = [.store 4096 100] := by decide
  rw [h]
  rintro ⟨v, hv⟩
  have h2 := List.mem_singleton.1 hv
  injection h2 with h3 _
  revert h3
  decide

/-! ## Machine arithmetic -/

theorem not64_fff : not64 0xFFF = 2 ^ 64 - 4096 := by decide

theorem testBit_page_mask (i : Nat) :
    (2 ^ 64 - 4096 : Nat).testBit i = decide (12 ≤ i ∧ i < 64) := by
  by_cases h : i < 64
  · interval_cases i <;> rfl
  · have h1 : (2 ^ 64 - 4096 : Nat) < 2 ^ i :=
      lt_of_lt_of_le (by norm_num) (Nat.pow_le_pow_right (by norm_num) (not_lt.1 h))
    rw [Nat.testBit_lt_two_pow h1]
    simp [h]

/-- Clearing the low 12 bits: `x & ~0xFFF`. -/
theorem and_page_mask (x : Nat) (hx : x < 2 ^ 64) :
    x &&& not64 0xFFF = x - x % 4096 := by
  rw [not64_fff]
  have hr : x - x % 4096 = (x >>> 12) <<< 12 := by
    rw [Nat.shiftLeft_eq, Nat.shiftRight_eq_div_pow]
    omega
  rw [hr]
  apply Nat.eq_of_testBit_eq
  intro i
  rw [Nat.testBit_and, testBit_page_mask, Nat.testBit_shiftLeft, Nat.testBit_shiftRight]
  by_cases h12 : 12 ≤ i
  · by_cases h64 : i < 64
    · simp [h12, h64, Nat.add_sub_cancel' h12]
    · have h1 : x < 2 ^ i :=
        lt_of_lt_of_le hx (Nat.pow_le_pow_right (by norm_num) (not_lt.1 h64))
      simp [h12, h64, Nat.add_sub_cancel' h12, Nat.testBit_lt_two_pow h1]
  · simp [h12]

theorem and_fff (x : Nat) : x &&& 0xFFF = x % 4096 :=
  Nat.and_pow_two_sub_one_eq_mod x 12

theorem and_3 (x : Nat) : x &&& 0x3 = x % 4 :=
  Nat.and_pow_two_sub_one_eq_mod x 2

theorem and_7ffff (x : Nat) : x &&& 0x7FFFF = x % 524288 :=
  Nat.and_pow_two_sub_one_eq_mod x 19

theorem and_1f (x : Nat) : x &&& 0x1F = x % 32 :=
  Nat.and_pow_two_sub_one_eq_mod x 5

theorem and_3ff (x : Nat) : x &&& 0x3FF = x % 1024 :=
  Nat.and_pow_two_sub_one_eq_mod x 10

theorem and_1 (x : Nat) : x &&& 1 = x % 2 :=
  Nat.and_pow_two_sub_one_eq_mod x 1

theorem int_shiftRight_12 (x : Int) : x >>> (12 : Nat) = x / 4096 := by
  rw [Int.shiftRight_eq_div_pow]
  norm_num

theorem int_shiftRight_2 (x : Int) : x >>> (2 : Nat) = x / 4 := by
  rw [Int.shiftRight_eq_div_pow]
  norm_num

/-- A bitwise or of two values with no common bit is their sum. -/
theorem lor_eq_add (i a b : Nat) (hb : b < 2 ^ i) : (2 ^ i * a) ||| b = 2 ^ i * a + b :=
  (Nat.mul_add_lt_is_or hb a).symm

/-! ## The jump encoder -/

theorem adrp_word_eq (imm : Int) :
    adrp_word imm
      = 0x90000010 + 2 ^ 29 * ((imm % 4).toNat) + 32 * ((imm / 4 % 524288).toNat) := by
  unfold adrp_word to_uint32 to_uint64
  simp only [and_3, and_7ffff, int_shiftRight_2, Nat.shiftLeft_eq]
  have e1 : (imm % 2 ^ 64).toNat % 4 % 2 ^ 32 = (imm % 4).toNat := by omega
  have e2 : (imm / 4 % 2 ^ 64).toNat % 524288 % 2 ^ 32 = (imm / 4 % 524288).toNat := by
    omega
  rw [e1, e2]
  have b1 : (imm % 4).toNat < 4 := by omega
  have b2 : (imm / 4 % 524288).toNat < 524288 := by omega
  generalize (imm % 4).toNat = lo at *
  generalize (imm / 4 % 524288).toNat = hi at *
  have e3 : lo * 2 ^ 29 % 2 ^ 32 = 2 ^ 29 * lo := by omega
  have e4 : hi * 2 ^ 5 % 2 ^ 32 = 2 ^ 5 * hi := by omega
  rw [e3, e4]
  have s1 : 0x90000000 ||| 2 ^ 29 * lo = 2 ^ 28 * (9 + 2 * lo) := by
    interval_cases lo <;> rfl
  rw [s1, lor_eq_add 28 _ _ (by omega)]
  have s2 : 2 ^ 28 * (9 + 2 * lo) + 2 ^ 5 * hi = 2 ^ 5 * (2 ^ 23 * (9 + 2 * lo) + hi) := by
    omega
  rw [s2, lor_eq_add 5 _ _ (by norm_num)]
  omega

theorem add_word_eq (to_addr : Nat) :
    add_word to_addr = 0x91000210 + 1024 * (to_addr % 4096) := by
  unfold add_word to_uint32
  simp only [and_fff, Nat.shiftLeft_eq]
  have e1 : to_addr % 2 ^ 64 % 4096 % 2 ^ 32 * 2 ^ 10 % 2 ^ 32
      = 2 ^ 10 * (to_addr % 4096) := by omega
  rw [e1]
  have b1 : to_addr % 4096 < 4096 := Nat.mod_lt _ (by norm_num)
  generalize to_addr % 4096 = lo at *
  have s1 : (0x91000000 : Nat) = 2 ^ 24 * 145 := by norm_num
  rw [s1, lor_eq_add 24 _ _ (by omega)]
  have s2 : 2 ^ 24 * 145 + 2 ^ 10 * lo = 2 ^ 10 * (2 ^ 14 * 145 + lo) := by omega
  rw [s2, lor_eq_add 10 _ _ (by norm_num)]
  have s3 : 2 ^ 10 * (2 ^ 14 * 145 + lo) + 16 * 2 ^ 5
      = 2 ^ 5 * (2 ^ 5 * (2 ^ 14 * 145 + lo) + 16) := by omega
  rw [s3, lor_eq_add 5 _ _ (by norm_num)]
  omega

theorem adrp_word_is_adrp_x16 (imm : Int) : is_adrp_x16 (adrp_word imm) := by
  unfold is_adrp_x16
  rw [adrp_word_eq, and_1, and_1f, and_1f, Nat.shiftRight_eq_div_pow,
    Nat.shiftRight_eq_div_pow]
  have b1 : (imm % 4).toNat < 4 := by omega
  have b2 : (imm / 4 % 524288).toNat < 524288 := by omega
  omega

theorem add_word_is_add_x16_x16 (to_addr : Nat) : is_add_x16_x16 (add_word to_addr) := by
  unfold is_add_x16_x16
  rw [add_word_eq, and_3ff, and_1f, and_1f, Nat.shiftRight_eq_div_pow,
    Nat.shiftRight_eq_div_pow]
  omega

theorem add_imm12_add_word (to_addr : Nat) : add_imm12 (add_word to_addr) = to_addr % 4096 := by
  unfold add_imm12
  rw [add_word_eq, and_fff, Nat.shiftRight_eq_div_pow]
  omega

theorem adrp_immlo_adrp_word (imm : Int) : adrp_immlo (adrp_word imm) = (imm % 4).toNat := by
  unfold adrp_immlo
  rw [adrp_word_eq, and_3, Nat.shiftRight_eq_div_pow]
  have b2 : (imm / 4 % 524288).toNat < 524288 := by omega
  omega

theorem adrp_immhi_adrp_word (imm : Int) :
    adrp_immhi (adrp_word imm) = (imm / 4 % 524288).toNat := by
  unfold adrp_immhi
  rw [adrp_word_eq, and_7ffff, Nat.shiftRight_eq_div_pow]
  have b1 : (imm % 4).toNat < 4 := by omega
  omega

theorem sign_extend21_fields (imm : Int) (h1 : -(2 ^ 20) ≤ imm) (h2 : imm < 2 ^ 20) :
    sign_extend21 ((imm / 4 % 524288).toNat * 4 + (imm % 4).toNat) = imm := by
  unfold sign_extend21
  split_ifs <;> omega

theorem to_int64_cases (x : Nat) (hx : x < 2 ^ 64) :
    (x < 2 ^ 63 ∧ to_int64 x = (x : Int)) ∨ (2 ^ 63 ≤ x ∧ to_int64 x = (x : Int) - 2 ^ 64) := by
  unfold to_int64
  rw [Nat.mod_eq_of_lt hx]
  split_ifs with h
  · exact Or.inl ⟨h, rfl⟩
  · exact Or.inr ⟨by omega, rfl⟩

/-- The destination the four words encode is the target, whenever the page displacement
fits the immediate of `ADRP`. -/
theorem jump_destination_encoded (from_addr to_addr : Nat) (hfrom : from_addr < 2 ^ 64)
    (hto : to_addr < 2 ^ 64)
    (h1 : -(2 ^ 20) ≤ adrp_imm from_addr to_addr) (h2 : adrp_imm from_addr to_addr < 2 ^ 20) :
    jump_destination from_addr (adrp_word (adrp_imm from_addr to_addr)) (add_word to_addr)
      = to_addr := by
  unfold jump_destination jump_destination_exact
  rw [adrp_immlo_adrp_word, adrp_immhi_adrp_word, add_imm12_add_word,
    sign_extend21_fields _ h1 h2]
  have hp : from_addr % 2 ^ 64 &&& not64 0xFFF = from_addr - from_addr % 4096 := by
    rw [Nat.mod_eq_of_lt hfrom, and_page_mask _ hfrom]
  rw [hp]
  have himm : adrp_imm from_addr to_addr
      = wrap_int64 (to_int64 (to_addr - to_addr % 4096)
          - to_int64 (from_addr - from_addr % 4096)) / 4096 := by
    unfold adrp_imm
    simp only [Nat.mod_eq_of_lt hfrom, Nat.mod_eq_of_lt hto, and_page_mask _ hfrom,
      and_page_mask _ hto, int_shiftRight_12]
  rw [himm] at h1 h2 ⊢
  have hA := to_int64_cases (to_addr - to_addr % 4096) (by omega)
  have hB := to_int64_cases (from_addr - from_addr % 4096) (by omega)
  generalize to_int64 (to_addr - to_addr % 4096) = A at *
  generalize to_int64 (from_addr - from_addr % 4096) = B at *
  unfold wrap_int64 at *
  omega

/-- For two addresses of the lower half of the address space the sum needs no reduction. -/
theorem jump_destination_exact_encoded (from_addr to_addr : Nat)
    (hfrom : from_addr < 2 ^ 63) (hto : to_addr < 2 ^ 63)
    (h1 : -(2 ^ 20) ≤ adrp_imm from_addr to_addr) (h2 : adrp_imm from_addr to_addr < 2 ^ 20) :
    jump_destination_exact from_addr (adrp_word (adrp_imm from_addr to_addr))
      (add_word to_addr) = (to_addr : Int) := by
  have hfrom' : from_addr < 2 ^ 64 := by omega
  have hto' : to_addr < 2 ^ 64 := by omega
  unfold jump_destination_exact
  rw [adrp_immlo_adrp_word, adrp_immhi_adrp_word, add_imm12_add_word,
    sign_extend21_fields _ h1 h2]
  have hp : from_addr % 2 ^ 64 &&& not64 0xFFF = from_addr - from_addr % 4096 := by
    rw [Nat.mod_eq_of_lt hfrom', and_page_mask _ hfrom']
  rw [hp]
  have himm : adrp_imm from_addr to_addr
      = wrap_int64 (to_int64 (to_addr - to_addr % 4096)
          - to_int64 (from_addr - from_addr % 4096)) / 4096 := by
    unfold adrp_imm
    simp only [Nat.mod_eq_of_lt hfrom', Nat.mod_eq_of_lt hto', and_page_mask _ hfrom',
      and_page_mask _ hto', int_shiftRight_12]
  rw [himm] at h1 h2 ⊢
  have hA := to_int64_cases (to_addr - to_addr % 4096) (by omega)
  have hB := to_int64_cases (from_addr - from_addr % 4096) (by omega)
  generalize to_int64 (to_addr - to_addr % 4096) = A at *
  generalize to_int64 (from_addr - from_addr % 4096) = B at *
  unfold wrap_int64 at *
  omega

theorem adrp_word_lt (imm : Int) : adrp_word imm < 2 ^ 32 := by
  rw [adrp_word_eq]
  have b1 : (imm % 4).toNat < 4 := by omega
  have b2 : (imm / 4 % 524288).toNat < 524288 := by omega
  omega

theorem add_word_lt (to_addr : Nat) : add_word to_addr < 2 ^ 32 := by
  rw [add_word_eq]
  omega

theorem br_word_eq : br_word = 0xD61F0200 := by decide

/-! ## Code bytes -/

theorem store32_frame (code : Nat → Nat) (a v x : Nat) (h : x < a ∨ a + 4 ≤ x) :
    store32 code a v x = code x := by
  unfold store32
  rw [Function.update_noteq (by omega), Function.update_noteq (by omega),
    Function.update_noteq (by omega), Function.update_noteq (by omega)]

theorem load32_store32_same (code : Nat → Nat) (a v : Nat) (hv : v < 2 ^ 32) :
    load32 (store32 code a v) a = v := by
  have h0 : store32 code a v a = v % 256 := by
    unfold store32
    rw [Function.update_noteq (by omega), Function.update_noteq (by omega),
      Function.update_noteq (by omega), Function.update_same]
  have h1 : store32 code a v (a + 1) = v / 2 ^ 8 % 256 := by
    unfold store32
    rw [Function.update_noteq (by omega), Function.update_noteq (by omega),
      Function.update_same]
  have h2 : store32 code a v (a + 2) = v / 2 ^ 16 % 256 := by
    unfold store32
    rw [Function.update_noteq (by omega), Function.update_same]
  have h3 : store32 code a v (a + 3) = v / 2 ^ 24 % 256 := by
    unfold store32
    rw [Function.update_same]
  unfold load32
  rw [h0, h1, h2, h3]
  omega

theorem load32_store32_frame (code : Nat → Nat) (a v b : Nat) (h : b + 4 ≤ a ∨ a + 4 ≤ b) :
    load32 (store32 code a v) b = load32 code b := by
  unfold load32
  rw [store32_frame _ _ _ _ (by omega), store32_frame _ _ _ _ (by omega),
    store32_frame _ _ _ _ (by omega), store32_frame _ _ _ _ (by omega)]

/-! ## `write_absolute_jump` -/

theorem write_absolute_jump_fst (w : World) (from_addr to_addr : Nat) (s : State) :
    (write_absolute_jump w from_addr to_addr s).1 = false
      ↔ jump_not_encodable w from_addr to_addr := by
  unfold write_absolute_jump jump_not_encodable
  cases w.arm64 with
  | false => simp
  | true =>
    simp only [if_true]
    split_ifs with h
    · simp only [true_iff]
      exact Or.inr h
    · simp only [Bool.true_eq_false, false_iff]
      rintro (h' | h')
      · cases h'
      · exact h h'

/-- A failed `write_absolute_jump` stores nothing. -/
theorem write_absolute_jump_failed (w : World) (from_addr to_addr : Nat) (s : State)
    (h : (write_absolute_jump w from_addr to_addr s).1 = false) :
    (write_absolute_jump w from_addr to_addr s).2.code = s.code := by
  unfold write_absolute_jump at h ⊢
  by_cases hw : w.arm64 = true
  · rw [if_pos hw] at h ⊢
    by_cases h' : adrp_imm from_addr to_addr < -(2 ^ 20) ∨ adrp_imm from_addr to_addr ≥ 2 ^ 20
    · simp only [h', if_true]
      rfl
    · simp only [h', if_false] at h
      cases h
  · rw [if_neg hw]
    rfl

/-- The code bytes after a successful `write_absolute_jump`. -/
theorem write_absolute_jump_code (w : World) (from_addr to_addr : Nat) (s : State)
    (h : (write_absolute_jump w from_addr to_addr s).1 = true) :
    (write_absolute_jump w from_addr to_addr s).2.code
        = store32 (store32 (store32 (store32 s.code from_addr
            (adrp_word (adrp_imm from_addr to_addr))) (from_addr + 4) (add_word to_addr))
            (from_addr + 8) br_word) (from_addr + 12) nop_word
      ∧ w.arm64 = true
      ∧ -(2 ^ 20) ≤ adrp_imm from_addr to_addr ∧ adrp_imm from_addr to_addr < 2 ^ 20 := by
  unfold write_absolute_jump at h ⊢
  by_cases hw : w.arm64 = true
  · rw [if_pos hw] at h ⊢
    by_cases h' : adrp_imm from_addr to_addr < -(2 ^ 20) ∨ adrp_imm from_addr to_addr ≥ 2 ^ 20
    · simp only [h', if_true] at h
      cases h
    · rw [if_neg h']
      refine ⟨rfl, hw, ?_, ?_⟩ <;> omega
  · rw [if_neg hw] at h
    cases h

/-- C4: on arm64, whenever `write_absolute_jump(from, to)` succeeds, the four 32-bit words
found at `from` afterwards are `ADRP x16`, `ADD x16, x16, #imm12`, `BR x16` and `NOP`, and
the destination they encode, the page of `from` plus 4096 times the sign-extended
`immhi:immlo` of the `ADRP` word plus the `imm12` of the `ADD` word, computed in the 64
bits of the register, is `to`; for two addresses below `2 ^ 63` the sum equals `to` as it
stands, without reduction. -/
theorem absolute_jump_encoding (w : World) (from_addr to_addr : Nat) (s : State)
    (hfrom : from_addr < 2 ^ 64) (hto : to_addr < 2 ^ 64)
    (hok : (write_absolute_jump w from_addr to_addr s).1 = true) :
    w.arm64 = true
      ∧ is_adrp_x16 (load32 (write_absolute_jump w from_addr to_addr s).2.code from_addr)
      ∧ is_add_x16_x16
          (load32 (write_absolute_jump w from_addr to_addr s).2.code (from_addr + 4))
      ∧ load32 (write_absolute_jump w from_addr to_addr s).2.code (from_addr + 8)
          = 0xD61F0200
      ∧ load32 (write_absolute_jump w from_addr to_addr s).2.code (from_addr + 12)
          = 0xD503201F
      ∧ jump_destination from_addr
          (load32 (write_absolute_jump w from_addr to_addr s).2.code from_addr)
          (load32 (write_absolute_jump w from_addr to_addr s).2.code (from_addr + 4))
        = to_addr
      ∧ (from_addr < 2 ^ 63 → to_addr < 2 ^ 63 →
          jump_destination_exact from_addr
            (load32 (write_absolute_jump w from_addr to_addr s).2.code from_addr)
            (load32 (write_absolute_jump w from_addr to_addr s).2.code (from_addr + 4))
          = (to_addr : Int)) := by
  obtain ⟨hcode, harm, h1, h2⟩ := write_absolute_jump_code w from_addr to_addr s hok
  have l0 : load32 (write_absolute_jump w from_addr to_addr s).2.code from_addr
      = adrp_word (adrp_imm from_addr to_addr) := by
    rw [hcode, load32_store32_frame _ _ _ _ (by omega),
      load32_store32_frame _ _ _ _ (by omega), load32_store32_frame _ _ _ _ (by omega),
      load32_store32_same _ _ _ (adrp_word_lt _)]
  have l1 : load32 (write_absolute_jump w from_addr to_addr s).2.code (from_addr + 4)
      = add_word to_addr := by
    rw [hcode, load32_store32_frame _ _ _ _ (by omega),
      load32_store32_frame _ _ _ _ (by omega), load32_store32_same _ _ _ (add_word_lt _)]
  have l2 : load32 (write_absolute_jump w from_addr to_addr s).2.code (from_addr + 8)
      = br_word := by
    rw [hcode, load32_store32_frame _ _ _ _ (by omega),
      load32_store32_same _ _ _ (by decide)]
  have l3 : load32 (write_absolute_jump w from_addr to_addr s).2.code (from_addr + 12)
      = nop_word := by
    rw [hcode, load32_store32_same _ _ _ (by decide)]
  rw [l0, l1, l2, l3]
  exact ⟨harm, adrp_word_is_adrp_x16 _, add_word_is_add_x16_x16 _, br_word_eq, rfl,
    jump_destination_encoded from_addr to_addr hfrom hto h1 h2,
    fun hf ht => jump_destination_exact_encoded from_addr to_addr hf ht h1 h2⟩

/-- C4, witness: the jump written at `0x5000` to `0x9abc`. -/
theorem absolute_jump_encoding_witness :
    load32 (write_absolute_jump ex_world 0x5000 0x9abc ex_state).2.code (0x5000 + 8)
        = 0xD61F0200
      ∧ jump_destination 0x5000
          (load32 (write_absolute_jump ex_world 0x5000 0x9abc ex_state).2.code 0x5000)
          (load32 (write_absolute_jump ex_world 0x5000 0x9abc ex_state).2.code (0x5000 + 4))
        = 0x9abc :=
  have h := absolute_jump_encoding ex_world 0x5000 0x9abc ex_state (by norm_num)
    (by norm_num) (by decide)
  ⟨h.2.2.2.1, h.2.2.2.2.2.1⟩

theorem write_absolute_jump_code_frame (w : World) (from_addr to_addr : Nat) (s : State)
    (a : Nat) (ha : a < from_addr ∨ from_addr + 16 ≤ a) :
    (write_absolute_jump w from_addr to_addr s).2.code a = s.code a := by
  cases h : (write_absolute_jump w from_addr to_addr s).1 with
  | false => rw [write_absolute_jump_failed w from_addr to_addr s h]
  | true =>
    rw [(write_absolute_jump_code w from_addr to_addr s h).1,
      store32_frame _ _ _ _ (by omega), store32_frame _ _ _ _ (by omega),
      store32_frame _ _ _ _ (by omega), store32_frame _ _ _ _ (by omega)]

theorem set_memory_protection_code (w : World) (address size protection : Nat) (s : State) :
    (set_memory_protection w address size protection s).2.code = s.code := by
  unfold set_memory_protection
  simp only [log_format_if_enabled, should_log, State.emit]
  split_ifs <;> rfl

theorem memcpy_frame (code : Nat → Nat) (dst src n a : Nat) (ha : a < dst ∨ dst + n ≤ a) :
    memcpy code dst src n a = code a := by
  unfold memcpy
  rw [if_neg (by omega)]

/-! ## `install_inline_hook` -/

/-- C5: whenever the jump encoder reports failure for one of the two jumps
`install_inline_hook` generates (the jump from the trampoline back into the target, or the
jump from the target to the replacement), because the page displacement is outside the
range of `ADRP` or because the architecture has no encoder, `install_inline_hook` returns
`NULL` and every code byte outside the block `mmap` has just handed out for the trampoline,
so every byte of the target function, is what it was. -/
theorem inline_hook_fails_closed (w : World) (target replacement : Nat) (s : State)
    (hfail : jump_not_encodable w (w.mmap s.trace 32 + 16) (target + 16)
      ∨ jump_not_encodable w target replacement) :
    (install_inline_hook w target replacement s).1 = 0
      ∧ ∀ a : Nat, (a < w.mmap s.trace 32 ∨ w.mmap s.trace 32 + 32 ≤ a) →
          (install_inline_hook w target replacement s).2.code a = s.code a := by
  unfold install_inline_hook
  by_cases h0 : target = 0 ∨ replacement = 0
  · rw [if_pos h0]
    exact ⟨rfl, fun _ _ => rfl⟩
  rw [if_neg h0]
  simp only [show (16 + 16 : Nat) = 32 from rfl]
  by_cases hm : w.mmap s.trace 32 = MAP_FAILED
  · rw [if_pos hm]
    exact ⟨rfl, fun _ _ => rfl⟩
  rw [if_neg hm]
  generalize hs2 : ({ s.emit (.mmap 32) with
    code := memcpy (s.emit (.mmap 32)).code (w.mmap s.trace 32) target 16 }
      : State) = s2
  have hc2 : ∀ a : Nat, (a < w.mmap s.trace 32 ∨ w.mmap s.trace 32 + 32 ≤ a) →
      s2.code a = s.code a := by
    intro a ha
    rw [← hs2]
    exact memcpy_frame _ _ _ _ _ (by omega)
  have hfst1 := write_absolute_jump_fst w (w.mmap s.trace 32 + 16) (target + 16) s2
  have hfr1 := write_absolute_jump_code_frame w (w.mmap s.trace 32 + 16)
    (target + 16) s2
  cases hj1 : write_absolute_jump w (w.mmap s.trace 32 + 16) (target + 16) s2 with
  | mk b1 s3 =>
    rw [hj1] at hfst1 hfr1
    cases b1 with
    | false =>
      refine ⟨rfl, fun a ha => ?_⟩
      show s3.code a = s.code a
      rw [hfr1 a (by omega), hc2 a ha]
    | true =>
      have hfail2 : jump_not_encodable w target replacement := by
        rcases hfail with h | h
        · have := hfst1.2 h
          cases this
        · exact h
      simp only
      have hc4 := set_memory_protection_code w target 16
        ((VM_PROT_READ ||| VM_PROT_WRITE) ||| VM_PROT_EXECUTE) s3
      cases hp : set_memory_protection w target 16
          ((VM_PROT_READ ||| VM_PROT_WRITE) ||| VM_PROT_EXECUTE) s3 with
      | mk b2 s4 =>
        rw [hp] at hc4
        cases b2 with
        | false =>
          refine ⟨rfl, fun a ha => ?_⟩
          show s4.code a = s.code a
          rw [hc4, hfr1 a (by omega), hc2 a ha]
        | true =>
          simp only
          have hfst2 := (write_absolute_jump_fst w target replacement s4).2 hfail2
          have hc5 := write_absolute_jump_failed w target replacement s4 hfst2
          cases hj2 : write_absolute_jump w target replacement s4 with
          | mk b3 s5 =>
            rw [hj2] at hfst2 hc5
            simp only at hfst2 hc5
            subst hfst2
            refine ⟨rfl, fun a ha => ?_⟩
            show s5.code a = s.code a
            rw [hc5, hc4, hfr1 a (by omega), hc2 a ha]

/-- C5, witness: a replacement 8 GiB away from the target cannot be reached by `ADRP`;
the hook fails and the target's bytes are untouched. -/
theorem inline_hook_fails_closed_witness :
    (install_inline_hook ex_world 0x5000 0x200005000 ex_state).1 = 0
      ∧ ∀ a : Nat, (a < ex_world.mmap ex_state.trace 32
            ∨ ex_world.mmap ex_state.trace 32 + 32 ≤ a) →
          (install_inline_hook ex_world 0x5000 0x200005000 ex_state).2.code a
            = ex_state.code a :=
  inline_hook_fails_closed ex_world 0x5000 0x200005000 ex_state (Or.inr (by decide))

/-! ## The replacement function -/

theorem is_forced_pair_iff (domain feature : Option (List Char)) :
    is_forced_pair domain feature = true ↔ names_forced_pair domain feature := by
  unfold is_forced_pair names_forced_pair
  cases domain with
  | none => simp
  | some d =>
    cases feature with
    | none => simp
    | some f =>
      simp only [decide_eq_true_eq, strcmp_eq_zero_iff, Option.some.injEq]
      constructor
      · rintro ⟨h1, h2⟩
        exact ⟨d, f, rfl, rfl, by rw [h1]; decide, by rw [h2]; decide⟩
      · rintro ⟨d', f', rfl, rfl, h1, h2⟩
        exact ⟨by rw [h1]; decide, by rw [h2]; decide⟩

/-- C6: `replacement_os_feature_enabled_impl(domain, feature)`, in the injected bundle and
in the interposing library, returns `false` and makes no call through a function pointer
when `domain` is `UIKit` and `feature` is `redesigned_text_cursor`; for every other pair,
a null `domain` or `feature` included, when an original implementation has been captured
(in the bundle: `original_os_feature_enabled_impl`, or else
`original_os_feature_enabled_simple_impl`) its one call is the call of that original with
`domain` and `feature`, and it returns what that call returns; when none has been captured
it returns `true` and calls nothing. -/
theorem feature_query_policy (w : World) (domain feature : Option (List Char)) :
    (∀ s : State,
      (names_forced_pair domain feature →
        (replacement_os_feature_enabled_impl w domain feature s).1 = false
          ∧ ∃ logs, (replacement_os_feature_enabled_impl w domain feature s).2.trace
              = s.trace ++ logs
            ∧ ∀ e ∈ logs, e.is_call = false)
      ∧ (¬ names_forced_pair domain feature →
        ∀ p : Ptr, p ≠ 0 →
          (s.replaced original_os_feature_enabled_impl = p
            ∨ (s.replaced original_os_feature_enabled_impl = 0
              ∧ s.replaced original_os_feature_enabled_simple_impl = p)) →
          ∃ logs, (∀ e ∈ logs, e.is_call = false)
            ∧ (replacement_os_feature_enabled_impl w domain feature s).2.trace
              = s.trace ++ logs ++ [.call p domain feature]
            ∧ (replacement_os_feature_enabled_impl w domain feature s).1
              = w.call (s.trace ++ logs) p domain feature)
      ∧ (¬ names_forced_pair domain feature →
        s.replaced original_os_feature_enabled_impl = 0 →
        s.replaced original_os_feature_enabled_simple_impl = 0 →
        (replacement_os_feature_enabled_impl w domain feature s).1 = true
          ∧ ∃ logs, (replacement_os_feature_enabled_impl w domain feature s).2.trace
              = s.trace ++ logs
            ∧ ∀ e ∈ logs, e.is_call = false))
    ∧ (∀ s : WebContentHook.State,
      (names_forced_pair domain feature →
        (WebContentHook.replacement_os_feature_enabled_impl w domain feature s).1 = false
          ∧ ∃ logs, (WebContentHook.replacement_os_feature_enabled_impl w domain feature
              s).2.trace = s.trace ++ logs
            ∧ ∀ e ∈ logs, e.is_call = false)
      ∧ (¬ names_forced_pair domain feature →
        s.original_os_feature_enabled_impl ≠ 0 →
          ∃ logs, (∀ e ∈ logs, e.is_call = false)
            ∧ (WebContentHook.replacement_os_feature_enabled_impl w domain feature
                s).2.trace
              = s.trace ++ logs ++ [.call s.original_os_feature_enabled_impl domain feature]
            ∧ (WebContentHook.replacement_os_feature_enabled_impl w domain feature s).1
              = w.call (s.trace ++ logs) s.original_os_feature_enabled_impl domain feature)
      ∧ (¬ names_forced_pair domain feature →
        s.original_os_feature_enabled_impl = 0 →
        (WebContentHook.replacement_os_feature_enabled_impl w domain feature s).1 = true
          ∧ ∃ logs, (WebContentHook.replacement_os_feature_enabled_impl w domain feature
              s).2.trace = s.trace ++ logs
            ∧ ∀ e ∈ logs, e.is_call = false)) := by
  constructor
  · intro s
    refine ⟨?_, ?_, ?_⟩
    · intro hf
      have hf' := (is_forced_pair_iff domain feature).2 hf
      unfold replacement_os_feature_enabled_impl
      simp only [hf', if_true, log_format_if_enabled, log_line_if_enabled, should_log,
        State.emit]
      by_cases h1 : s.did_log_first_call = false <;> by_cases h2 : s.did_log_feature = false
        <;> simp [h1, h2, Event.is_call]
    · intro hf p hp hcap
      have hf' : is_forced_pair domain feature = false := by
        cases h : is_forced_pair domain feature with
        | false => rfl
        | true => exact absurd ((is_forced_pair_iff domain feature).1 h) hf
      unfold replacement_os_feature_enabled_impl
      simp only [hf', log_format_if_enabled, should_log, State.emit, call_through]
      by_cases h1 : s.did_log_first_call = false
      · rcases hcap with h | ⟨h, h'⟩
        · subst h
          exact ⟨[.log_format
            "replacement _os_feature_enabled_impl called domain=%s feature=%s"
            [or_null domain, or_null feature]], by simp [Event.is_call], by simp [h1, hp], by simp [h1, hp]⟩
        · subst h'
          exact ⟨[.log_format
            "replacement _os_feature_enabled_impl called domain=%s feature=%s"
            [or_null domain, or_null feature]], by simp [Event.is_call], by simp [h1, hp, h], by simp [h1, hp, h]⟩
      · rcases hcap with h | ⟨h, h'⟩
        · subst h
          exact ⟨[], by simp, by simp [h1, hp], by simp [h1, hp]⟩
        · subst h'
          exact ⟨[], by simp, by simp [h1, hp, h], by simp [h1, hp, h]⟩
    · intro hf h0 h0'
      have hf' : is_forced_pair domain feature = false := by
        cases h : is_forced_pair domain feature with
        | false => rfl
        | true => exact absurd ((is_forced_pair_iff domain feature).1 h) hf
      unfold replacement_os_feature_enabled_impl
      simp only [hf', log_format_if_enabled, should_log, State.emit, call_through]
      by_cases h1 : s.did_log_first_call = false <;> simp [h1, h0, h0', Event.is_call]
  · intro s
    refine ⟨?_, ?_, ?_⟩
    · intro hf
      have hf' := (is_forced_pair_iff domain feature).2 hf
      unfold WebContentHook.replacement_os_feature_enabled_impl
      simp only [hf', if_true, WebContentHook.log_line]
      by_cases h1 : s.did_log_first_call = false <;> simp [h1, Event.is_call]
    · intro hf hp
      have hf' : is_forced_pair domain feature = false := by
        cases h : is_forced_pair domain feature with
        | false => rfl
        | true => exact absurd ((is_forced_pair_iff domain feature).1 h) hf
      unfold WebContentHook.replacement_os_feature_enabled_impl
      simp only [hf']
      by_cases h1 : s.did_log_first_call = false
      · exact ⟨[.log_format "first _os_feature_enabled_impl domain=%s feature=%s"
          [or_null domain, or_null feature]], by simp [Event.is_call], by simp [h1, hp], by simp [h1, hp]⟩
      · exact ⟨[], by simp, by simp [h1, hp], by simp [h1, hp]⟩
    · intro hf h0
      have hf' : is_forced_pair domain feature = false := by
        cases h : is_forced_pair domain feature with
        | false => rfl
        | true => exact absurd ((is_forced_pair_iff domain feature).1 h) hf
      unfold WebContentHook.replacement_os_feature_enabled_impl
      simp only [hf']
      by_cases h1 : s.did_log_first_call = false <;> simp [h1, h0, Event.is_call]

/-- C6, witness: the forced pair is answered `false`; with no original captured a null
pair is answered `true`. -/
theorem feature_query_policy_witness :
    (replacement_os_feature_enabled_impl ex_world (some "UIKit".toList)
        (some "redesigned_text_cursor".toList) ex_state).1 = false
      ∧ (replacement_os_feature_enabled_impl ex_world none none ex_state).1 = true :=
  ⟨(((feature_query_policy ex_world (some "UIKit".toList)
      (some "redesigned_text_cursor".toList)).1 ex_state).1
      ⟨"UIKit".toList, "redesigned_text_cursor".toList, rfl, rfl, by decide, by decide⟩).1,
    (((feature_query_policy ex_world none none).1 ex_state).2.2
      (fun h => by
        obtain ⟨d, f, h1, _⟩ := h
        cases h1) rfl rfl).1⟩

/-! ## What the operations leave alone -/

theorem same_registry_refl (s : State) : same_registry s s :=
  ⟨rfl, rfl, rfl, rfl⟩

theorem same_registry_trans {s t u : State} (h1 : same_registry s t)
    (h2 : same_registry t u) : same_registry s u :=
  ⟨h2.1.trans h1.1, h2.2.1.trans h1.2.1, h2.2.2.1.trans h1.2.2.1,
    h2.2.2.2.trans h1.2.2.2⟩

theorem same_registry_emit (s : State) (e : Event) : same_registry s (s.emit e) :=
  ⟨rfl, rfl, rfl, rfl⟩

theorem same_registry_log_line_if_enabled (m : String) (s : State) :
    same_registry s (log_line_if_enabled m s) :=
  ⟨rfl, rfl, rfl, rfl⟩

theorem same_registry_log_format_if_enabled (f : String) (args : List Arg) (s : State) :
    same_registry s (log_format_if_enabled f args s) :=
  ⟨rfl, rfl, rfl, rfl⟩

theorem same_registry_set_memory_protection (w : World) (address size protection : Nat)
    (s : State) : same_registry s (set_memory_protection w address size protection s).2 := by
  unfold set_memory_protection
  simp only [log_format_if_enabled, should_log, State.emit]
  split_ifs <;> exact ⟨rfl, rfl, rfl, rfl⟩

theorem same_registry_apply_rebinding (sect : section_t) (slide : Int)
    (symtab : Nat → nlist_t) (strtab : List Char) (indirect_symtab : Nat → Nat) (i : Nat)
    (r : rebinding) (s : State) :
    same_registry s (apply_rebinding sect slide symtab strtab indirect_symtab i r s) := by
  unfold apply_rebinding
  simp only [log_format_if_enabled, should_log, State.emit]
  cases r.replaced <;> simp only [] <;> split_ifs <;> exact ⟨rfl, rfl, rfl, rfl⟩

theorem same_registry_bind_slot (w : World) (sect : section_t) (slide : Int)
    (symtab : Nat → nlist_t) (strtab : List Char) (indirect_symtab : Nat → Nat)
    (make_writable : Bool) (i : Nat) (r : rebinding) (s : State) (did : Bool) :
    same_registry s
      (bind_slot w sect slide symtab strtab indirect_symtab make_writable i r s did).state := by
  unfold bind_slot
  split_ifs
  · have h := same_registry_set_memory_protection w (bindings_base sect slide) sect.size
      (VM_PROT_READ ||| VM_PROT_WRITE) s
    cases hp : set_memory_protection w (bindings_base sect slide) sect.size
        (VM_PROT_READ ||| VM_PROT_WRITE) s with
    | mk b s1 =>
      rw [hp] at h
      cases b with
      | false => exact same_registry_trans h (same_registry_log_line_if_enabled _ _)
      | true => exact same_registry_trans h (same_registry_apply_rebinding _ _ _ _ _ _ _ _)
  · exact same_registry_apply_rebinding _ _ _ _ _ _ _ _

theorem same_registry_slots_loop (w : World) (rebindings : List rebindings_entry)
    (sect : section_t) (slide : Int) (symtab : Nat → nlist_t) (strtab : List Char)
    (indirect_symtab : Nat → Nat) (make_writable : Bool) (n i : Nat) (s : State)
    (did : Bool) :
    same_registry s (slots_loop w rebindings sect slide symtab strtab indirect_symtab
      make_writable n i s did).state := by
  induction n generalizing i s did with
  | zero => exact same_registry_refl s
  | succ n ih =>
    cases hr : slot_rebinding rebindings sect symtab strtab indirect_symtab i with
    | none =>
      rw [slots_loop_succ_none _ _ _ _ _ _ _ _ _ _ _ _ hr]
      exact ih (i + 1) s did
    | some r =>
      rw [slots_loop_succ_some _ _ _ _ _ _ _ _ _ _ _ _ _ hr]
      have hb := same_registry_bind_slot w sect slide symtab strtab indirect_symtab
        make_writable i r s did
      cases hf : bind_slot w sect slide symtab strtab indirect_symtab make_writable i r s
          did with
      | next s1 did1 =>
        rw [hf] at hb
        exact same_registry_trans hb (ih (i + 1) s1 did1)
      | ret s1 =>
        rw [hf] at hb
        exact hb

theorem same_registry_perform (w : World) (rebindings : List rebindings_entry)
    (sect : section_t) (slide : Int) (symtab : Nat → nlist_t) (strtab : List Char)
    (indirect_symtab : Nat → Nat) (make_writable : Bool) (s : State) :
    same_registry s (perform_rebinding_with_section w rebindings sect slide symtab strtab
      indirect_symtab make_writable s) := by
  have h := same_registry_slots_loop w rebindings sect slide symtab strtab indirect_symtab
    make_writable (slot_count sect) 0 s false
  unfold perform_rebinding_with_section
  cases hl : slots_loop w rebindings sect slide symtab strtab indirect_symtab make_writable
      (slot_count sect) 0 s false with
  | ret s1 =>
    rw [hl] at h
    exact h
  | next s1 did =>
    rw [hl] at h
    simp only
    split_ifs
    · exact same_registry_trans h (same_registry_set_memory_protection _ _ _ _ _)
    · exact h

theorem same_registry_rebind_sections (w : World) (header : mach_header) (slide : Int)
    (symtab : Nat → nlist_t) (strtab : List Char) (indirect_symtab : Nat → Nat)
    (candidates : List (String × String × Bool)) (s : State) :
    same_registry s
      (rebind_sections w header slide symtab strtab indirect_symtab candidates s) := by
  induction candidates generalizing s with
  | nil => exact same_registry_refl s
  | cons c rest ih =>
    obtain ⟨segment, sect, make_writable⟩ := c
    unfold rebind_sections
    cases find_section header segment sect with
    | none => exact ih s
    | some found =>
      exact same_registry_trans (same_registry_perform _ _ _ _ _ _ _ _ _) (ih _)

theorem same_registry_rebind_symbols_for_image (w : World) (header : mach_header)
    (slide : Int) (s : State) :
    same_registry s (rebind_symbols_for_image w header slide s) := by
  unfold rebind_symbols_for_image
  split
  · exact same_registry_rebind_sections _ _ _ _ _ _ _ _
  · exact same_registry_refl s

theorem same_registry_rebind_images (w : World) (images : List Image) (s : State) :
    same_registry s (rebind_images w images s) := by
  induction images generalizing s with
  | nil => exact same_registry_refl s
  | cons image rest ih =>
    exact same_registry_trans (same_registry_rebind_symbols_for_image _ _ _ _) (ih _)

theorem same_registry_iterate (w : World) (header : mach_header) (slide : Int) (n : Nat)
    (s : State) :
    same_registry s (Nat.iterate (rebind_symbols_for_image w header slide) n s) := by
  induction n generalizing s with
  | zero => exact same_registry_refl s
  | succ n ih =>
    exact same_registry_trans (same_registry_rebind_symbols_for_image _ _ _ _) (ih _)

theorem same_registry_write_absolute_jump (w : World) (from_addr to_addr : Nat) (s : State) :
    same_registry s (write_absolute_jump w from_addr to_addr s).2 := by
  unfold write_absolute_jump
  by_cases hw : w.arm64 = true
  · rw [if_pos hw]
    by_cases h' : adrp_imm from_addr to_addr < -(2 ^ 20) ∨ adrp_imm from_addr to_addr ≥ 2 ^ 20
    · simp only [h', if_true]
      exact ⟨rfl, rfl, rfl, rfl⟩
    · simp only [h', if_false]
      exact ⟨rfl, rfl, rfl, rfl⟩
  · rw [if_neg hw]
    exact ⟨rfl, rfl, rfl, rfl⟩

theorem same_registry_install_inline_hook (w : World) (target replacement : Nat)
    (s : State) : same_registry s (install_inline_hook w target replacement s).2 := by
  unfold install_inline_hook
  by_cases h0 : target = 0 ∨ replacement = 0
  · rw [if_pos h0]
    exact same_registry_refl s
  rw [if_neg h0]
  simp only
  split_ifs
  · exact ⟨rfl, rfl, rfl, rfl⟩
  · generalize hs2 : ({ s.emit (.mmap (16 + 16)) with
      code := memcpy (s.emit (.mmap (16 + 16))).code (w.mmap s.trace (16 + 16)) target 16 }
        : State) = s2
    have h2 : same_registry s s2 := by
      rw [← hs2]
      exact ⟨rfl, rfl, rfl, rfl⟩
    have h3 := same_registry_write_absolute_jump w (w.mmap s.trace (16 + 16) + 16)
      (target + 16) s2
    cases hj1 : write_absolute_jump w (w.mmap s.trace (16 + 16) + 16) (target + 16) s2 with
    | mk b1 s3 =>
      rw [hj1] at h3
      cases b1 with
      | false =>
        exact same_registry_trans h2
          (same_registry_trans h3 (same_registry_log_line_if_enabled _ _))
      | true =>
        simp only
        have h4 := same_registry_set_memory_protection w target 16
          ((VM_PROT_READ ||| VM_PROT_WRITE) ||| VM_PROT_EXECUTE) s3
        cases hp : set_memory_protection w target 16
            ((VM_PROT_READ ||| VM_PROT_WRITE) ||| VM_PROT_EXECUTE) s3 with
        | mk b2 s4 =>
          rw [hp] at h4
          cases b2 with
          | false => exact same_registry_trans h2 (same_registry_trans h3 h4)
          | true =>
            simp only
            have h5 := same_registry_write_absolute_jump w target replacement s4
            cases hj2 : write_absolute_jump w target replacement s4 with
            | mk b3 s5 =>
              rw [hj2] at h5
              have h25 := same_registry_trans h2
                (same_registry_trans h3 (same_registry_trans h4 h5))
              cases b3 with
              | false =>
                exact same_registry_trans h25 (same_registry_log_line_if_enabled _ _)
              | true =>
                simp only [flush_instruction_cache]
                exact same_registry_trans h25
                  (same_registry_trans (same_registry_emit _ _)
                    (same_registry_trans
                      (same_registry_set_memory_protection _ _ _ _ _)
                      (same_registry_emit _ _)))

theorem same_registry_replacement (w : World) (domain feature : Option (List Char))
    (s : State) :
    same_registry s (replacement_os_feature_enabled_impl w domain feature s).2 := by
  unfold replacement_os_feature_enabled_impl
  simp only [log_format_if_enabled, log_line_if_enabled, should_log, State.emit,
    call_through]
  split_ifs <;> exact ⟨rfl, rfl, rfl, rfl⟩

theorem same_registry_resolve_candidates (w : World) (handle : Ptr) (names : List String)
    (target : Ptr) (s : State) :
    same_registry s (resolve_candidates w handle names target s).2 := by
  induction names generalizing target s with
  | nil => exact same_registry_refl s
  | cons name rest ih =>
    unfold resolve_candidates
    exact same_registry_trans (same_registry_log_format_if_enabled _ _ _) (ih _ _)

/-! ## `rebind_symbols` -/

/-- One of the two allocations of `prepend_rebindings` fails. -/
theorem prepend_rebindings_failed (w : World) (rebindings : List rebinding) (s : State)
    (h : w.malloc s.trace 24 = false
      ∨ w.malloc (s.trace ++ [.malloc 24]) ((24 * rebindings.length) % 2 ^ 64) = false) :
    (prepend_rebindings w rebindings s).1 = -1
      ∧ same_registry s (prepend_rebindings w rebindings s).2
      ∧ (prepend_rebindings w rebindings s).2.mem = s.mem
      ∧ (prepend_rebindings w rebindings s).2.replaced = s.replaced
      ∧ (prepend_rebindings w rebindings s).2.code = s.code
      ∧ ∃ added, (prepend_rebindings w rebindings s).2.trace = s.trace ++ added
        ∧ ∀ e ∈ added, ∃ size, e = .malloc size := by
  unfold prepend_rebindings
  simp only [State.emit]
  by_cases h1 : w.malloc s.trace 24 = false
  · rw [if_pos h1]
    exact ⟨rfl, ⟨rfl, rfl, rfl, rfl⟩, rfl, rfl, rfl, [.malloc 24], rfl, by simp⟩
  · rw [if_neg h1]
    have h2 : w.malloc (s.trace ++ [.malloc 24]) ((24 * rebindings.length) % 2 ^ 64)
        = false := by
      rcases h with h | h
      · exact absurd h h1
      · exact h
    rw [if_pos h2]
    exact ⟨rfl, ⟨rfl, rfl, rfl, rfl⟩, rfl, rfl, rfl,
      [.malloc 24, .malloc ((24 * rebindings.length) % 2 ^ 64)], by simp, by simp⟩

/-- What `prepend_rebindings` returns and does to the registry. -/
theorem prepend_rebindings_cases (w : World) (rebindings : List rebinding) (s : State) :
    ((prepend_rebindings w rebindings s).1 = -1
        ∧ same_registry s (prepend_rebindings w rebindings s).2)
      ∨ ((prepend_rebindings w rebindings s).1 = 0
        ∧ (prepend_rebindings w rebindings s).2.did_install_hooks = s.did_install_hooks
        ∧ (prepend_rebindings w rebindings s).2.rebindings_head
          = ⟨rebindings⟩ :: s.rebindings_head
        ∧ (prepend_rebindings w rebindings s).2.add_image_callbacks = s.add_image_callbacks
        ∧ (prepend_rebindings w rebindings s).2.images = s.images
        ∧ w.malloc s.trace 24 = true
        ∧ w.malloc (s.trace ++ [.malloc 24]) ((24 * rebindings.length) % 2 ^ 64) = true) := by
  by_cases h : w.malloc s.trace 24 = false
      ∨ w.malloc (s.trace ++ [.malloc 24]) ((24 * rebindings.length) % 2 ^ 64) = false
  · obtain ⟨h1, h2, _⟩ := prepend_rebindings_failed w rebindings s h
    exact Or.inl ⟨h1, h2⟩
  · have h1 : w.malloc s.trace 24 = true := by
      cases hm : w.malloc s.trace 24 with
      | false => exact absurd (Or.inl hm) h
      | true => rfl
    have h2 : w.malloc (s.trace ++ [.malloc 24]) ((24 * rebindings.length) % 2 ^ 64)
        = true := by
      cases hm : w.malloc (s.trace ++ [.malloc 24]) ((24 * rebindings.length) % 2 ^ 64) with
      | false => exact absurd (Or.inr hm) h
      | true => rfl
    refine Or.inr ?_
    unfold prepend_rebindings
    simp only [State.emit, h1, h2]
    exact ⟨rfl, rfl, rfl, rfl, rfl, trivial, trivial⟩

theorem dyld_register_registry (w : World) (s : State) :
    (dyld_register_func_for_add_image w s).did_install_hooks = s.did_install_hooks
      ∧ (dyld_register_func_for_add_image w s).rebindings_head = s.rebindings_head
      ∧ (dyld_register_func_for_add_image w s).add_image_callbacks
        = s.add_image_callbacks + 1
      ∧ (dyld_register_func_for_add_image w s).images = s.images := by
  unfold dyld_register_func_for_add_image
  obtain ⟨h1, h2, h3, h4⟩ := same_registry_rebind_images w s.images
    ({ s with add_image_callbacks := s.add_image_callbacks + 1 }.emit .register_add_image)
  exact ⟨h1, h2, h3, h4⟩

/-- What `rebind_symbols` returns and does to the registry and to the registration with
the dynamic linker. -/
theorem rebind_symbols_cases (w : World) (rebindings : List rebinding) (s : State) :
    ((rebind_symbols w rebindings s).1 = -1
        ∧ (rebind_symbols w rebindings s).2 = (prepend_rebindings w rebindings s).2
        ∧ same_registry s (rebind_symbols w rebindings s).2)
      ∨ ((rebind_symbols w rebindings s).1 = 0
        ∧ (rebind_symbols w rebindings s).2.did_install_hooks = s.did_install_hooks
        ∧ (rebind_symbols w rebindings s).2.rebindings_head
          = ⟨rebindings⟩ :: s.rebindings_head
        ∧ (rebind_symbols w rebindings s).2.add_image_callbacks
          = s.add_image_callbacks + (if s.rebindings_head.isEmpty then 1 else 0)
        ∧ (rebind_symbols w rebindings s).2.images = s.images
        ∧ w.malloc s.trace 24 = true
        ∧ w.malloc (s.trace ++ [.malloc 24]) ((24 * rebindings.length) % 2 ^ 64) = true) := by
  rcases prepend_rebindings_cases w rebindings s with ⟨h1, h2⟩ | ⟨h1, hf, hh, hc, hi, hm1, hm2⟩
  · left
    have hres : rebind_symbols w rebindings s
        = (-1, (prepend_rebindings w rebindings s).2) := by
      unfold rebind_symbols
      cases hp : prepend_rebindings w rebindings s with
      | mk retval s1 =>
        rw [hp] at h1
        simp only at h1
        subst h1
        rfl
    rw [hres]
    exact ⟨rfl, rfl, h2⟩
  · right
    cases hp : prepend_rebindings w rebindings s with
    | mk retval s1 =>
      rw [hp] at h1 hf hh hc hi
      simp only at h1 hf hh hc hi
      subst h1
      have htail : s1.rebindings_head.tail = s.rebindings_head := by rw [hh]; rfl
      cases he : s.rebindings_head.isEmpty with
      | true =>
        have hres : rebind_symbols w rebindings s
            = (0, rebind_images w (dyld_register_func_for_add_image w s1).images
                (dyld_register_func_for_add_image w s1)) := by
          unfold rebind_symbols
          rw [hp]
          simp only [lt_self_iff_false, if_false, htail, he, if_true]
        rw [hres]
        obtain ⟨d1, d2, d3, d4⟩ := dyld_register_registry w s1
        obtain ⟨r1, r2, r3, r4⟩ := same_registry_rebind_images w
          (dyld_register_func_for_add_image w s1).images
          (dyld_register_func_for_add_image w s1)
        refine ⟨rfl, ?_, ?_, ?_, ?_, hm1, hm2⟩
        · show (rebind_images w _ _).did_install_hooks = _
          rw [r1, d1, hf]
        · show (rebind_images w _ _).rebindings_head = _
          rw [r2, d2, hh]
        · show (rebind_images w _ _).add_image_callbacks = _
          rw [r3, d3, hc]
          rfl
        · show (rebind_images w _ _).images = _
          rw [r4, d4, hi]
      | false =>
        have hres : rebind_symbols w rebindings s = (0, rebind_images w s1.images s1) := by
          unfold rebind_symbols
          rw [hp]
          simp only [lt_self_iff_false, if_false, htail, he, Bool.false_eq_true]
        rw [hres]
        obtain ⟨r1, r2, r3, r4⟩ := same_registry_rebind_images w s1.images s1
        refine ⟨rfl, ?_, ?_, ?_, ?_, hm1, hm2⟩
        · show (rebind_images w _ _).did_install_hooks = _
          rw [r1, hf]
        · show (rebind_images w _ _).rebindings_head = _
          rw [r2, hh]
        · show (rebind_images w _ _).add_image_callbacks = _
          rw [r3, hc]
          rfl
        · show (rebind_images w _ _).images = _
          rw [r4, hi]

/-! ## `install_hooks` -/

theorem install_hooks_of_installed (w : World) (s : State) (h : s.did_install_hooks = true) :
    install_hooks w s = s := by
  unfold install_hooks
  rw [if_pos h]

/-- The first run of `install_hooks`: the flag is set, and the registry and the
registration with the dynamic linker are either untouched or what one call of
`rebind_symbols` makes of them. -/
theorem install_hooks_shape (w : World) (s : State) (h : s.did_install_hooks = false) :
    (install_hooks w s).did_install_hooks = true
      ∧ (((install_hooks w s).rebindings_head = s.rebindings_head
          ∧ (install_hooks w s).add_image_callbacks = s.add_image_callbacks
          ∧ (install_hooks w s).images = s.images)
        ∨ ∃ s4 rebindings, s4.did_install_hooks = true
          ∧ s4.rebindings_head = s.rebindings_head
          ∧ s4.add_image_callbacks = s.add_image_callbacks
          ∧ s4.images = s.images
          ∧ same_registry (rebind_symbols w rebindings s4).2 (install_hooks w s)) := by
  unfold install_hooks
  rw [if_neg (by rw [h]; simp)]
  simp only
  by_cases he : should_enable_feature_hook w = false
  · rw [if_pos he]
    exact ⟨rfl, Or.inl ⟨rfl, rfl, rfl⟩⟩
  rw [if_neg he]
  generalize hs1 : log_line_always "install_hooks begin" { s with did_install_hooks := true }
    = s1
  have h1 : s1.did_install_hooks = true ∧ s1.rebindings_head = s.rebindings_head
      ∧ s1.add_image_callbacks = s.add_image_callbacks ∧ s1.images = s.images := by
    rw [← hs1]
    exact ⟨rfl, rfl, rfl, rfl⟩
  generalize hs2 : (if w.dlopen "/usr/lib/system/libsystem_featureflags.dylib" ≠ 0 then
      log_format_if_enabled "dlopen %s handle=%p"
        [.s "/usr/lib/system/libsystem_featureflags.dylib".toList,
          .p (w.dlopen "/usr/lib/system/libsystem_featureflags.dylib")] s1
    else
      log_format_if_enabled "dlopen %s failed: %s"
        [.s "/usr/lib/system/libsystem_featureflags.dylib".toList, .s (cstr w.dlerror)] s1)
    = s2
  have h2 : same_registry s1 s2 := by
    rw [← hs2]
    split_ifs <;> exact ⟨rfl, rfl, rfl, rfl⟩
  generalize (if w.dlopen "/usr/lib/system/libsystem_featureflags.dylib" ≠ 0 then
      w.dlopen "/usr/lib/system/libsystem_featureflags.dylib" else RTLD_DEFAULT) = handle
  have h3 := same_registry_resolve_candidates w handle
    ["_os_feature_enabled_impl", "__os_feature_enabled_impl", "os_feature_enabled_impl"]
    0 s2
  cases hr3 : resolve_candidates w handle
      ["_os_feature_enabled_impl", "__os_feature_enabled_impl", "os_feature_enabled_impl"]
      0 s2 with
  | mk target s3 =>
    rw [hr3] at h3
    simp only
    have h4 := same_registry_resolve_candidates w handle
      ["_os_feature_enabled_simple_impl", "__os_feature_enabled_simple_impl",
        "os_feature_enabled_simple_impl"] 0 s3
    cases hr4 : resolve_candidates w handle
        ["_os_feature_enabled_simple_impl", "__os_feature_enabled_simple_impl",
          "os_feature_enabled_simple_impl"] 0 s3 with
    | mk simple_target s4 =>
      rw [hr4] at h4
      simp only
      have h14 : same_registry s1 s4 := same_registry_trans h2 (same_registry_trans h3 h4)
      have hs4 : s4.did_install_hooks = true ∧ s4.rebindings_head = s.rebindings_head
          ∧ s4.add_image_callbacks = s.add_image_callbacks ∧ s4.images = s.images :=
        ⟨h14.1.trans h1.1, h14.2.1.trans h1.2.1, h14.2.2.1.trans h1.2.2.1,
          h14.2.2.2.trans h1.2.2.2⟩
      generalize hrb : ([⟨"_os_feature_enabled_impl".toList, w.replacement_address,
            some original_os_feature_enabled_impl⟩,
          ⟨"_os_feature_enabled_simple_impl".toList, w.replacement_address,
            some original_os_feature_enabled_simple_impl⟩] : List rebinding) = rebindings
      have hflag : (rebind_symbols w rebindings s4).2.did_install_hooks = true := by
        rcases rebind_symbols_cases w rebindings s4 with ⟨_, _, hsr⟩ | ⟨_, hf, _⟩
        · exact hsr.1.trans hs4.1
        · exact hf.trans hs4.1
      cases hr5 : rebind_symbols w rebindings s4 with
      | mk result s5 =>
        rw [hr5] at hflag
        simp only at hflag ⊢
        generalize hs6 : log_format_if_enabled
          "rebind_symbols result=%d original_impl=%p simple_impl=%p"
          [.d result, .p (s5.replaced original_os_feature_enabled_impl),
            .p (s5.replaced original_os_feature_enabled_simple_impl)] s5 = s6
        have h6 : same_registry s5 s6 := by
          rw [← hs6]
          exact same_registry_log_format_if_enabled _ _ _
        have hfinal : ∀ t, same_registry s6 t →
            t.did_install_hooks = true
              ∧ ((t.rebindings_head = s.rebindings_head
                  ∧ t.add_image_callbacks = s.add_image_callbacks ∧ t.images = s.images)
                ∨ ∃ s4 rebindings, s4.did_install_hooks = true
                  ∧ s4.rebindings_head = s.rebindings_head
                  ∧ s4.add_image_callbacks = s.add_image_callbacks
                  ∧ s4.images = s.images
                  ∧ same_registry (rebind_symbols w rebindings s4).2 t) := by
          intro t ht
          refine ⟨ht.1.trans (h6.1.trans hflag), Or.inr ⟨s4, rebindings, hs4.1, hs4.2.1,
            hs4.2.2.1, hs4.2.2.2, ?_⟩⟩
          rw [hr5]
          exact same_registry_trans h6 ht
        have h7 := same_registry_install_inline_hook w target w.replacement_address s6
        split_ifs
        · cases hr7 : install_inline_hook w target w.replacement_address s6 with
          | mk trampoline s7 =>
            rw [hr7] at h7
            exact hfinal _ (same_registry_trans h7 ⟨rfl, rfl, rfl, rfl⟩)
        · cases hr7 : install_inline_hook w target w.replacement_address s6 with
          | mk trampoline s7 =>
            rw [hr7] at h7
            exact hfinal _ (same_registry_trans h7 ⟨rfl, rfl, rfl, rfl⟩)
        · exact hfinal _ (same_registry_refl s6)

theorem install_hooks_installed (w : World) (s : State) :
    (install_hooks w s).did_install_hooks = true := by
  cases h : s.did_install_hooks with
  | true => rw [install_hooks_of_installed w s h, h]
  | false => exact (install_hooks_shape w s h).1

/-! ## Sequences of calls -/

theorem image_added_registry (w : World) (image : Image) (s : State) :
    (image_added w image s).did_install_hooks = s.did_install_hooks
      ∧ (image_added w image s).rebindings_head = s.rebindings_head
      ∧ (image_added w image s).add_image_callbacks = s.add_image_callbacks := by
  unfold image_added
  obtain ⟨h1, h2, h3, _⟩ := same_registry_iterate w image.header image.slide
    s.add_image_callbacks { s with images := s.images ++ [image] }
  exact ⟨h1, h2, h3⟩

/-- Once the installed flag is set it stays set. -/
theorem reachable_installed {s0 t : State} (h0 : s0.did_install_hooks = true)
    (h : Reachable s0 t) : t.did_install_hooks = true := by
  induction h with
  | start => exact h0
  | rebind_symbols w rebindings _ ih =>
    rcases rebind_symbols_cases w rebindings _ with ⟨_, _, hsr⟩ | ⟨_, hf, _⟩
    · exact hsr.1.trans ih
    · exact hf.trans ih
  | image_added w image _ ih => exact (image_added_registry w image _).1.trans ih
  | replacement w domain feature _ ih =>
    exact (same_registry_replacement w domain feature _).1.trans ih
  | install_hooks w _ _ => exact install_hooks_installed w _

/-- C7: after `install_hooks` has run once the installed flag is set, and in every state
the process reaches afterwards a further call of `install_hooks` returns the state it was
called in: no batch is added to the registry, no callback is registered, no pointer slot,
code byte or captured original changes, nothing is logged. -/
theorem install_hooks_idempotent (w : World) (s : State) :
    (install_hooks w s).did_install_hooks = true
      ∧ ∀ t, Reachable (install_hooks w s) t → ∀ w' : World, install_hooks w' t = t :=
  ⟨install_hooks_installed w s, fun _ ht w' =>
    install_hooks_of_installed w' _ (reachable_installed (install_hooks_installed w s) ht)⟩

/-- C7, witness: a second call right after the first, and a second call after an image
has been loaded in between. -/
theorem install_hooks_idempotent_witness :
    install_hooks ex_world (install_hooks ex_world ex_state)
        = install_hooks ex_world ex_state
      ∧ install_hooks ex_world
          (image_added ex_world ⟨⟨MH_MAGIC_64, []⟩, 0⟩ (install_hooks ex_world ex_state))
        = image_added ex_world ⟨⟨MH_MAGIC_64, []⟩, 0⟩ (install_hooks ex_world ex_state) :=
  ⟨(install_hooks_idempotent ex_world ex_state).2 _ .start ex_world,
    (install_hooks_idempotent ex_world ex_state).2 _ (.image_added _ _ .start) ex_world⟩

/-- The registration count is one exactly when the registry holds a batch. -/
theorem registered_iff_registry {s0 t : State} (h0 : s0.rebindings_head = [])
    (h0' : s0.add_image_callbacks = 0) (h : Reachable s0 t) :
    t.add_image_callbacks = if t.rebindings_head.isEmpty then 0 else 1 := by
  induction h with
  | start => rw [h0, h0']; rfl
  | rebind_symbols w rebindings _ ih =>
    rcases rebind_symbols_cases w rebindings _ with ⟨_, _, hsr⟩ | ⟨_, _, hh, hc, _⟩
    · rw [hsr.2.2.1, hsr.2.1]
      exact ih
    · rw [hh, hc, ih]
      split_ifs <;> simp_all
  | image_added w image _ ih =>
    obtain ⟨_, h2, h3⟩ := image_added_registry w image _
    rw [h2, h3]
    exact ih
  | replacement w domain feature _ ih =>
    obtain ⟨_, h2, h3, _⟩ := same_registry_replacement w domain feature _
    rw [h2, h3]
    exact ih
  | @install_hooks w t _ ih =>
    cases hf : t.did_install_hooks with
    | true =>
      rw [install_hooks_of_installed w t hf]
      exact ih
    | false =>
      rcases (install_hooks_shape w t hf).2 with ⟨h1, h2, _⟩
        | ⟨s4, rebindings, _, h4h, h4c, _, hsr⟩
      · rw [h1, h2]
        exact ih
      · rw [hsr.2.1, hsr.2.2.1]
        rcases rebind_symbols_cases w rebindings s4 with ⟨_, _, hsr'⟩ | ⟨_, _, hh, hc, _⟩
        · rw [hsr'.2.2.1, hsr'.2.1, h4h, h4c]
          exact ih
        · rw [hh, hc, h4h, h4c, ih]
          split_ifs <;> simp_all

/-- C8: in every state a process reaches from a start with an empty registry and no
callback registered, whatever the sequence of calls, the image-added callback has been
registered once if the registry holds a batch and not at all otherwise: a call of
`rebind_symbols` that adds its batch registers the callback exactly when the registry was
empty before it, and a call one of whose two allocations fails returns `-1`, registers
nothing, adds no batch, and touches no pointer slot, output location or code byte, its
only events being the calls to `malloc`. -/
theorem add_image_callback_registered_once :
    (∀ s0 t : State, s0.rebindings_head = [] → s0.add_image_callbacks = 0 →
        Reachable s0 t →
        t.add_image_callbacks ≤ 1
          ∧ t.add_image_callbacks = if t.rebindings_head.isEmpty then 0 else 1)
      ∧ (∀ (w : World) (rebindings : List rebinding) (s : State),
        (rebind_symbols w rebindings s).1 = 0 →
        (rebind_symbols w rebindings s).2.rebindings_head = ⟨rebindings⟩ :: s.rebindings_head
          ∧ (rebind_symbols w rebindings s).2.add_image_callbacks
            = s.add_image_callbacks + (if s.rebindings_head.isEmpty then 1 else 0))
      ∧ (∀ (w : World) (rebindings : List rebinding) (s : State),
        (w.malloc s.trace 24 = false
          ∨ w.malloc (s.trace ++ [.malloc 24]) ((24 * rebindings.length) % 2 ^ 64) = false) →
        (rebind_symbols w rebindings s).1 = -1
          ∧ same_registry s (rebind_symbols w rebindings s).2
          ∧ (rebind_symbols w rebindings s).2.mem = s.mem
          ∧ (rebind_symbols w rebindings s).2.replaced = s.replaced
          ∧ (rebind_symbols w rebindings s).2.code = s.code
          ∧ ∃ added, (rebind_symbols w rebindings s).2.trace = s.trace ++ added
            ∧ ∀ e ∈ added, ∃ size, e = .malloc size) := by
  refine ⟨?_, ?_, ?_⟩
  · intro s0 t h0 h0' h
    have hinv := registered_iff_registry h0 h0' h
    refine ⟨?_, hinv⟩
    rw [hinv]
    split_ifs <;> omega
  · intro w rebindings s h
    rcases rebind_symbols_cases w rebindings s with ⟨h1, _⟩ | ⟨_, _, hh, hc, _⟩
    · rw [h1] at h
      cases h
    · exact ⟨hh, hc⟩
  · intro w rebindings s h
    rcases rebind_symbols_cases w rebindings s with ⟨h1, h2, h3⟩ | ⟨_, _, _, _, _, hm1, hm2⟩
    · obtain ⟨_, _, p3, p4, p5, p6⟩ := prepend_rebindings_failed w rebindings s h
      refine ⟨h1, h3, ?_, ?_, ?_, ?_⟩
      · rw [h2]
        exact p3
      · rw [h2]
        exact p4
      · rw [h2]
        exact p5
      · rw [h2]
        exact p6
    · rcases h with h | h
      · rw [hm1] at h
        cases h
      · rw [hm2] at h
        cases h

/-- C8, witness: two calls in a row from the example state register the callback once; a
call under an allocator that fails changes nothing but the trace. -/
theorem add_image_callback_registered_once_witness :
    (rebind_symbols ex_world [] (rebind_symbols ex_world [] ex_state).2).2.add_image_callbacks
        = 1
      ∧ (rebind_symbols { ex_world with malloc := fun _ _ => false } [] ex_state).1 = -1
      ∧ (rebind_symbols { ex_world with malloc := fun _ _ => false } []
          ex_state).2.add_image_callbacks = 0 :=
  ⟨(add_image_callback_registered_once.1 ex_state _ rfl rfl
      (.rebind_symbols ex_world [] (.rebind_symbols ex_world [] .start))).2.trans
      (by decide),
    (add_image_callback_registered_once.2.2 { ex_world with malloc := fun _ _ => false } []
      ex_state (Or.inl rfl)).1,
    (add_image_callback_registered_once.2.2 { ex_world with malloc := fun _ _ => false } []
      ex_state (Or.inl rfl)).2.1.2.2.1⟩

/-! ## The environment switches -/

theorem cstr_eq_nil_iff (v : List Char) :
    cstr v = [] ↔ v = [] ∨ ∃ rest, v = NUL :: rest := by
  cases v with
  | nil => simp [cstr]
  | cons c rest =>
    by_cases hc : c = NUL
    · simp [cstr, hc]
    · simp [cstr, hc]

/-- C12, as amended: each of the two switches is enabled when its variable is unset or
empty; for a set, non-empty value `should_override_system_blue` is disabled exactly when
the value begins with `0`, `N` or `n`, and `should_enable_feature_hook` is enabled exactly
when the value begins with `1`. -/
theorem environment_switches (w : World) :
    ((w.getenv "MINIBROWSER_ENABLE_FEATURE_HOOK" = none
        ∨ ∃ v, w.getenv "MINIBROWSER_ENABLE_FEATURE_HOOK" = some v ∧ cstr v = []) →
      should_enable_feature_hook w = true)
    ∧ ((w.getenv "MINIBROWSER_SYSTEM_BLUE_OVERRIDE" = none
        ∨ ∃ v, w.getenv "MINIBROWSER_SYSTEM_BLUE_OVERRIDE" = some v ∧ cstr v = []) →
      should_override_system_blue w = true)
    ∧ (∀ v c rest, w.getenv "MINIBROWSER_SYSTEM_BLUE_OVERRIDE" = some v → cstr v = c :: rest →
      (should_override_system_blue w = false ↔ c = '0' ∨ c = 'N' ∨ c = 'n'))
    ∧ (∀ v c rest, w.getenv "MINIBROWSER_ENABLE_FEATURE_HOOK" = some v → cstr v = c :: rest →
      (should_enable_feature_hook w = true ↔ c = '1')) := by
  refine ⟨?_, ?_, ?_, ?_⟩
  · rintro (h | ⟨v, h, hv⟩)
    · simp [should_enable_feature_hook, h]
    · rcases (cstr_eq_nil_iff v).1 hv with rfl | ⟨rest, rfl⟩
      · simp [should_enable_feature_hook, h]
      · simp [should_enable_feature_hook, h]
  · rintro (h | ⟨v, h, hv⟩)
    · simp [should_override_system_blue, h]
    · rcases (cstr_eq_nil_iff v).1 hv with rfl | ⟨rest, rfl⟩
      · simp [should_override_system_blue, h]
      · simp [should_override_system_blue, h]
  · intro v c rest h hv
    cases v with
    | nil => simp [cstr] at hv
    | cons a tl =>
      by_cases ha : a = NUL
      · simp [cstr, ha] at hv
      · simp only [cstr, ha, if_false, List.cons.injEq] at hv
        obtain ⟨rfl, _⟩ := hv
        simp only [should_override_system_blue, h, ha, if_false, Bool.not_eq_false',
          decide_eq_true_eq]
  · intro v c rest h hv
    cases v with
    | nil => simp [cstr] at hv
    | cons a tl =>
      by_cases ha : a = NUL
      · simp [cstr, ha] at hv
      · simp only [cstr, ha, if_false, List.cons.injEq] at hv
        obtain ⟨rfl, _⟩ := hv
        simp [should_enable_feature_hook, h, ha]

/-- C12, witness: with `MINIBROWSER_ENABLE_FEATURE_HOOK=1` the hook is enabled, with
`MINIBROWSER_SYSTEM_BLUE_OVERRIDE=no` the override is disabled, and with both unset both
are enabled. -/
theorem environment_switches_witness :
    should_enable_feature_hook { ex_world with getenv := fun _ => some "1".toList } = true
      ∧ should_override_system_blue { ex_world with getenv := fun _ => some "no".toList }
        = false
      ∧ should_enable_feature_hook ex_world = true
      ∧ should_override_system_blue ex_world = true :=
  ⟨((environment_switches { ex_world with getenv := fun _ => some "1".toList }).2.2.2
      "1".toList '1' [] rfl (by decide)).2 rfl,
    ((environment_switches { ex_world with getenv := fun _ => some "no".toList }).2.2.1
      "no".toList 'n' "o".toList rfl (by decide)).2 (Or.inr (Or.inr rfl)),
    (environment_switches ex_world).1 (Or.inl rfl),
    (environment_switches ex_world).2.1 (Or.inl rfl)⟩

/-- C12, counterexample: with `MINIBROWSER_ENABLE_FEATURE_HOOK=true`, or `=yes`, values
that begin with none of `0`, `N`, `n`, `should_enable_feature_hook` returns disabled. -/
theorem feature_hook_switch_counterexample :
    should_enable_feature_hook { ex_world with getenv := fun _ => some "true".toList } = false
      ∧ should_enable_feature_hook { ex_world with getenv := fun _ => some "yes".toList }
        = false
      ∧ cstr "true".toList = 't' :: "rue".toList
      ∧ ¬ ('t' = '0' ∨ 't' = 'N' ∨ 't' = 'n') := by
  refine ⟨by decide, by decide, by decide, by decide⟩

/-! ## What a pass leaves alone -/

/-- A slot that has a rebinding is no marker, has a non-zero string-table offset, and its
symbol name is `_` followed by the name of its rebinding, which is registered. -/
theorem slot_rebinding_some_matches (rebindings : List rebindings_entry) (sect : section_t)
    (symtab : Nat → nlist_t) (strtab : List Char) (indirect_symtab : Nat → Nat) (i : Nat)
    (r : rebinding)
    (h : slot_rebinding rebindings sect symtab strtab indirect_symtab i = some r) :
    (indirect_symtab (sect.reserved1 + i) ≠ INDIRECT_SYMBOL_ABS
      ∧ indirect_symtab (sect.reserved1 + i) ≠ INDIRECT_SYMBOL_LOCAL
      ∧ indirect_symtab (sect.reserved1 + i) ≠ (INDIRECT_SYMBOL_LOCAL ||| INDIRECT_SYMBOL_ABS))
      ∧ (symtab (indirect_symtab (sect.reserved1 + i))).n_strx ≠ 0
      ∧ ∃ n, cstr (strtab.drop (symtab (indirect_symtab (sect.reserved1 + i))).n_strx)
          = '_' :: n
        ∧ r ∈ registry_order rebindings ∧ cstr r.name = n := by
  by_cases hidx : indirect_symtab (sect.reserved1 + i) = INDIRECT_SYMBOL_ABS
      ∨ indirect_symtab (sect.reserved1 + i) = INDIRECT_SYMBOL_LOCAL
      ∨ indirect_symtab (sect.reserved1 + i) = (INDIRECT_SYMBOL_LOCAL ||| INDIRECT_SYMBOL_ABS)
  · unfold slot_rebinding slot_symbol at h
    simp only [hidx, if_true] at h
    cases h
  have hidx' : indirect_symtab (sect.reserved1 + i) ≠ INDIRECT_SYMBOL_ABS
      ∧ indirect_symtab (sect.reserved1 + i) ≠ INDIRECT_SYMBOL_LOCAL
      ∧ indirect_symtab (sect.reserved1 + i)
        ≠ (INDIRECT_SYMBOL_LOCAL ||| INDIRECT_SYMBOL_ABS) :=
    ⟨fun e => hidx (Or.inl e), fun e => hidx (Or.inr (Or.inl e)),
      fun e => hidx (Or.inr (Or.inr e))⟩
  by_cases hstrx : (symtab (indirect_symtab (sect.reserved1 + i))).n_strx = 0
  · unfold slot_rebinding slot_symbol at h
    simp only [hidx, if_false, hstrx, if_true] at h
    cases h
  refine ⟨hidx', hstrx, ?_⟩
  have hne : slot_rebinding rebindings sect symtab strtab indirect_symtab i ≠ none := by
    rw [h]
    simp
  obtain ⟨n, hn, _⟩ := (slot_rebinding_ne_none_iff rebindings sect symtab strtab
    indirect_symtab i hidx' hstrx).1 hne
  rw [slot_rebinding_of_name rebindings sect symtab strtab indirect_symtab i n hidx' hstrx
    hn] at h
  refine ⟨n, hn, List.mem_of_find?_eq_some h, ?_⟩
  simpa using List.find?_some h

/-- The stores of a pass, whatever the kernel answers: each one puts the replacement of a
rebinding into a slot that has that rebinding. -/
theorem perform_store_sound (w : World) (rebindings : List rebindings_entry)
    (sect : section_t) (slide : Int) (symtab : Nat → nlist_t) (strtab : List Char)
    (indirect_symtab : Nat → Nat) (make_writable : Bool) (s : State) (a : Nat) (v : Ptr)
    (h : Event.store a v ∈ (perform_rebinding_with_section w rebindings sect slide symtab
      strtab indirect_symtab make_writable s).trace.drop s.trace.length) :
    ∃ k r, k < slot_count sect
      ∧ slot_rebinding rebindings sect symtab strtab indirect_symtab k = some r
      ∧ a = slot_address sect slide k ∧ v = r.replacement := by
  by_cases hperm : make_writable = false ∨ grants_write w sect slide s.trace
  · exact (perform_store_iff w rebindings sect slide symtab strtab indirect_symtab
      make_writable s hperm a v).1 h
  · have hw : make_writable = true := by
      cases make_writable <;> simp_all
    have hg : ¬ grants_write w sect slide s.trace := fun e => hperm (Or.inr e)
    subst hw
    by_cases hm : ∃ k, k < slot_count sect
        ∧ slot_rebinding rebindings sect symtab strtab indirect_symtab k ≠ none
    · rw [(perform_refused w rebindings sect slide symtab strtab indirect_symtab true s rfl
        hg hm).2.2, List.drop_left] at h
      simp [protect_event] at h
    · have hnone : ∀ k, k < slot_count sect →
          slot_rebinding rebindings sect symtab strtab indirect_symtab k = none := by
        intro k hk
        by_contra hne
        exact hm ⟨k, hk, hne⟩
      rw [perform_no_match w rebindings sect slide symtab strtab indirect_symtab true s
        hnone, List.drop_length] at h
      simp at h

/-- C16: a pass leaves unchanged every slot whose indirect-symbol entry is
`INDIRECT_SYMBOL_ABS`, `INDIRECT_SYMBOL_LOCAL` or both, every slot whose string-table
offset is zero and every slot whose symbol name is not `_` followed by the name of a
registered rebinding; every store of the pass goes to a slot that is no marker, has a
non-zero string-table offset and whose name is `_` followed by the name of a registered
rebinding, no other pointer cell changes, and the registry is what it was. -/
theorem pass_writes_only_matching_slots (w : World) (rebindings : List rebindings_entry)
    (sect : section_t) (slide : Int) (symtab : Nat → nlist_t) (strtab : List Char)
    (indirect_symtab : Nat → Nat) (make_writable : Bool) (s : State) :
    (∀ i, i < slot_count sect →
      ((indirect_symtab (sect.reserved1 + i) = INDIRECT_SYMBOL_ABS
          ∨ indirect_symtab (sect.reserved1 + i) = INDIRECT_SYMBOL_LOCAL
          ∨ indirect_symtab (sect.reserved1 + i)
            = (INDIRECT_SYMBOL_LOCAL ||| INDIRECT_SYMBOL_ABS))
        ∨ (symtab (indirect_symtab (sect.reserved1 + i))).n_strx = 0
        ∨ ¬ ∃ n, cstr (strtab.drop (symtab (indirect_symtab (sect.reserved1 + i))).n_strx)
              = '_' :: n
            ∧ ∃ r ∈ registry_order rebindings, cstr r.name = n) →
      (perform_rebinding_with_section w rebindings sect slide symtab strtab
          indirect_symtab make_writable s).mem (slot_address sect slide i)
        = s.mem (slot_address sect slide i))
    ∧ (∀ a v, Event.store a v ∈ (perform_rebinding_with_section w rebindings sect slide
          symtab strtab indirect_symtab make_writable s).trace.drop s.trace.length →
        ∃ k r, k < slot_count sect ∧ a = slot_address sect slide k ∧ v = r.replacement
          ∧ (indirect_symtab (sect.reserved1 + k) ≠ INDIRECT_SYMBOL_ABS
            ∧ indirect_symtab (sect.reserved1 + k) ≠ INDIRECT_SYMBOL_LOCAL
            ∧ indirect_symtab (sect.reserved1 + k)
              ≠ (INDIRECT_SYMBOL_LOCAL ||| INDIRECT_SYMBOL_ABS))
          ∧ (symtab (indirect_symtab (sect.reserved1 + k))).n_strx ≠ 0
          ∧ ∃ n, cstr (strtab.drop (symtab (indirect_symtab (sect.reserved1 + k))).n_strx)
              = '_' :: n
            ∧ r ∈ registry_order rebindings ∧ cstr r.name = n)
    ∧ (∀ a : Nat, (∀ k, k < slot_count sect → slot_address sect slide k = a →
          slot_rebinding rebindings sect symtab strtab indirect_symtab k = none) →
        (perform_rebinding_with_section w rebindings sect slide symtab strtab
          indirect_symtab make_writable s).mem a = s.mem a)
    ∧ (perform_rebinding_with_section w rebindings sect slide symtab strtab
        indirect_symtab make_writable s).rebindings_head = s.rebindings_head := by
  refine ⟨?_, ?_, ?_, ?_⟩
  · intro i _ hcond
    apply perform_mem_frame
    intro k _ hk
    have hki : k = i := (slot_address_inj sect slide).1 hk
    subst hki
    cases hr : slot_rebinding rebindings sect symtab strtab indirect_symtab k with
    | none => rfl
    | some r =>
      obtain ⟨h1, h2, n, hn, hmem, hname⟩ := slot_rebinding_some_matches rebindings sect
        symtab strtab indirect_symtab k r hr
      rcases hcond with hc | hc | hc
      · rcases hc with hc | hc | hc
        · exact absurd hc h1.1
        · exact absurd hc h1.2.1
        · exact absurd hc h1.2.2
      · exact absurd hc h2
      · exact absurd ⟨n, hn, r, hmem, hname⟩ hc
  · intro a v h
    obtain ⟨k, r, hk, hr, ha, hv⟩ := perform_store_sound w rebindings sect slide symtab
      strtab indirect_symtab make_writable s a v h
    obtain ⟨h1, h2, h3⟩ := slot_rebinding_some_matches rebindings sect symtab strtab
      indirect_symtab k r hr
    exact ⟨k, r, hk, ha, hv, h1, h2, h3⟩
  · intro a h
    exact perform_mem_frame w rebindings sect slide symtab strtab indirect_symtab
      make_writable s a h
  · exact (same_registry_perform w rebindings sect slide symtab strtab indirect_symtab
      make_writable s).2.1

/-- C16, witness: the second slot of the example section, which imports `xfoo`, keeps its
value `9`. -/
theorem pass_writes_only_matching_slots_witness :
    (perform_rebinding_with_section ex_world ex_registry ex_section 0 ex_symtab ex_strtab
        ex_indirect true ex_state).mem (slot_address ex_section 0 1)
      = ex_state.mem (slot_address ex_section 0 1) :=
  (pass_writes_only_matching_slots ex_world ex_registry ex_section 0 ex_symtab ex_strtab
    ex_indirect true ex_state).1 1 (by decide)
    (Or.inr (Or.inr (by
      rintro ⟨n, hn, _⟩
      have h : cstr (ex_strtab.drop (ex_symtab (ex_indirect (ex_section.reserved1
          + 1))).n_strx) = "xfoo".toList := by decide
      rw [h] at hn
      injection hn with h1 _
      revert h1
      decide)))

/-! ## A successful inline hook -/

theorem jump_code_frame (code : Nat → Nat) (from_addr to_addr x : Nat)
    (h : x < from_addr ∨ from_addr + 16 ≤ x) :
    jump_code code from_addr to_addr x = code x := by
  unfold jump_code
  rw [store32_frame _ _ _ _ (by omega), store32_frame _ _ _ _ (by omega),
    store32_frame _ _ _ _ (by omega), store32_frame _ _ _ _ (by omega)]

theorem jump_code_load_frame (code : Nat → Nat) (from_addr to_addr b : Nat)
    (h : b + 4 ≤ from_addr ∨ from_addr + 16 ≤ b) :
    load32 (jump_code code from_addr to_addr) b = load32 code b := by
  unfold load32
  rw [jump_code_frame _ _ _ _ (by omega), jump_code_frame _ _ _ _ (by omega),
    jump_code_frame _ _ _ _ (by omega), jump_code_frame _ _ _ _ (by omega)]

/-- The four words read back from the place a jump has been stored at. -/
theorem jump_code_words (code : Nat → Nat) (from_addr to_addr : Nat) :
    load32 (jump_code code from_addr to_addr) from_addr
        = adrp_word (adrp_imm from_addr to_addr)
      ∧ load32 (jump_code code from_addr to_addr) (from_addr + 4) = add_word to_addr
      ∧ load32 (jump_code code from_addr to_addr) (from_addr + 8) = br_word
      ∧ load32 (jump_code code from_addr to_addr) (from_addr + 12) = nop_word := by
  unfold jump_code
  refine ⟨?_, ?_, ?_, ?_⟩
  · rw [load32_store32_frame _ _ _ _ (by omega), load32_store32_frame _ _ _ _ (by omega),
      load32_store32_frame _ _ _ _ (by omega), load32_store32_same _ _ _ (adrp_word_lt _)]
  · rw [load32_store32_frame _ _ _ _ (by omega), load32_store32_frame _ _ _ _ (by omega),
      load32_store32_same _ _ _ (add_word_lt _)]
  · rw [load32_store32_frame _ _ _ _ (by omega), load32_store32_same _ _ _ (by decide)]
  · rw [load32_store32_same _ _ _ (by decide)]

/-- What a successful `write_absolute_jump` returns. -/
theorem write_absolute_jump_success (w : World) (from_addr to_addr : Nat) (s : State)
    (h : (write_absolute_jump w from_addr to_addr s).1 = true) :
    write_absolute_jump w from_addr to_addr s
      = (true, { s with code := jump_code s.code from_addr to_addr }) := by
  unfold write_absolute_jump at h ⊢
  by_cases hw : w.arm64 = true
  · rw [if_pos hw] at h ⊢
    by_cases h' : adrp_imm from_addr to_addr < -(2 ^ 20) ∨ adrp_imm from_addr to_addr ≥ 2 ^ 20
    · simp only [h', if_true] at h
      cases h
    · rw [if_neg h']
      rfl
  · rw [if_neg hw] at h
    cases h

/-- The path of a successful `install_inline_hook`: the value returned is the address
`mmap` returned, both jumps were encodable, and the code bytes are those of the target's
first 16 bytes copied to the trampoline, then the jump back stored behind them, then the
jump to the replacement stored over the target. -/
theorem install_inline_hook_success (w : World) (target replacement : Nat) (s : State)
    (hok : (install_inline_hook w target replacement s).1 ≠ 0) :
    (install_inline_hook w target replacement s).1 = w.mmap s.trace 32
      ∧ ¬ jump_not_encodable w (w.mmap s.trace 32 + 16) (target + 16)
      ∧ ¬ jump_not_encodable w target replacement
      ∧ (install_inline_hook w target replacement s).2.code
        = jump_code (jump_code (memcpy s.code (w.mmap s.trace 32) target 16)
            (w.mmap s.trace 32 + 16) (target + 16)) target replacement := by
  unfold install_inline_hook at hok ⊢
  by_cases h0 : target = 0 ∨ replacement = 0
  · rw [if_pos h0] at hok
    exact absurd rfl hok
  rw [if_neg h0] at hok ⊢
  simp only [show (16 + 16 : Nat) = 32 from rfl] at hok ⊢
  by_cases hm : w.mmap s.trace 32 = MAP_FAILED
  · rw [if_pos hm] at hok
    exact absurd rfl hok
  rw [if_neg hm] at hok ⊢
  generalize hs2 : ({ s.emit (.mmap 32) with
    code := memcpy (s.emit (.mmap 32)).code (w.mmap s.trace 32) target 16 } : State)
      = s2 at hok ⊢
  have hc2 : s2.code = memcpy s.code (w.mmap s.trace 32) target 16 := by
    rw [← hs2]
    rfl
  have hfst1 := write_absolute_jump_fst w (w.mmap s.trace 32 + 16) (target + 16) s2
  have hcode1 := fun h => congrArg (fun p => p.2.code)
    (write_absolute_jump_success w (w.mmap s.trace 32 + 16) (target + 16) s2 h)
  cases hj1 : write_absolute_jump w (w.mmap s.trace 32 + 16) (target + 16) s2 with
  | mk b1 s3 =>
    rw [hj1] at hfst1 hcode1 hok
    simp only at hfst1 hcode1 hok
    cases b1 with
    | false => exact absurd rfl hok
    | true =>
      simp only at hok ⊢
      have hne1 : ¬ jump_not_encodable w (w.mmap s.trace 32 + 16) (target + 16) := by
        intro h
        have := hfst1.2 h
        cases this
      have hc3 : s3.code = jump_code s2.code (w.mmap s.trace 32 + 16) (target + 16) :=
        hcode1 rfl
      have hc4 := set_memory_protection_code w target 16
        ((VM_PROT_READ ||| VM_PROT_WRITE) ||| VM_PROT_EXECUTE) s3
      cases hp : set_memory_protection w target 16
          ((VM_PROT_READ ||| VM_PROT_WRITE) ||| VM_PROT_EXECUTE) s3 with
      | mk b2 s4 =>
        rw [hp] at hc4 hok
        simp only at hc4 hok
        cases b2 with
        | false => exact absurd rfl hok
        | true =>
          simp only at hok ⊢
          have hfst2 := write_absolute_jump_fst w target replacement s4
          have hcode2 := fun h => congrArg (fun p => p.2.code)
            (write_absolute_jump_success w target replacement s4 h)
          cases hj2 : write_absolute_jump w target replacement s4 with
          | mk b3 s5 =>
            rw [hj2] at hfst2 hcode2 hok
            simp only at hfst2 hcode2 hok
            cases b3 with
            | false => exact absurd rfl hok
            | true =>
              simp only at hok ⊢
              have hne2 : ¬ jump_not_encodable w target replacement := by
                intro h
                have := hfst2.2 h
                cases this
              have hc5 : s5.code = jump_code s4.code target replacement := hcode2 rfl
              refine ⟨trivial, hne1, hne2, ?_⟩
              simp only [flush_instruction_cache, State.emit]
              rw [set_memory_protection_code]
              simp only [hc5, hc4, hc3, hc2]

/-- C14: whenever `install_inline_hook(target, replacement)` succeeds (the block `mmap`
returned being disjoint from the 16 bytes patched, and all addresses being 64-bit
addresses), the value returned is the address of the trampoline; the first 16 bytes of
the trampoline are the 16 bytes found at `target` before the call; its next 16 bytes are
`ADRP x16 / ADD x16, x16, #imm12 / BR x16 / NOP` with destination `target + 16`; the 16
bytes at `target` are the same four instructions with destination `replacement`; and no
code byte outside those 16 bytes and the trampoline block has changed. -/
theorem inline_hook_installs_trampoline (w : World) (target replacement : Nat) (s : State)
    (hok : (install_inline_hook w target replacement s).1 ≠ 0)
    (hfresh : target + 16 ≤ w.mmap s.trace 32 ∨ w.mmap s.trace 32 + 32 ≤ target)
    (htarget : target + 16 < 2 ^ 64) (hblock : w.mmap s.trace 32 + 32 ≤ 2 ^ 64)
    (hreplacement : replacement < 2 ^ 64) :
    (install_inline_hook w target replacement s).1 = w.mmap s.trace 32
      ∧ (∀ k, k < 16 →
          (install_inline_hook w target replacement s).2.code (w.mmap s.trace 32 + k)
            = s.code (target + k))
      ∧ (is_adrp_x16 (load32 (install_inline_hook w target replacement s).2.code
            (w.mmap s.trace 32 + 16))
        ∧ is_add_x16_x16 (load32 (install_inline_hook w target replacement s).2.code
            (w.mmap s.trace 32 + 16 + 4))
        ∧ load32 (install_inline_hook w target replacement s).2.code
            (w.mmap s.trace 32 + 16 + 8) = 0xD61F0200
        ∧ load32 (install_inline_hook w target replacement s).2.code
            (w.mmap s.trace 32 + 16 + 12) = 0xD503201F
        ∧ jump_destination (w.mmap s.trace 32 + 16)
            (load32 (install_inline_hook w target replacement s).2.code
              (w.mmap s.trace 32 + 16))
            (load32 (install_inline_hook w target replacement s).2.code
              (w.mmap s.trace 32 + 16 + 4))
          = target + 16)
      ∧ (is_adrp_x16 (load32 (install_inline_hook w target replacement s).2.code target)
        ∧ is_add_x16_x16
            (load32 (install_inline_hook w target replacement s).2.code (target + 4))
        ∧ load32 (install_inline_hook w target replacement s).2.code (target + 8)
            = 0xD61F0200
        ∧ load32 (install_inline_hook w target replacement s).2.code (target + 12)
            = 0xD503201F
        ∧ jump_destination target
            (load32 (install_inline_hook w target replacement s).2.code target)
            (load32 (install_inline_hook w target replacement s).2.code (target + 4))
          = replacement)
      ∧ ∀ a : Nat, (a < target ∨ target + 16 ≤ a) →
          (a < w.mmap s.trace 32 ∨ w.mmap s.trace 32 + 32 ≤ a) →
          (install_inline_hook w target replacement s).2.code a = s.code a := by
  obtain ⟨hres, hne1, hne2, hcode⟩ := install_inline_hook_success w target replacement s hok
  have hr1 : -(2 ^ 20) ≤ adrp_imm (w.mmap s.trace 32 + 16) (target + 16)
      ∧ adrp_imm (w.mmap s.trace 32 + 16) (target + 16) < 2 ^ 20 := by
    unfold jump_not_encodable at hne1
    constructor <;> by_contra hc <;> exact hne1 (Or.inr (by omega))
  have hr2 : -(2 ^ 20) ≤ adrp_imm target replacement
      ∧ adrp_imm target replacement < 2 ^ 20 := by
    unfold jump_not_encodable at hne2
    constructor <;> by_contra hc <;> exact hne2 (Or.inr (by omega))
  obtain ⟨t0, t1, t2, t3⟩ := jump_code_words
    (jump_code (memcpy s.code (w.mmap s.trace 32) target 16) (w.mmap s.trace 32 + 16)
      (target + 16)) target replacement
  obtain ⟨b0, b1, b2, b3⟩ := jump_code_words (memcpy s.code (w.mmap s.trace 32) target 16)
    (w.mmap s.trace 32 + 16) (target + 16)
  rw [hcode]
  refine ⟨hres, ?_, ?_, ?_, ?_⟩
  · intro k hk
    rw [jump_code_frame _ target replacement _ (by omega),
      jump_code_frame _ (w.mmap s.trace 32 + 16) (target + 16) _ (by omega)]
    unfold memcpy
    rw [if_pos (by omega), Nat.add_sub_cancel_left]
  · rw [jump_code_load_frame _ target replacement (w.mmap s.trace 32 + 16) (by omega),
      jump_code_load_frame _ target replacement (w.mmap s.trace 32 + 16 + 4) (by omega),
      jump_code_load_frame _ target replacement (w.mmap s.trace 32 + 16 + 8) (by omega),
      jump_code_load_frame _ target replacement (w.mmap s.trace 32 + 16 + 12) (by omega),
      b0, b1, b2, b3]
    exact ⟨adrp_word_is_adrp_x16 _, add_word_is_add_x16_x16 _, br_word_eq, rfl,
      jump_destination_encoded _ _ (by omega) htarget hr1.1 hr1.2⟩
  · rw [t0, t1, t2, t3]
    exact ⟨adrp_word_is_adrp_x16 _, add_word_is_add_x16_x16 _, br_word_eq, rfl,
      jump_destination_encoded _ _ (by omega) hreplacement hr2.1 hr2.2⟩
  · intro a ha1 ha2
    rw [jump_code_frame _ target replacement _ (by omega),
      jump_code_frame _ (w.mmap s.trace 32 + 16) (target + 16) _ (by omega),
      memcpy_frame _ _ _ _ _ (by omega)]

/-- C14, witness: the hook of the function at `0x5000` by the function at `0x9000`, with
the trampoline at `0x20000`. -/
theorem inline_hook_installs_trampoline_witness :
    (install_inline_hook ex_world 0x5000 0x9000 ex_state).1 = 0x20000
      ∧ jump_destination 0x5000
          (load32 (install_inline_hook ex_world 0x5000 0x9000 ex_state).2.code 0x5000)
          (load32 (install_inline_hook ex_world 0x5000 0x9000 ex_state).2.code (0x5000 + 4))
        = 0x9000 :=
  have h := inline_hook_installs_trampoline ex_world 0x5000 0x9000 ex_state (by decide)
    (by decide) (by norm_num) (by decide) (by norm_num)
  ⟨h.1, h.2.2.2.1.2.2.2.2⟩

/-- C15, the failing run: the target at `0x5000` and a replacement 8 GiB away, the
trampoline at `0x20000`.  The jump of the trampoline is written, the target's page is made
readable, writable and executable, the jump to the replacement cannot be encoded, and
`install_inline_hook` returns `NULL` there: the request for read, write and execute is the
last request made for the target's page, no request restores read and execute. -/
theorem failed_hook_leaves_target_writable :
    (install_inline_hook ex_world 0x5000 0x200005000 ex_state).1 = 0
      ∧ (install_inline_hook ex_world 0x5000 0x200005000 ex_state).2.trace
        = [.mmap 32,
          .vm_protect 0x5000 0x1000 ((VM_PROT_READ ||| VM_PROT_WRITE) ||| VM_PROT_EXECUTE),
          .log "adrp immediate out of range", .log "failed to write target jump"]
      ∧ Event.vm_protect 0x5000 0x1000 (VM_PROT_READ ||| VM_PROT_EXECUTE)
        ∉ (install_inline_hook ex_world 0x5000 0x200005000 ex_state).2.trace := by
  decide

/-! ## The fallback of `install_hooks` -/

theorem install_hooks_eq (w : World) (s : State) (hfirst : s.did_install_hooks = false)
    (henabled : should_enable_feature_hook w = true) :
    install_hooks w s
      = if (hooks_after_rebinding w s).2.replaced original_os_feature_enabled_impl = 0
          ∧ (hooks_after_rebinding w s).1 ≠ 0 then
        inline_hook_fallback w (hooks_after_rebinding w s).1 (hooks_after_rebinding w s).2
      else (hooks_after_rebinding w s).2 := by
  unfold install_hooks hooks_after_rebinding inline_hook_fallback feature_rebindings
  rw [if_neg (by rw [hfirst]; simp), if_neg (by rw [henabled]; simp)]

theorem inline_hook_fallback_ends (w : World) (target : Ptr) (s : State) :
    ends_with_hook_attempt (inline_hook_fallback w target s) := by
  unfold inline_hook_fallback ends_with_hook_attempt
  cases install_inline_hook w target w.replacement_address s with
  | mk trampoline s7 =>
    simp only
    split_ifs
    · left
      simp [log_line_always, State.emit]
    · right
      simp [log_line_always, State.emit]

theorem hooks_after_rebinding_ends (w : World) (s : State) :
    ¬ ends_with_hook_attempt (hooks_after_rebinding w s).2 := by
  unfold hooks_after_rebinding ends_with_hook_attempt
  simp [log_format_if_enabled, should_log, State.emit]
/-- C11, as the code has it: on a first run of `install_hooks` with the hook enabled, the
inline-hook fallback is attempted exactly when, after `rebind_symbols` has returned,
`original_os_feature_enabled_impl` has not been populated and `dlsym` has found a target
under one of the three `impl` names; `original_os_feature_enabled_simple_impl` plays no
part.  When the fallback is attempted, the run ends with the call of `install_inline_hook`
on that target and one of the lines `inline hook installed`, `inline hook failed`;
otherwise it ends with the line logged after `rebind_symbols`, and nothing else is done. -/
theorem fallback_iff_impl_unpopulated (w : World) (s : State)
    (hfirst : s.did_install_hooks = false)
    (henabled : should_enable_feature_hook w = true) :
    (((hooks_after_rebinding w s).2.replaced original_os_feature_enabled_impl = 0
          ∧ (hooks_after_rebinding w s).1 ≠ 0) →
        install_hooks w s
          = inline_hook_fallback w (hooks_after_rebinding w s).1
              (hooks_after_rebinding w s).2)
      ∧ (¬ ((hooks_after_rebinding w s).2.replaced original_os_feature_enabled_impl = 0
          ∧ (hooks_after_rebinding w s).1 ≠ 0) →
        install_hooks w s = (hooks_after_rebinding w s).2)
      ∧ (ends_with_hook_attempt (install_hooks w s) ↔
        ((hooks_after_rebinding w s).2.replaced original_os_feature_enabled_impl = 0
          ∧ (hooks_after_rebinding w s).1 ≠ 0)) := by
  have h := install_hooks_eq w s hfirst henabled
  by_cases hc : (hooks_after_rebinding w s).2.replaced original_os_feature_enabled_impl = 0
      ∧ (hooks_after_rebinding w s).1 ≠ 0
  · rw [if_pos hc] at h
    refine ⟨fun _ => h, fun hn => absurd hc hn, ?_⟩
    rw [h]
    exact ⟨fun _ => hc, fun _ => inline_hook_fallback_ends _ _ _⟩
  · rw [if_neg hc] at h
    refine ⟨fun hp => absurd hp hc, fun _ => h, ?_⟩
    rw [h]
    exact ⟨fun he => absurd he (hooks_after_rebinding_ends w s), fun hp => absurd hp hc⟩

/-- C11, witness: in the process `hook_world`, with the slot of the loaded image holding
`0x6000`, the fallback is attempted. -/
theorem fallback_iff_impl_unpopulated_witness :
    ends_with_hook_attempt (install_hooks hook_world (hook_state 0x6000)) ↔
      ((hooks_after_rebinding hook_world (hook_state 0x6000)).2.replaced
          original_os_feature_enabled_impl = 0
        ∧ (hooks_after_rebinding hook_world (hook_state 0x6000)).1 ≠ 0) :=
  (fallback_iff_impl_unpopulated hook_world (hook_state 0x6000) (by decide)
    (by decide)).2.2

set_option maxRecDepth 100000 in
/-- C11, counterexample to the claim as worded: the loaded image imports
`__os_feature_enabled_simple_impl` through a slot that holds `0x6000`, and `dlsym` finds
`_os_feature_enabled_impl` at `0x5000`.  After `rebind_symbols` has returned,
`original_os_feature_enabled_simple_impl` has been populated by the rebinding (with
`0x6000`) and `original_os_feature_enabled_impl` has not; `install_inline_hook` is called
all the same: the trampoline is mapped, and the hook is installed. -/
theorem fallback_with_simple_populated_counterexample :
    (hook_state 0x6000).replaced original_os_feature_enabled_simple_impl = 0
      ∧ (hooks_after_rebinding hook_world (hook_state 0x6000)).2.replaced
          original_os_feature_enabled_simple_impl = 0x6000
      ∧ (hooks_after_rebinding hook_world (hook_state 0x6000)).2.replaced
          original_os_feature_enabled_impl = 0
      ∧ Event.mmap 32 ∈ (install_hooks hook_world (hook_state 0x6000)).trace
      ∧ Event.mmap 32 ∉ (hooks_after_rebinding hook_world (hook_state 0x6000)).2.trace
      ∧ (install_hooks hook_world (hook_state 0x6000)).trace.getLast?
          = some (.log "inline hook installed")
      ∧ (install_hooks hook_world (hook_state 0x6000)).replaced
          original_os_feature_enabled_impl = 0x20000 := by
  decide
/-! ## A slot that holds `NULL` -/

set_option maxRecDepth 100000 in
/-- C13, the failing run: the loaded image imports `__os_feature_enabled_simple_impl`
through a slot that holds `NULL`, the registry is empty, and `rebind_symbols` is called
once with the two rebindings of `install_hooks`, whose replacement is the function at
`0x7000`.  The call registers the image-added callback, which processes the image (the
output location stays `NULL`, the slot receives `0x7000`), and then processes the image a
second time in its own loop: the output location still being `NULL`, it receives what the
slot holds by now.  In the state reached the output location of the registered rebinding
is populated, and with the replacement pointer itself. -/
theorem null_slot_captures_replacement :
    (hook_state 0).replaced original_os_feature_enabled_simple_impl = 0
      ∧ (hook_state 0).mem 0x1000 = 0
      ∧ (rebind_symbols hook_world (feature_rebindings hook_world) (hook_state 0)).1 = 0
      ∧ (⟨"_os_feature_enabled_simple_impl".toList, 0x7000,
            some original_os_feature_enabled_simple_impl⟩ : rebinding)
          ∈ registry_order
            (rebind_symbols hook_world (feature_rebindings hook_world)
              (hook_state 0)).2.rebindings_head
      ∧ (rebind_symbols hook_world (feature_rebindings hook_world)
            (hook_state 0)).2.replaced original_os_feature_enabled_simple_impl = 0x7000
      ∧ (rebind_symbols hook_world (feature_rebindings hook_world)
            (hook_state 0)).2.trace.filter Event.is_store
          = [.store 0x1000 0x7000, .store 0x1000 0x7000]
      ∧ Reachable (hook_state 0)
          (rebind_symbols hook_world (feature_rebindings hook_world) (hook_state 0)).2 :=
  ⟨by decide, by decide, by decide, by decide, by decide, by decide,
    Reachable.rebind_symbols _ _ Reachable.start⟩

/-! ## Passes that change nothing -/

section Engine

variable (w : World) (rebindings : List rebindings_entry) (sect : section_t) (slide : Int)
  (symtab : Nat → nlist_t) (strtab : List Char) (indirect_symtab : Nat → Nat)
  (make_writable : Bool)

/-- A pass over a section whose matched slots hold their replacements already writes
nothing new into the cells, whether the kernel grants the write permission or not. -/
theorem perform_mem_settled (s : State)
    (hs : ∀ k r, k < slot_count sect →
      slot_rebinding rebindings sect symtab strtab indirect_symtab k = some r →
      s.mem (slot_address sect slide k) = r.replacement) (a : Nat) :
    (perform_rebinding_with_section w rebindings sect slide symtab strtab indirect_symtab
      make_writable s).mem a = s.mem a := by
  by_cases ha : ∃ k, k < slot_count sect ∧ slot_address sect slide k = a
      ∧ slot_rebinding rebindings sect symtab strtab indirect_symtab k ≠ none
  · obtain ⟨k, hk, hka, hne⟩ := ha
    cases hr : slot_rebinding rebindings sect symtab strtab indirect_symtab k with
    | none => exact absurd hr hne
    | some r =>
      by_cases hperm : make_writable = false ∨ grants_write w sect slide s.trace
      · rw [← hka, perform_mem_of_rebinding w rebindings sect slide symtab strtab
          indirect_symtab make_writable s k r hperm hk hr, hs k r hk hr]
      · have hw : make_writable = true := by
          cases make_writable <;> simp_all
        have h := perform_refused w rebindings sect slide symtab strtab indirect_symtab
          make_writable s hw (fun hg => hperm (Or.inr hg)) ⟨k, hk, hne⟩
        rw [h.1]
  · exact perform_mem_frame w rebindings sect slide symtab strtab indirect_symtab
      make_writable s a (fun k hk hka => by
        by_contra hne
        exact ha ⟨k, hk, hka, hne⟩)

/-- A pass over a section captures nothing when every output location it could capture
into is populated already. -/
theorem perform_replaced_settled (s : State)
    (hs : ∀ k r l, k < slot_count sect →
      slot_rebinding rebindings sect symtab strtab indirect_symtab k = some r →
      r.replaced = some l → s.replaced l ≠ 0) (l : Nat) :
    (perform_rebinding_with_section w rebindings sect slide symtab strtab indirect_symtab
      make_writable s).replaced l = s.replaced l := by
  by_cases h0 : s.replaced l = 0
  · rw [perform_replaced_eq]
    exact slots_loop_replaced_frame w rebindings sect slide symtab strtab indirect_symtab
      make_writable (slot_count sect) 0 s false l
      (fun k r _ hk hr hl => hs k r l (by omega) hr hl h0)
  · exact perform_replaced_mono w rebindings sect slide symtab strtab indirect_symtab
      make_writable s l h0

/-- With write permission not required or granted, and every matched slot holding a value
that is not null, a pass leaves every output location it could capture into populated. -/
theorem perform_populates (s : State)
    (hperm : make_writable = false ∨ grants_write w sect slide s.trace)
    (hv : ∀ k, k < slot_count sect →
      slot_rebinding rebindings sect symtab strtab indirect_symtab k ≠ none →
      s.mem (slot_address sect slide k) ≠ 0)
    (k : Nat) (r : rebinding) (l : Nat) (hk : k < slot_count sect)
    (hr : slot_rebinding rebindings sect symtab strtab indirect_symtab k = some r)
    (hl : r.replaced = some l) :
    (perform_rebinding_with_section w rebindings sect slide symtab strtab indirect_symtab
      make_writable s).replaced l ≠ 0 := by
  by_cases h0 : s.replaced l = 0
  · classical
    have hex : ∃ j, j < slot_count sect ∧ ∃ r',
        slot_rebinding rebindings sect symtab strtab indirect_symtab j = some r'
          ∧ r'.replaced = some l := ⟨k, hk, r, hr, hl⟩
    obtain ⟨hj, r', hr', hl'⟩ := Nat.find_spec hex
    rw [perform_replaced_capture w rebindings sect slide symtab strtab indirect_symtab
      make_writable s (Nat.find hex) r' l hperm hj hr' hl' h0
      (hv _ hj (by rw [hr']; simp))
      (fun j r'' hlt hr'' hl'' =>
        Nat.find_min hex hlt ⟨by omega, r'', hr'', hl''⟩)]
    exact hv _ hj (by rw [hr']; simp)
  · rw [perform_replaced_mono w rebindings sect slide symtab strtab indirect_symtab
      make_writable s l h0]
    exact h0

end Engine
/-! ## The passes of `rebind_symbols` -/

theorem rebind_sections_eq_run_passes (w : World) (header : mach_header) (slide : Int)
    (symtab : Nat → nlist_t) (strtab : List Char) (indirect_symtab : Nat → Nat)
    (candidates : List (String × String × Bool)) (s : State) :
    rebind_sections w header slide symtab strtab indirect_symtab candidates s
      = run_passes w (section_passes header slide symtab strtab indirect_symtab candidates)
          s := by
  induction candidates generalizing s with
  | nil => rfl
  | cons c rest ih =>
    obtain ⟨segment, sect, make_writable⟩ := c
    unfold rebind_sections section_passes
    cases find_section header segment sect with
    | none => exact ih s
    | some found => exact ih _

theorem rebind_symbols_for_image_eq_run_passes (w : World) (image : Image) (s : State) :
    rebind_symbols_for_image w image.header image.slide s
      = run_passes w (image_passes w image) s := by
  unfold rebind_symbols_for_image image_passes
  generalize walk_commands image.header.commands ⟨none, none, none⟩ = found
  obtain ⟨linkedit, symtab_cmd, dysymtab_cmd⟩ := found
  cases linkedit <;> cases symtab_cmd <;> cases dysymtab_cmd <;>
    first
    | rfl
    | exact rebind_sections_eq_run_passes _ _ _ _ _ _ _ _

theorem run_passes_append (w : World) (ps qs : List Pass) (s : State) :
    run_passes w (ps ++ qs) s = run_passes w qs (run_passes w ps s) := by
  induction ps generalizing s with
  | nil => rfl
  | cons p rest ih => exact ih _

theorem rebind_images_eq_run_passes (w : World) (images : List Image) (s : State) :
    rebind_images w images s = run_passes w (images_passes w images) s := by
  induction images generalizing s with
  | nil => rfl
  | cons image rest ih =>
    unfold rebind_images images_passes
    rw [List.flatMap_cons, run_passes_append, ← rebind_symbols_for_image_eq_run_passes]
    exact ih _

theorem pass_run_registry (w : World) (p : Pass) (s : State) :
    (p.run w s).rebindings_head = s.rebindings_head :=
  (same_registry_perform w s.rebindings_head p.sect p.slide p.symtab p.strtab
    p.indirect_symtab p.make_writable s).2.1

theorem run_passes_registry (w : World) (ps : List Pass) (s : State) :
    (run_passes w ps s).rebindings_head = s.rebindings_head := by
  induction ps generalizing s with
  | nil => rfl
  | cons p rest ih => exact (ih _).trans (pass_run_registry w p s)

/-- A pass writes to no address that is not the address of a slot it rebinds. -/
theorem pass_run_mem_frame (w : World) (p : Pass) (s : State) (a : Nat)
    (h : ∀ k, p.binds s.rebindings_head k → p.address k ≠ a) :
    (p.run w s).mem a = s.mem a :=
  perform_mem_frame w s.rebindings_head p.sect p.slide p.symtab p.strtab p.indirect_symtab
    p.make_writable s a (fun k hk hka => by
      by_contra hne
      exact h k ⟨hk, hne⟩ hka)

theorem run_passes_mem_frame (w : World) (ps : List Pass) (s : State) (a : Nat)
    (h : ∀ p ∈ ps, ∀ k, p.binds s.rebindings_head k → p.address k ≠ a) :
    (run_passes w ps s).mem a = s.mem a := by
  induction ps generalizing s with
  | nil => rfl
  | cons p rest ih =>
    unfold run_passes
    rw [ih (p.run w s) (fun q hq k hb => h q (List.mem_cons_of_mem _ hq) k
      (by rw [pass_run_registry] at hb; exact hb))]
    exact pass_run_mem_frame w p s a (h p (List.mem_cons_self _ _))

theorem run_passes_replaced_mono (w : World) (ps : List Pass) (s : State) (l : Nat)
    (h : s.replaced l ≠ 0) :
    (run_passes w ps s).replaced l = s.replaced l := by
  induction ps generalizing s with
  | nil => rfl
  | cons p rest ih =>
    have h1 : (p.run w s).replaced l = s.replaced l :=
      perform_replaced_mono w s.rebindings_head p.sect p.slide p.symtab p.strtab
        p.indirect_symtab p.make_writable s l h
    unfold run_passes
    rw [ih (p.run w s) (by rw [h1]; exact h), h1]

/-- Passes over sections that are settled change neither a cell nor an output location. -/
theorem run_passes_settled (w : World) (ps : List Pass) (s : State)
    (hm : ∀ p ∈ ps, p.slots_settled s.rebindings_head s.mem)
    (ho : ∀ p ∈ ps, p.outputs_settled s.rebindings_head s.replaced) :
    (run_passes w ps s).mem = s.mem ∧ (run_passes w ps s).replaced = s.replaced := by
  induction ps generalizing s with
  | nil => exact ⟨rfl, rfl⟩
  | cons p rest ih =>
    have h1 : (p.run w s).mem = s.mem := funext (fun a =>
      perform_mem_settled w s.rebindings_head p.sect p.slide p.symtab p.strtab
        p.indirect_symtab p.make_writable s (hm p (List.mem_cons_self _ _)) a)
    have h2 : (p.run w s).replaced = s.replaced := funext (fun l =>
      perform_replaced_settled w s.rebindings_head p.sect p.slide p.symtab p.strtab
        p.indirect_symtab p.make_writable s (ho p (List.mem_cons_self _ _)) l)
    have h3 := pass_run_registry w p s
    unfold run_passes
    obtain ⟨i1, i2⟩ := ih (p.run w s)
      (fun q hq => by rw [h1, h3]; exact hm q (List.mem_cons_of_mem _ hq))
      (fun q hq => by rw [h2, h3]; exact ho q (List.mem_cons_of_mem _ hq))
    exact ⟨i1.trans h1, i2.trans h2⟩

/-- Passes over sections that are separate from each other, whose rebound slots hold values
that are not null, with every request for write permission granted: once they have run,
every section is settled. -/
theorem run_passes_settles (w : World) (ps : List Pass) (s : State)
    (hgrant : ∀ p ∈ ps, ∀ history, p.make_writable = true →
      grants_write w p.sect p.slide history)
    (hvalue : ∀ p ∈ ps, ∀ k, p.binds s.rebindings_head k → s.mem (p.address k) ≠ 0)
    (hsep : ps.Pairwise (Pass.separate s.rebindings_head)) :
    (∀ p ∈ ps, p.slots_settled s.rebindings_head (run_passes w ps s).mem)
      ∧ (∀ p ∈ ps, p.outputs_settled s.rebindings_head (run_passes w ps s).replaced) := by
  induction ps generalizing s with
  | nil => exact ⟨fun p hp => absurd hp (List.not_mem_nil p),
      fun p hp => absurd hp (List.not_mem_nil p)⟩
  | cons p rest ih =>
    have h3 := pass_run_registry w p s
    rw [List.pairwise_cons] at hsep
    have hperm : p.make_writable = false ∨ grants_write w p.sect p.slide s.trace := by
      cases hmw : p.make_writable with
      | false => exact Or.inl rfl
      | true => exact Or.inr (hgrant p (List.mem_cons_self _ _) s.trace hmw)
    have hvalue' : ∀ q ∈ rest, ∀ k, q.binds (p.run w s).rebindings_head k →
        (p.run w s).mem (q.address k) ≠ 0 := by
      intro q hq k hb
      rw [h3] at hb
      rw [pass_run_mem_frame w p s _ (fun j hj => hsep.1 q hq j k hj hb)]
      exact hvalue q (List.mem_cons_of_mem _ hq) k hb
    obtain ⟨i1, i2⟩ := ih (p.run w s)
      (fun q hq => hgrant q (List.mem_cons_of_mem _ hq)) hvalue'
      (by rw [h3]; exact hsep.2)
    rw [h3] at i1 i2
    unfold run_passes
    constructor
    · intro q hq
      rcases List.mem_cons.1 hq with rfl | hq
      · intro k r hk hr
        rw [run_passes_mem_frame w rest (q.run w s) _ (fun q' hq' j hj => by
          rw [h3] at hj
          exact fun e => hsep.1 q' hq' k j ⟨hk, by rw [hr]; simp⟩ hj e.symm)]
        exact perform_mem_of_rebinding w s.rebindings_head q.sect q.slide q.symtab q.strtab
          q.indirect_symtab q.make_writable s k r hperm hk hr
      · exact i1 q hq
    · intro q hq
      rcases List.mem_cons.1 hq with rfl | hq
      · intro k r l hk hr hl
        have hp := perform_populates w s.rebindings_head q.sect q.slide q.symtab q.strtab
          q.indirect_symtab q.make_writable s hperm
          (fun j hj hne => hvalue q (List.mem_cons_self _ _) j ⟨hj, hne⟩) k r l hk hr hl
        rw [run_passes_replaced_mono w rest (q.run w s) l hp]
        exact hp
      · exact i2 q hq
theorem prepend_rebindings_mem (w : World) (rebindings : List rebinding) (s : State) :
    (prepend_rebindings w rebindings s).2.mem = s.mem := by
  unfold prepend_rebindings
  simp only [State.emit]
  split_ifs <;> rfl

/-- The second round of `rebind_symbols`: when the call registers the image-added callback,
the state it returns with is the one its loop over the images makes of the state the
registration has left. -/
theorem rebind_symbols_second_round (w : World) (rebindings : List rebinding) (s : State)
    (hempty : s.rebindings_head = []) (hres : (rebind_symbols w rebindings s).1 = 0) :
    (prepend_rebindings w rebindings s).2.rebindings_head = [⟨rebindings⟩]
      ∧ (prepend_rebindings w rebindings s).2.images = s.images
      ∧ (rebind_symbols w rebindings s).2
        = rebind_images w
            (dyld_register_func_for_add_image w (prepend_rebindings w rebindings s).2).images
            (dyld_register_func_for_add_image w (prepend_rebindings w rebindings s).2) := by
  rcases prepend_rebindings_cases w rebindings s with ⟨h1, _⟩ | ⟨h1, _, hh, _, hi, _, _⟩
  · exfalso
    unfold rebind_symbols at hres
    cases hp : prepend_rebindings w rebindings s with
    | mk retval s1 =>
      rw [hp] at hres h1
      simp only at hres h1
      subst h1
      simp at hres
  · rw [hempty] at hh
    refine ⟨hh, hi, ?_⟩
    unfold rebind_symbols
    cases hp : prepend_rebindings w rebindings s with
    | mk retval s1 =>
      rw [hp] at h1 hh
      simp only at h1 hh ⊢
      subst h1
      rw [hh]
      simp

/-- C17: re-applying is idempotent.  For every section and registry, when the write
permission is not required or is granted to the first pass, a second run of
`perform_rebinding_with_section` right after the first leaves every cell, hence every
pointer slot, with the value the first run has left; when moreover every slot that has a
rebinding held a value that is not null before the first run, the second run leaves every
output location with the value the first run has left.  So, for a call of `rebind_symbols`
on an empty registry that returns 0 (the call registers the image-added callback, the
dynamic linker calls it for every loaded image, and the loop of `rebind_symbols` processes
every image a second time), in a process whose kernel grants the requests for write
permission, whose sections rebind slots at addresses different from one section to the
other, the slots that have a rebinding holding values that are not null: the second
processing changes no cell and no output location. -/
theorem reapplying_is_idempotent (w : World) :
    (∀ (rebindings : List rebindings_entry) (sect : section_t) (slide : Int)
        (symtab : Nat → nlist_t) (strtab : List Char) (indirect_symtab : Nat → Nat)
        (make_writable : Bool) (s : State),
        (make_writable = false ∨ grants_write w sect slide s.trace) →
        (∀ a : Nat,
          (perform_rebinding_with_section w rebindings sect slide symtab strtab
            indirect_symtab make_writable
            (perform_rebinding_with_section w rebindings sect slide symtab strtab
              indirect_symtab make_writable s)).mem a
          = (perform_rebinding_with_section w rebindings sect slide symtab strtab
              indirect_symtab make_writable s).mem a)
        ∧ ((∀ k, k < slot_count sect →
              slot_rebinding rebindings sect symtab strtab indirect_symtab k ≠ none →
              s.mem (slot_address sect slide k) ≠ 0) →
            ∀ l : Nat,
              (perform_rebinding_with_section w rebindings sect slide symtab strtab
                indirect_symtab make_writable
                (perform_rebinding_with_section w rebindings sect slide symtab strtab
                  indirect_symtab make_writable s)).replaced l
              = (perform_rebinding_with_section w rebindings sect slide symtab strtab
                  indirect_symtab make_writable s).replaced l))
      ∧ (∀ (rebindings : List rebinding) (s : State),
        s.rebindings_head = [] →
        (rebind_symbols w rebindings s).1 = 0 →
        (∀ p ∈ images_passes w s.images, ∀ history, p.make_writable = true →
          grants_write w p.sect p.slide history) →
        (∀ p ∈ images_passes w s.images, ∀ k, p.binds [⟨rebindings⟩] k →
          s.mem (p.address k) ≠ 0) →
        (images_passes w s.images).Pairwise (Pass.separate [⟨rebindings⟩]) →
        (rebind_symbols w rebindings s).2
            = rebind_images w
                (dyld_register_func_for_add_image w
                  (prepend_rebindings w rebindings s).2).images
                (dyld_register_func_for_add_image w (prepend_rebindings w rebindings s).2)
          ∧ (rebind_symbols w rebindings s).2.mem
            = (dyld_register_func_for_add_image w (prepend_rebindings w rebindings s).2).mem
          ∧ (rebind_symbols w rebindings s).2.replaced
            = (dyld_register_func_for_add_image w
                (prepend_rebindings w rebindings s).2).replaced) := by
  constructor
  · intro rebindings sect slide symtab strtab indirect_symtab make_writable s hperm
    constructor
    · intro a
      exact perform_mem_settled w rebindings sect slide symtab strtab indirect_symtab
        make_writable _ (fun k r hk hr =>
          perform_mem_of_rebinding w rebindings sect slide symtab strtab indirect_symtab
            make_writable s k r hperm hk hr) a
    · intro hv l
      exact perform_replaced_settled w rebindings sect slide symtab strtab indirect_symtab
        make_writable _ (fun k r l' hk hr hl =>
          perform_populates w rebindings sect slide symtab strtab indirect_symtab
            make_writable s hperm hv k r l' hk hr hl) l
  · intro rebindings s hempty hres hgrant hvalue hsep
    obtain ⟨hh, hi, hsecond⟩ := rebind_symbols_second_round w rebindings s hempty hres
    have hreg := dyld_register_registry w (prepend_rebindings w rebindings s).2
    have ht : dyld_register_func_for_add_image w (prepend_rebindings w rebindings s).2
        = run_passes w (images_passes w s.images)
            ({ (prepend_rebindings w rebindings s).2 with
                add_image_callbacks :=
                  (prepend_rebindings w rebindings s).2.add_image_callbacks + 1 }.emit
              .register_add_image) := by
      have himages : images_passes w (prepend_rebindings w rebindings s).2.images
          = images_passes w s.images := by
        rw [hi]
      unfold dyld_register_func_for_add_image
      rw [rebind_images_eq_run_passes, himages]
    have hsettles := run_passes_settles w (images_passes w s.images)
      ({ (prepend_rebindings w rebindings s).2 with
          add_image_callbacks :=
            (prepend_rebindings w rebindings s).2.add_image_callbacks + 1 }.emit
        .register_add_image)
      hgrant
      (fun p hp k hb => by
        have hm : ({ (prepend_rebindings w rebindings s).2 with
            add_image_callbacks :=
              (prepend_rebindings w rebindings s).2.add_image_callbacks + 1 }.emit
            .register_add_image).mem = s.mem := prepend_rebindings_mem w rebindings s
        rw [hm]
        exact hvalue p hp k (by
          have hb' : p.binds (prepend_rebindings w rebindings s).2.rebindings_head k := hb
          rw [hh] at hb'
          exact hb'))
      (by
        show (images_passes w s.images).Pairwise
          (Pass.separate (prepend_rebindings w rebindings s).2.rebindings_head)
        rw [hh]
        exact hsep)
    rw [← ht] at hsettles
    have hfix := run_passes_settled w (images_passes w s.images)
      (dyld_register_func_for_add_image w (prepend_rebindings w rebindings s).2)
      (by
        rw [hreg.2.1]
        exact hsettles.1)
      (by
        rw [hreg.2.1]
        exact hsettles.2)
    rw [hsecond, hreg.2.2.2, hi, rebind_images_eq_run_passes]
    exact ⟨rfl, hfix.1, hfix.2⟩
theorem two_images_passes :
    images_passes hook_world two_images_state.images
      = [⟨⟨0x1000, 8, 0⟩, 0, fun _ => ⟨1⟩,
          (NUL :: "__os_feature_enabled_simple_impl".toList) ++ [NUL], fun k => k, false⟩,
        ⟨⟨0x2000, 8, 0⟩, 0, fun _ => ⟨1⟩,
          (NUL :: "__os_feature_enabled_simple_impl".toList) ++ [NUL], fun k => k, true⟩] := by
  rfl

/-- C17, witness: two passes over `ex_section` with the registry `ex_registry`, which needs
no write permission, and the call of `rebind_symbols` by `install_hooks` in the process
`hook_world` with two loaded images, which import `__os_feature_enabled_simple_impl`
through a slot of `__DATA,__got` that holds `0x6000` and through a slot of
`__DATA_CONST,__got` that holds `0x6100`. -/
theorem reapplying_is_idempotent_witness :
    ((perform_rebinding_with_section ex_world ex_registry ex_section 0 ex_symtab ex_strtab
          ex_indirect false
          (perform_rebinding_with_section ex_world ex_registry ex_section 0 ex_symtab
            ex_strtab ex_indirect false ex_state)).mem 4096
        = (perform_rebinding_with_section ex_world ex_registry ex_section 0 ex_symtab
            ex_strtab ex_indirect false ex_state).mem 4096)
      ∧ ((perform_rebinding_with_section ex_world ex_registry ex_section 0 ex_symtab
            ex_strtab ex_indirect false
            (perform_rebinding_with_section ex_world ex_registry ex_section 0 ex_symtab
              ex_strtab ex_indirect false ex_state)).replaced 0
          = (perform_rebinding_with_section ex_world ex_registry ex_section 0 ex_symtab
              ex_strtab ex_indirect false ex_state).replaced 0)
      ∧ (rebind_symbols hook_world (feature_rebindings hook_world) two_images_state).2.mem
        = (dyld_register_func_for_add_image hook_world
            (prepend_rebindings hook_world (feature_rebindings hook_world)
              two_images_state).2).mem
      ∧ (rebind_symbols hook_world (feature_rebindings hook_world)
            two_images_state).2.replaced
        = (dyld_register_func_for_add_image hook_world
            (prepend_rebindings hook_world (feature_rebindings hook_world)
              two_images_state).2).replaced :=
  ⟨((reapplying_is_idempotent ex_world).1 ex_registry ex_section 0 ex_symtab ex_strtab
      ex_indirect false ex_state (Or.inl rfl)).1 4096,
    ((reapplying_is_idempotent ex_world).1 ex_registry ex_section 0 ex_symtab ex_strtab
      ex_indirect false ex_state (Or.inl rfl)).2 (by decide) 0,
    ((reapplying_is_idempotent hook_world).2 (feature_rebindings hook_world)
      two_images_state rfl (by decide)
      (fun p _ history _ => rfl)
      (fun p hp k hb => by
        have hk : k = 0 := by
          have hlt := hb.1
          rw [two_images_passes] at hp
          simp only [List.mem_cons, List.mem_singleton, List.not_mem_nil, or_false] at hp
          rcases hp with rfl | rfl <;> simp [slot_count] at hlt <;> exact hlt
        subst hk
        rw [two_images_passes] at hp
        simp only [List.mem_cons, List.mem_singleton, List.not_mem_nil, or_false] at hp
        rcases hp with rfl | rfl <;> decide)
      (by
        rw [two_images_passes]
        refine List.pairwise_pair.2 ?_
        intro k j hk hj
        have hk0 : k = 0 := by
          have hlt := hk.1
          simp [slot_count] at hlt
          exact hlt
        have hj0 : j = 0 := by
          have hlt := hj.1
          simp [slot_count] at hlt
          exact hlt
        subst hk0 hj0
        decide)).2⟩

end InjectedBundle
